import Mathlib

/-!
# KFS client RPC codec and metaserver logger

A shallow embedding of

* `src/cc/libkfsClient/KfsOps.cc` : the `Request` encoders and the
  `ParseResponseHeader` / `ParseLayoutInfo` decoders of the client operations;
* `src/cc/meta/logger.h` : the inline members of `class Logger`.

Conventions of the embedding.

* C++ integers are `Int` values; where an operation can leave the range of its
  machine type the wrap is written out (`wrapSigned`).
* An `ostringstream` is the `String` written to it, `os << x` is `++`.
* An `istringstream` is an `IStream`: the unread characters and the two state
  bits a string stream can raise.
* `assert` is taken as compiled in (no `NDEBUG`): a failed assertion aborts, and
  an aborting encoder returns `none`.
* Objects reached through pointers (`MetaRequest *`) live in an explicit heap.
* Declarations of headers that are not part of the two files (`KfsOps.h`,
  `properties.h`, `queue.h`, `request.h`) are collected in `Decls` or modelled
  from the specification, each marked as such.
-/

namespace KFS

/-! ## Machine integers -/

/-- Two's-complement wrap of an integer into a signed word of `w` bits. -/
def wrapSigned (w : Nat) (x : Int) : Int :=
  (x + 2 ^ (w - 1)) % 2 ^ w - 2 ^ (w - 1)

/-- Least value of a signed word of `w` bits. -/
def intMin (w : Nat) : Int := -(2 ^ (w - 1))

/-- Greatest value of a signed word of `w` bits. -/
def intMax (w : Nat) : Int := 2 ^ (w - 1) - 1

/-- Membership of an integer in the range of a signed word of `w` bits. -/
def inRange (w : Nat) (x : Int) : Prop := intMin w ≤ x ∧ x ≤ intMax w

instance (w : Nat) (x : Int) : Decidable (inRange w x) := by
  unfold inRange; infer_instance

/-! ## Formatted input from a string stream -/

/-- The unread part of an `istringstream` with its `eofbit` and `failbit`. -/
structure IStream where
  buf : List Char
  eofbit : Bool
  failbit : Bool
  deriving DecidableEq, Repr

/-- The stream `istringstream ist(s)`. -/
def IStream.ofString (s : String) : IStream :=
  { buf := s.data, eofbit := false, failbit := false }

/-- The test `ist.good()`. -/
def IStream.good (s : IStream) : Bool := !s.eofbit && !s.failbit

/-- The classification `isspace` of the "C" locale. -/
def isspace (c : Char) : Bool :=
  c == ' ' || c == '\t' || c == '\n' || c == '\x0b' || c == '\x0c' || c == '\r'

/-- The sentry of a formatted input function with `skipws` set: a stream that
is not good gets `failbit`; otherwise white space is discarded, and running
into the end of the input raises `eofbit` and `failbit`. -/
def IStream.sentry (s : IStream) : IStream × Bool :=
  if s.good then
    match s.buf.dropWhile isspace with
    | [] => ({ buf := [], eofbit := true, failbit := true }, false)
    | c :: cs => ({ s with buf := c :: cs }, true)
  else ({ s with failbit := true }, false)

/-- The extraction `ist >> str` into a `std::string` holding `old`: the maximal
run of characters that are not white space; `old` is kept when the sentry
fails. -/
def readString (s : IStream) (old : String) : IStream × String :=
  match s.sentry with
  | (s1, false) => (s1, old)
  | (s1, true) =>
    let rest := s1.buf.dropWhile (fun c => !isspace c)
    ({ buf := rest, eofbit := rest.isEmpty, failbit := false },
      String.mk (s1.buf.takeWhile (fun c => !isspace c)))

/-- Value of a run of decimal digits, most significant first. -/
def digitsValue (ds : List Char) : Nat :=
  ds.foldl (fun acc c => acc * 10 + (c.toNat - 48)) 0

/-- The extraction `ist >> n` into a signed integer of `w` bits holding `old`:
an optional sign and the maximal run of decimal digits. When the sentry fails
`old` is kept. When no digit is found or the value does not fit, `failbit` is
raised and the target keeps `old` (C++98/03) or, with `cxx11`, receives `0`,
respectively the nearest bound. -/
def readInt (w : Nat) (cxx11 : Bool) (s : IStream) (old : Int) : IStream × Int :=
  match s.sentry with
  | (s1, false) => (s1, old)
  | (s1, true) =>
    let neg := s1.buf.head? == some '-'
    let body := if s1.buf.head? == some '-' || s1.buf.head? == some '+'
      then s1.buf.tail else s1.buf
    let ds := body.takeWhile Char.isDigit
    let rest := body.dropWhile Char.isDigit
    let v : Int := if neg then -(digitsValue ds : Int) else (digitsValue ds : Int)
    if ds.isEmpty then
      ({ buf := rest, eofbit := rest.isEmpty, failbit := true }, if cxx11 then 0 else old)
    else if v < intMin w then
      ({ buf := rest, eofbit := rest.isEmpty, failbit := true },
        if cxx11 then intMin w else old)
    else if intMax w < v then
      ({ buf := rest, eofbit := rest.isEmpty, failbit := true },
        if cxx11 then intMax w else old)
    else ({ buf := rest, eofbit := rest.isEmpty, failbit := false }, v)

/-! ## Data model of the client library -/

/-- Modelled from the spec: `ServerLocation` of `KfsOps.h`, "hostname + port;
equality is structural (host,port pair)". The port is an `int`. -/
structure ServerLocation where
  hostname : String
  port : Int
  deriving DecidableEq, Repr

/-- Modelled from the spec: `ChunkLayoutInfo` of `KfsOps.h`, "file offset, chunk
id, chunk version, ordered sequence of ServerLocation"; the three numbers are
64-bit members. -/
structure ChunkLayoutInfo where
  fileOffset : Int
  chunkId : Int
  chunkVersion : Int
  chunkServers : List ServerLocation
  deriving DecidableEq, Repr

/-- Modelled from the spec: `WriteInfo` of `KfsOps.h`, "ServerLocation + write
identifier", one leg of a replicated write. -/
structure WriteInfo where
  serverLoc : ServerLocation
  writeId : Int
  deriving DecidableEq, Repr

/-- The `struct timeval` of the system headers. -/
structure Timeval where
  tv_sec : Int
  tv_usec : Int
  deriving DecidableEq, Repr

/-- Modelled from the spec: `FileAttr`, "file id, is-directory flag, chunk
count, replication factor, three timestamps (modify/change/create)". -/
structure FileAttr where
  fileId : Int
  isDirectory : Bool
  chunkCount : Int
  numReplicas : Int
  mtime : Timeval
  ctime : Timeval
  crtime : Timeval
  deriving DecidableEq, Repr

/-- Modelled from the spec: the property map of `properties.h`, "a property-map
parser that loads key:value lines and offers typed lookup-with-default". The
map is kept as the list of loaded (key, value) pairs. -/
structure Properties where
  propmap : List (String × String)
  deriving DecidableEq, Repr

/-- Modelled from the spec: text-to-integer conversion of the typed lookup
(`atoi` / `atoll`): leading white space, an optional sign, decimal digits; `0`
when there is no digit; the result is wrapped into `w` bits. -/
def atoi (w : Nat) (s : String) : Int :=
  let cs := s.data.dropWhile isspace
  let neg := cs.head? == some '-'
  let body := if cs.head? == some '-' || cs.head? == some '+' then cs.tail else cs
  let n : Int := digitsValue (body.takeWhile Char.isDigit)
  wrapSigned w (if neg then -n else n)

/-- Modelled from the spec: `prop.getValue(key, def)` with a string default. -/
def Properties.getValue (p : Properties) (key : String) (dflt : String) : String :=
  match p.propmap.lookup key with
  | some v => v
  | none => dflt

/-- Modelled from the spec: `prop.getValue(key, def)` with a default of a signed
integer type of `w` bits. -/
def Properties.getValueInt (p : Properties) (w : Nat) (key : String) (dflt : Int) : Int :=
  match p.propmap.lookup key with
  | some v => atoi w v
  | none => dflt

/-- What the two source files take from headers outside them, and the revision
of the language the stream extractions follow. -/
structure Decls where
  /-- A failed integer extraction stores a value (C++11) instead of leaving the
  target alone (C++98/03). -/
  cxx11 : Bool
  /-- Result of `Properties::loadProperties(ist, ':', false)` on a header text. -/
  loadProperties : String → Properties
  /-- The member `ServerLocation::ToString`. -/
  ToString : ServerLocation → String
  /-- The default constructed `ServerLocation`. -/
  defaultLoc : ServerLocation
  /-- Scalar fields of the default constructed `ChunkLayoutInfo`. -/
  defaultLayout : ChunkLayoutInfo
  /-- Content of an `int` local that is declared without initialiser. -/
  uninitInt : Int

/-- The text `s.c_str()` read as a C string: the characters before the first
NUL. -/
def c_str (s : String) : String := String.mk (s.data.takeWhile (fun c => c != '\x00'))

/-- The protocol version literal. -/
def KFS_VERSION_STR : String := "KFS/1.0"

/-- Open flag for reading only; the three flags have their values of
`<fcntl.h>`. -/
def O_RDONLY : Int := 0

/-- Open flag for writing only. -/
def O_WRONLY : Int := 1

/-- Open flag for reading and writing. -/
def O_RDWR : Int := 2

/-- Modelled from the spec: the members of the base class `KfsOp` of `KfsOps.h`
that the codec uses, "sequence id, status code, content length", and the
content buffer (`none` for a null pointer). -/
structure KfsOp where
  seq : Int
  status : Int
  contentLength : Int
  contentBuf : Option String
  deriving DecidableEq, Repr

/-- Modelled from the spec: the members of `CreateOp` (`KfsOps.h`) that its
encoder and decoder use. Create a file. -/
structure CreateOp extends KfsOp where
  parentFid : Int
  filename : String
  numReplicas : Int
  fileId : Int
  deriving DecidableEq, Repr

/-- Modelled from the spec: the members of `MkdirOp` (`KfsOps.h`) that its
encoder and decoder use. Make a directory. -/
structure MkdirOp extends KfsOp where
  parentFid : Int
  dirname : String
  fileId : Int
  deriving DecidableEq, Repr

/-- Modelled from the spec: the members of `RmdirOp` (`KfsOps.h`) that its
encoder and decoder use. Remove a directory. -/
structure RmdirOp extends KfsOp where
  parentFid : Int
  dirname : String
  deriving DecidableEq, Repr

/-- Modelled from the spec: the members of `RenameOp` (`KfsOps.h`) that its
encoder and decoder use. Rename a file. -/
structure RenameOp extends KfsOp where
  parentFid : Int
  oldname : String
  newpath : String
  overwrite : Bool
  deriving DecidableEq, Repr

/-- Modelled from the spec: the members of `ReaddirOp` (`KfsOps.h`) that its
encoder and decoder use. Read a directory. -/
structure ReaddirOp extends KfsOp where
  fid : Int
  numEntries : Int
  deriving DecidableEq, Repr

/-- Modelled from the spec: the members of `RemoveOp` (`KfsOps.h`) that its
encoder and decoder use. Remove a file. -/
structure RemoveOp extends KfsOp where
  parentFid : Int
  filename : String
  deriving DecidableEq, Repr

/-- Modelled from the spec: the members of `LookupOp` (`KfsOps.h`) that its
encoder and decoder use. Look a name up in a directory. -/
structure LookupOp extends KfsOp where
  parentFid : Int
  filename : String
  fattr : FileAttr
  deriving DecidableEq, Repr

/-- Modelled from the spec: the members of `LookupPathOp` (`KfsOps.h`) that its
encoder and decoder use. Look a path up from a root. -/
structure LookupPathOp extends KfsOp where
  rootFid : Int
  filename : String
  fattr : FileAttr
  deriving DecidableEq, Repr

/-- Modelled from the spec: the members of `GetAllocOp` (`KfsOps.h`) that its
encoder and decoder use. Get the allocation of one chunk. -/
structure GetAllocOp extends KfsOp where
  fid : Int
  fileOffset : Int
  chunkId : Int
  chunkVersion : Int
  chunkServers : List ServerLocation
  deriving DecidableEq, Repr

/-- Modelled from the spec: the members of `GetLayoutOp` (`KfsOps.h`) that its
encoder and decoder use. Get the layout of a file. -/
structure GetLayoutOp extends KfsOp where
  fid : Int
  numChunks : Int
  chunks : List ChunkLayoutInfo
  deriving DecidableEq, Repr

/-- Modelled from the spec: the members of `AllocateOp` (`KfsOps.h`) that its
encoder and decoder use. Allocate a chunk. -/
structure AllocateOp extends KfsOp where
  fid : Int
  fileOffset : Int
  chunkId : Int
  chunkVersion : Int
  masterServer : ServerLocation
  chunkServers : List ServerLocation
  deriving DecidableEq, Repr

/-- Modelled from the spec: the members of `TruncateOp` (`KfsOps.h`) that its
encoder and decoder use. Truncate a file. -/
structure TruncateOp extends KfsOp where
  fid : Int
  fileOffset : Int
  deriving DecidableEq, Repr

/-- Modelled from the spec: the members of `OpenOp` (`KfsOps.h`) that its
encoder and decoder use. Open a chunk. -/
structure OpenOp extends KfsOp where
  chunkId : Int
  openFlags : Int
  deriving DecidableEq, Repr

/-- Modelled from the spec: the members of `CloseOp` (`KfsOps.h`) that its
encoder and decoder use. Close a chunk. -/
structure CloseOp extends KfsOp where
  chunkId : Int
  deriving DecidableEq, Repr

/-- Modelled from the spec: the members of `ReadOp` (`KfsOps.h`) that its
encoder and decoder use. Read from a chunk. -/
structure ReadOp extends KfsOp where
  chunkId : Int
  chunkVersion : Int
  offset : Int
  numBytes : Int
  deriving DecidableEq, Repr

/-- Modelled from the spec: the members of `WritePrepareOp` (`KfsOps.h`) that its
encoder and decoder use. First phase of a write. -/
structure WritePrepareOp extends KfsOp where
  chunkId : Int
  chunkVersion : Int
  offset : Int
  numBytes : Int
  writeId : Int
  deriving DecidableEq, Repr

/-- Modelled from the spec: the members of `WriteSyncOp` (`KfsOps.h`) that its
encoder and decoder use. Second phase of a write. -/
structure WriteSyncOp extends KfsOp where
  chunkId : Int
  chunkVersion : Int
  writeInfo : List WriteInfo
  deriving DecidableEq, Repr

/-- Modelled from the spec: the members of `SizeOp` (`KfsOps.h`) that its
encoder and decoder use. Size of a chunk. -/
structure SizeOp extends KfsOp where
  chunkId : Int
  chunkVersion : Int
  size : Int
  deriving DecidableEq, Repr

/-- Modelled from the spec: the members of `LeaseAcquireOp` (`KfsOps.h`) that its
encoder and decoder use. Acquire a lease on a chunk. -/
structure LeaseAcquireOp extends KfsOp where
  chunkId : Int
  leaseId : Int
  deriving DecidableEq, Repr

/-- Modelled from the spec: the members of `LeaseRenewOp` (`KfsOps.h`) that its
encoder and decoder use. Renew a lease on a chunk. -/
structure LeaseRenewOp extends KfsOp where
  chunkId : Int
  leaseId : Int
  deriving DecidableEq, Repr

/-! ## Request encoders (`KfsOps.cc`, lines 50-272)

Each encoder returns the text it writes to the stream; `none` is an abort on a
failed assertion. -/

/-- The encoder `CreateOp::Request`. -/
def CreateOp.Request (op : CreateOp) : String :=
  "CREATE " ++ "\r\n"
    ++ "Cseq: " ++ toString op.seq ++ "\r\n"
    ++ "Version: " ++ KFS_VERSION_STR ++ "\r\n"
    ++ "Parent File-handle: " ++ toString op.parentFid ++ "\r\n"
    ++ "Filename: " ++ op.filename ++ "\r\n"
    ++ "Num-replicas: " ++ toString op.numReplicas ++ "\r\n\r\n"

/-- The encoder `MkdirOp::Request`. -/
def MkdirOp.Request (op : MkdirOp) : String :=
  "MKDIR " ++ "\r\n"
    ++ "Cseq: " ++ toString op.seq ++ "\r\n"
    ++ "Version: " ++ KFS_VERSION_STR ++ "\r\n"
    ++ "Parent File-handle: " ++ toString op.parentFid ++ "\r\n"
    ++ "Directory: " ++ op.dirname ++ "\r\n\r\n"

/-- The encoder `RmdirOp::Request`. -/
def RmdirOp.Request (op : RmdirOp) : String :=
  "RMDIR " ++ "\r\n"
    ++ "Cseq: " ++ toString op.seq ++ "\r\n"
    ++ "Version: " ++ KFS_VERSION_STR ++ "\r\n"
    ++ "Parent File-handle: " ++ toString op.parentFid ++ "\r\n"
    ++ "Directory: " ++ op.dirname ++ "\r\n\r\n"

/-- The encoder `RenameOp::Request`. -/
def RenameOp.Request (op : RenameOp) : String :=
  let o : Int := if op.overwrite then 1 else 0
  "RENAME " ++ "\r\n"
    ++ "Cseq: " ++ toString op.seq ++ "\r\n"
    ++ "Version: " ++ KFS_VERSION_STR ++ "\r\n"
    ++ "Parent File-handle: " ++ toString op.parentFid ++ "\r\n"
    ++ "Old-name: " ++ op.oldname ++ "\r\n"
    ++ "New-path: " ++ op.newpath ++ "\r\n"
    ++ "Overwrite: " ++ toString o ++ "\r\n\r\n"

/-- The encoder `ReaddirOp::Request`. -/
def ReaddirOp.Request (op : ReaddirOp) : String :=
  "READDIR " ++ "\r\n"
    ++ "Cseq: " ++ toString op.seq ++ "\r\n"
    ++ "Version: " ++ KFS_VERSION_STR ++ "\r\n"
    ++ "Directory File-handle: " ++ toString op.fid ++ "\r\n\r\n"

/-- The encoder `RemoveOp::Request`. -/
def RemoveOp.Request (op : RemoveOp) : String :=
  "REMOVE " ++ "\r\n"
    ++ "Cseq: " ++ toString op.seq ++ "\r\n"
    ++ "Version: " ++ KFS_VERSION_STR ++ "\r\n"
    ++ "Parent File-handle: " ++ toString op.parentFid ++ "\r\n"
    ++ "Filename: " ++ op.filename ++ "\r\n\r\n"

/-- The encoder `LookupOp::Request`. -/
def LookupOp.Request (op : LookupOp) : String :=
  "LOOKUP \r\n"
    ++ "Cseq: " ++ toString op.seq ++ "\r\n"
    ++ "Version: " ++ KFS_VERSION_STR ++ "\r\n"
    ++ "Parent File-handle: " ++ toString op.parentFid ++ "\r\n"
    ++ "Filename: " ++ op.filename ++ "\r\n\r\n"

/-- The encoder `LookupPathOp::Request`. -/
def LookupPathOp.Request (op : LookupPathOp) : String :=
  "LOOKUP_PATH \r\n"
    ++ "Cseq: " ++ toString op.seq ++ "\r\n"
    ++ "Version: " ++ KFS_VERSION_STR ++ "\r\n"
    ++ "Root File-handle: " ++ toString op.rootFid ++ "\r\n"
    ++ "Pathname: " ++ op.filename ++ "\r\n\r\n"

/-- The encoder `GetAllocOp::Request`; it opens with
`assert(fileOffset >= 0)`. -/
def GetAllocOp.Request (op : GetAllocOp) : Option String :=
  if 0 ≤ op.fileOffset then
    some ("GETALLOC \r\n"
      ++ "Cseq: " ++ toString op.seq ++ "\r\n"
      ++ "Version: " ++ KFS_VERSION_STR ++ "\r\n"
      ++ "File-handle: " ++ toString op.fid ++ "\r\n"
      ++ "Chunk-offset: " ++ toString op.fileOffset ++ "\r\n\r\n")
  else none

/-- The encoder `GetLayoutOp::Request`. -/
def GetLayoutOp.Request (op : GetLayoutOp) : String :=
  "GETLAYOUT \r\n"
    ++ "Cseq: " ++ toString op.seq ++ "\r\n"
    ++ "Version: " ++ KFS_VERSION_STR ++ "\r\n"
    ++ "File-handle: " ++ toString op.fid ++ "\r\n\r\n"

/-- The encoder `AllocateOp::Request`. -/
def AllocateOp.Request (op : AllocateOp) : String :=
  "ALLOCATE \r\n"
    ++ "Cseq: " ++ toString op.seq ++ "\r\n"
    ++ "Version: " ++ KFS_VERSION_STR ++ "\r\n"
    ++ "File-handle: " ++ toString op.fid ++ "\r\n"
    ++ "Chunk-offset: " ++ toString op.fileOffset ++ "\r\n\r\n"

/-- The encoder `TruncateOp::Request`. -/
def TruncateOp.Request (op : TruncateOp) : String :=
  "TRUNCATE \r\n"
    ++ "Cseq: " ++ toString op.seq ++ "\r\n"
    ++ "Version: " ++ KFS_VERSION_STR ++ "\r\n"
    ++ "File-handle: " ++ toString op.fid ++ "\r\n"
    ++ "Offset: " ++ toString op.fileOffset ++ "\r\n\r\n"

/-- The encoder `OpenOp::Request`: the four leading lines, then the choice of
`modeStr`, whose `else` branch asserts that the flags are `O_WRONLY` or
`O_RDWR`, then the `Intent` line. -/
def OpenOp.Request (op : OpenOp) : Option String :=
  let os := "OPEN \r\n"
    ++ "Cseq: " ++ toString op.seq ++ "\r\n"
    ++ "Version: " ++ KFS_VERSION_STR ++ "\r\n"
    ++ "Chunk-handle: " ++ toString op.chunkId ++ "\r\n"
  if op.openFlags = O_RDONLY then
    some (os ++ "Intent: " ++ "READ" ++ "\r\n\r\n")
  else if op.openFlags = O_WRONLY ∨ op.openFlags = O_RDWR then
    some (os ++ "Intent: " ++ "WRITE" ++ "\r\n\r\n")
  else none

/-- The encoder `CloseOp::Request`. -/
def CloseOp.Request (op : CloseOp) : String :=
  "CLOSE \r\n"
    ++ "Cseq: " ++ toString op.seq ++ "\r\n"
    ++ "Version: " ++ KFS_VERSION_STR ++ "\r\n"
    ++ "Chunk-handle: " ++ toString op.chunkId ++ "\r\n\r\n"

/-- The encoder `ReadOp::Request`. -/
def ReadOp.Request (op : ReadOp) : String :=
  "READ \r\n"
    ++ "Cseq: " ++ toString op.seq ++ "\r\n"
    ++ "Version: " ++ KFS_VERSION_STR ++ "\r\n"
    ++ "Chunk-handle: " ++ toString op.chunkId ++ "\r\n"
    ++ "Chunk-version: " ++ toString op.chunkVersion ++ "\r\n"
    ++ "Offset: " ++ toString op.offset ++ "\r\n"
    ++ "Num-bytes: " ++ toString op.numBytes ++ "\r\n\r\n"

/-- The encoder `WritePrepareOp::Request`. -/
def WritePrepareOp.Request (op : WritePrepareOp) : String :=
  "WRITE_PREPARE \r\n"
    ++ "Cseq: " ++ toString op.seq ++ "\r\n"
    ++ "Version: " ++ KFS_VERSION_STR ++ "\r\n"
    ++ "Chunk-handle: " ++ toString op.chunkId ++ "\r\n"
    ++ "Chunk-version: " ++ toString op.chunkVersion ++ "\r\n"
    ++ "Offset: " ++ toString op.offset ++ "\r\n"
    ++ "Num-bytes: " ++ toString op.numBytes ++ "\r\n\r\n"

/-- The loop of `WriteSyncOp::Request` from index `i` on, `fuel` bounding the
remaining iterations: while `i < writeInfo.size()` it writes
`writeInfo[i].serverLoc.ToString().c_str()`, a blank, `writeInfo[i].writeId`
and a blank. -/
def WriteSyncOp.serversLoop (d : Decls) (writeInfo : List WriteInfo) :
    Nat → Nat → String → String
  | 0, _, os => os
  | fuel + 1, i, os =>
    match writeInfo.get? i with
    | none => os
    | some w =>
      WriteSyncOp.serversLoop d writeInfo fuel (i + 1)
        (os ++ c_str (d.ToString w.serverLoc) ++ " " ++ toString w.writeId ++ " ")

/-- The encoder `WriteSyncOp::Request`. -/
def WriteSyncOp.Request (d : Decls) (op : WriteSyncOp) : String :=
  let os := "WRITE_SYNC \r\n"
    ++ "Cseq: " ++ toString op.seq ++ "\r\n"
    ++ "Version: " ++ KFS_VERSION_STR ++ "\r\n"
    ++ "Chunk-handle: " ++ toString op.chunkId ++ "\r\n"
    ++ "Chunk-version: " ++ toString op.chunkVersion ++ "\r\n"
    ++ "Num-servers: " ++ toString op.writeInfo.length ++ "\r\n"
    ++ "Servers:"
  WriteSyncOp.serversLoop d op.writeInfo op.writeInfo.length 0 os ++ "\r\n\r\n"

/-- The encoder `SizeOp::Request`. -/
def SizeOp.Request (op : SizeOp) : String :=
  "SIZE \r\n"
    ++ "Cseq: " ++ toString op.seq ++ "\r\n"
    ++ "Version: " ++ KFS_VERSION_STR ++ "\r\n"
    ++ "Chunk-handle: " ++ toString op.chunkId ++ "\r\n"
    ++ "Chunk-version: " ++ toString op.chunkVersion ++ "\r\n\r\n"

/-- The encoder `LeaseAcquireOp::Request`. -/
def LeaseAcquireOp.Request (op : LeaseAcquireOp) : String :=
  "LEASE_ACQUIRE \r\n"
    ++ "Cseq: " ++ toString op.seq ++ "\r\n"
    ++ "Version: " ++ KFS_VERSION_STR ++ "\r\n"
    ++ "Chunk-handle: " ++ toString op.chunkId ++ "\r\n\r\n"

/-- The encoder `LeaseRenewOp::Request`. -/
def LeaseRenewOp.Request (op : LeaseRenewOp) : String :=
  "LEASE_RENEW \r\n"
    ++ "Cseq: " ++ toString op.seq ++ "\r\n"
    ++ "Version: " ++ KFS_VERSION_STR ++ "\r\n"
    ++ "Chunk-handle: " ++ toString op.chunkId ++ "\r\n"
    ++ "Lease-id: " ++ toString op.leaseId ++ "\r\n"
    ++ "Lease-type: READ_LEASE" ++ "\r\n\r\n"

/-- The twenty operation kinds. -/
inductive Op where
  | create (o : CreateOp)
  | mkdir (o : MkdirOp)
  | rmdir (o : RmdirOp)
  | rename (o : RenameOp)
  | readdir (o : ReaddirOp)
  | remove (o : RemoveOp)
  | lookup (o : LookupOp)
  | lookupPath (o : LookupPathOp)
  | getAlloc (o : GetAllocOp)
  | getLayout (o : GetLayoutOp)
  | allocate (o : AllocateOp)
  | truncate (o : TruncateOp)
  | openOp (o : OpenOp)
  | close (o : CloseOp)
  | read (o : ReadOp)
  | writePrepare (o : WritePrepareOp)
  | writeSync (o : WriteSyncOp)
  | size (o : SizeOp)
  | leaseAcquire (o : LeaseAcquireOp)
  | leaseRenew (o : LeaseRenewOp)
  deriving DecidableEq, Repr

/-- The virtual call `op->Request(os)`. -/
def Op.Request (d : Decls) : Op → Option String
  | .create o => some o.Request
  | .mkdir o => some o.Request
  | .rmdir o => some o.Request
  | .rename o => some o.Request
  | .readdir o => some o.Request
  | .remove o => some o.Request
  | .lookup o => some o.Request
  | .lookupPath o => some o.Request
  | .getAlloc o => o.Request
  | .getLayout o => some o.Request
  | .allocate o => some o.Request
  | .truncate o => some o.Request
  | .openOp o => o.Request
  | .close o => some o.Request
  | .read o => some o.Request
  | .writePrepare o => some o.Request
  | .writeSync o => some (o.Request d)
  | .size o => some o.Request
  | .leaseAcquire o => some o.Request
  | .leaseRenew o => some o.Request

/-- The common member `seq` of an operation. -/
def Op.seq : Op → Int
  | .create o => o.seq
  | .mkdir o => o.seq
  | .rmdir o => o.seq
  | .rename o => o.seq
  | .readdir o => o.seq
  | .remove o => o.seq
  | .lookup o => o.seq
  | .lookupPath o => o.seq
  | .getAlloc o => o.seq
  | .getLayout o => o.seq
  | .allocate o => o.seq
  | .truncate o => o.seq
  | .openOp o => o.seq
  | .close o => o.seq
  | .read o => o.seq
  | .writePrepare o => o.seq
  | .writeSync o => o.seq
  | .size o => o.seq
  | .leaseAcquire o => o.seq
  | .leaseRenew o => o.seq

/-! ## Response decoders (`KfsOps.cc`, lines 286-532) -/

/-- The decoder `KfsOp::ParseResponseHeaderCommon`: loads the property map
from the response and reads `Status` and `Content-length`; the `Cseq` of the
response goes to a local that is not used. It returns the updated base members
and the loaded map. -/
def KfsOp.ParseResponseHeaderCommon (d : Decls) (op : KfsOp) (resp : String) :
    KfsOp × Properties :=
  let prop := d.loadProperties resp
  ({ op with
      status := prop.getValueInt 32 "Status" (-1)
      contentLength := prop.getValueInt 32 "Content-length" 0 }, prop)

/-- The loop over `Replicas` in `AllocateOp::ParseResponseHeader`: `n`
iterations, each extracting a host name and a port into `loc` and appending
`loc` unless it equals the master. -/
def AllocateOp.replicasLoop (d : Decls) (masterServer : ServerLocation) :
    Nat → IStream → ServerLocation → List ServerLocation → List ServerLocation
  | 0, _, _, chunkServers => chunkServers
  | n + 1, ser, loc, chunkServers =>
    let r1 := readString ser loc.hostname
    let r2 := readInt 32 d.cxx11 r1.1 loc.port
    let loc1 : ServerLocation := { hostname := r1.2, port := r2.2 }
    AllocateOp.replicasLoop d masterServer n r2.1 loc1
      (if loc1 ≠ masterServer then chunkServers ++ [loc1] else chunkServers)

/-- The decoder `AllocateOp::ParseResponseHeader`: a non-empty `Master` value
is extracted into `masterServer`, which is appended to the list; then, for a
non-empty `Replicas` value, the loop runs `Num-replicas` times starting from a
default constructed `loc`. -/
def AllocateOp.ParseResponseHeader (d : Decls) (op : AllocateOp) (resp : String) :
    AllocateOp :=
  let c := KfsOp.ParseResponseHeaderCommon d op.toKfsOp resp
  let prop := c.2
  let chunkId := prop.getValueInt 64 "Chunk-handle" (-1)
  let chunkVersion := prop.getValueInt 64 "Chunk-version" (-1)
  let master := prop.getValue "Master" ""
  let m : ServerLocation × List ServerLocation :=
    if master ≠ "" then
      let r1 := readString (IStream.ofString master) op.masterServer.hostname
      let r2 := readInt 32 d.cxx11 r1.1 op.masterServer.port
      ({ hostname := r1.2, port := r2.2 },
        op.chunkServers ++ [{ hostname := r1.2, port := r2.2 }])
    else (op.masterServer, op.chunkServers)
  let numReplicas := prop.getValueInt 32 "Num-replicas" 0
  let replicas := prop.getValue "Replicas" ""
  { op with
    toKfsOp := c.1
    chunkId := chunkId
    chunkVersion := chunkVersion
    masterServer := m.1
    chunkServers :=
      if replicas ≠ "" then
        AllocateOp.replicasLoop d m.1 numReplicas.toNat
          (IStream.ofString replicas) d.defaultLoc m.2
      else m.2 }

/-- The loop over `Replicas` in `GetAllocOp::ParseResponseHeader`: `n`
iterations, each extracting a host name and a port into `loc` and appending
`loc`. -/
def GetAllocOp.replicasLoop (d : Decls) :
    Nat → IStream → ServerLocation → List ServerLocation → List ServerLocation
  | 0, _, _, chunkServers => chunkServers
  | n + 1, ser, loc, chunkServers =>
    let r1 := readString ser loc.hostname
    let r2 := readInt 32 d.cxx11 r1.1 loc.port
    let loc1 : ServerLocation := { hostname := r1.2, port := r2.2 }
    GetAllocOp.replicasLoop d n r2.1 loc1 (chunkServers ++ [loc1])

/-- The decoder `GetAllocOp::ParseResponseHeader`. -/
def GetAllocOp.ParseResponseHeader (d : Decls) (op : GetAllocOp) (resp : String) :
    GetAllocOp :=
  let c := KfsOp.ParseResponseHeaderCommon d op.toKfsOp resp
  let prop := c.2
  let numReplicas := prop.getValueInt 32 "Num-replicas" 0
  let replicas := prop.getValue "Replicas" ""
  { op with
    toKfsOp := c.1
    chunkId := prop.getValueInt 64 "Chunk-handle" (-1)
    chunkVersion := prop.getValueInt 64 "Chunk-version" (-1)
    chunkServers :=
      if replicas ≠ "" then
        GetAllocOp.replicasLoop d numReplicas.toNat (IStream.ofString replicas)
          d.defaultLoc op.chunkServers
      else op.chunkServers }

/-- The decoder `GetLayoutOp::ParseResponseHeader`. -/
def GetLayoutOp.ParseResponseHeader (d : Decls) (op : GetLayoutOp) (resp : String) :
    GetLayoutOp :=
  let c := KfsOp.ParseResponseHeaderCommon d op.toKfsOp resp
  { op with toKfsOp := c.1, numChunks := c.2.getValueInt 32 "Num-chunks" 0 }

/-- The inner loop of `GetLayoutOp::ParseLayoutInfo`: `n` iterations, each
extracting a host name and a port into `s` and appending `s` to the servers of
the chunk. It returns the stream and the servers. -/
def GetLayoutOp.serversLoop (d : Decls) :
    Nat → IStream → ServerLocation → List ServerLocation → IStream × List ServerLocation
  | 0, ist, _, chunkServers => (ist, chunkServers)
  | n + 1, ist, s, chunkServers =>
    let r1 := readString ist s.hostname
    let r2 := readInt 32 d.cxx11 r1.1 s.port
    let s1 : ServerLocation := { hostname := r1.2, port := r2.2 }
    GetLayoutOp.serversLoop d n r2.1 s1 (chunkServers ++ [s1])

/-- The outer loop of `GetLayoutOp::ParseLayoutInfo`: `n` iterations, each with
a fresh `ChunkLayoutInfo l`, `ServerLocation s` and uninitialised
`int numServers`, extracting offset, chunk id, chunk version, the number of
servers and the servers, and appending `l` to `chunks`. -/
def GetLayoutOp.chunksLoop (d : Decls) :
    Nat → IStream → List ChunkLayoutInfo → List ChunkLayoutInfo
  | 0, _, chunks => chunks
  | n + 1, ist, chunks =>
    let r1 := readInt 64 d.cxx11 ist d.defaultLayout.fileOffset
    let r2 := readInt 64 d.cxx11 r1.1 d.defaultLayout.chunkId
    let r3 := readInt 64 d.cxx11 r2.1 d.defaultLayout.chunkVersion
    let r4 := readInt 32 d.cxx11 r3.1 d.uninitInt
    let r5 := GetLayoutOp.serversLoop d r4.2.toNat r4.1 d.defaultLoc []
    GetLayoutOp.chunksLoop d n r5.1
      (chunks ++ [{ fileOffset := r1.2, chunkId := r2.2, chunkVersion := r3.2,
                    chunkServers := r5.2 }])

/-- The decoder `GetLayoutOp::ParseLayoutInfo`: the returned status and the
operation afterwards. -/
def GetLayoutOp.ParseLayoutInfo (d : Decls) (op : GetLayoutOp) : Int × GetLayoutOp :=
  match op.contentBuf with
  | none => (0, op)
  | some contentBuf =>
    if op.numChunks = 0 then (0, op)
    else
      (0, { op with
            chunks := GetLayoutOp.chunksLoop d op.numChunks.toNat
              (IStream.ofString contentBuf) op.chunks })

/-! ## The metaserver logger (`logger.h`) -/

/-- A `MetaRequest *`. -/
abbrev ReqPtr := Nat

/-- Modelled from the spec: the member of a `MetaRequest` of `request.h` that the
logger reads and writes, "a WAL sequence number (0 = unassigned)"; sequence
numbers have the type `seq_t`, a `long long`. -/
structure MetaRequest where
  seqno : Int
  deriving DecidableEq, Repr

/-- Modelled from the spec: `MetaQueue` of `queue.h`, a FIFO queue of request
pointers with `enqueue` at the back and a blocking `dequeue` at the front. -/
abbrev MetaQueue := List ReqPtr

/-- Data members of `class Logger` that its inline members touch. -/
structure Logger where
  logdir : String
  lognum : Int
  nextseq : Int
  committed : Int
  incp : Int
  pending : MetaQueue
  logged : MetaQueue
  cpdone : MetaQueue

/-- A logger together with the request objects its queues point to. -/
structure MetaState where
  oplog : Logger
  reqs : ReqPtr → MetaRequest

/-- The constructor `Logger(string d)`: it initialises `logdir`, `lognum`,
`nextseq` and `committed`; `incp` has no initialiser and holds whatever value
`garbage` its storage had. -/
def Logger.ctor (d : String) (garbage : Int) : Logger :=
  { logdir := d, lognum := -1, nextseq := 0, committed := 0, incp := garbage,
    pending := [], logged := [], cpdone := [] }

/-- The member `Logger::iscommitted`. -/
def Logger.iscommitted (s : MetaState) (r : ReqPtr) : Bool :=
  (s.reqs r).seqno != 0 && decide ((s.reqs r).seqno ≤ s.oplog.committed)

/-- The member `Logger::add_pending`. -/
def Logger.add_pending (s : MetaState) (r : ReqPtr) : MetaState :=
  { s with oplog := { s.oplog with pending := s.oplog.pending ++ [r] } }

/-- The member `Logger::get_pending`: `none` stands for a call that blocks on
an empty queue; otherwise the dequeued request gets `++nextseq`, computed in 64
bits. -/
def Logger.get_pending (s : MetaState) : Option (ReqPtr × MetaState) :=
  match s.oplog.pending with
  | [] => none
  | r :: rest =>
    let n := wrapSigned 64 (s.oplog.nextseq + 1)
    some (r, { oplog := { s.oplog with pending := rest, nextseq := n }
               reqs := fun p => if p = r then { s.reqs r with seqno := n } else s.reqs p })

/-- The member `Logger::checkpointed`. -/
def Logger.checkpointed (s : MetaState) : Int := s.oplog.incp

/-- The member `Logger::add_logged`. -/
def Logger.add_logged (s : MetaState) (r : ReqPtr) : MetaState :=
  { s with oplog := { s.oplog with logged := s.oplog.logged ++ [r] } }

/-- The member `Logger::save_cp`. -/
def Logger.save_cp (s : MetaState) (r : ReqPtr) : MetaState :=
  { s with oplog := { s.oplog with cpdone := s.oplog.cpdone ++ [r] } }

/-- The member `Logger::set_seqno`. -/
def Logger.set_seqno (s : MetaState) (last : Int) : MetaState :=
  { s with oplog := { s.oplog with incp := last, committed := last, nextseq := last } }

/-- A call of one of the logger members that change the state. -/
inductive LoggerCall where
  | add_pending (r : ReqPtr)
  | get_pending
  | add_logged (r : ReqPtr)
  | save_cp (r : ReqPtr)
  | set_seqno (last : Int)
  deriving DecidableEq, Repr

/-- The state after a call that returns; `none` when the call blocks. -/
def Logger.call (s : MetaState) : LoggerCall → Option MetaState
  | .add_pending r => some (Logger.add_pending s r)
  | .get_pending => (Logger.get_pending s).map Prod.snd
  | .add_logged r => some (Logger.add_logged s r)
  | .save_cp r => some (Logger.save_cp s r)
  | .set_seqno last => some (Logger.set_seqno s last)

/-- The state after a sequence of calls, each of which returns. -/
def Logger.calls (s : MetaState) : List LoggerCall → Option MetaState
  | [] => some s
  | c :: cs => (Logger.call s c).bind (fun s1 => Logger.calls s1 cs)

/-- A run of `k` consecutive `get_pending` calls: the requests returned with
the sequence number each was given, and the state afterwards. -/
def Logger.get_pending_run : Nat → MetaState → Option (List (ReqPtr × Int) × MetaState)
  | 0, s => some ([], s)
  | k + 1, s =>
    match Logger.get_pending s with
    | none => none
    | some (r, s1) =>
      match Logger.get_pending_run k s1 with
      | none => none
      | some (rs, s2) => some ((r, (s1.reqs r).seqno) :: rs, s2)

/-- Whether a call leaves the commit status of request `r` alone: a
`set_seqno(last)` does when `last` is not below the sequence number of `r`, a
`get_pending` does when the request it dequeues is not `r`, every other call
does. -/
def Logger.keeps (s : MetaState) (r : ReqPtr) : LoggerCall → Bool
  | .set_seqno last => decide ((s.reqs r).seqno ≤ last)
  | .get_pending => s.oplog.pending.head? != some r
  | _ => true

/-- Whether every call of a sequence leaves the commit status of `r` alone, each
call judged in the state it is made in. -/
def Logger.keepsAll (r : ReqPtr) : MetaState → List LoggerCall → Bool
  | _, [] => true
  | s, c :: cs =>
    Logger.keeps s r c &&
      match Logger.call s c with
      | none => true
      | some s1 => Logger.keepsAll r s1 cs

/-! ## Shape of a request on the wire -/

/-- A header block: each line followed by CR LF, then the empty line that ends
the block. -/
def headerBlock : List String → String
  | [] => "\r\n"
  | l :: ls => l ++ "\r\n" ++ headerBlock ls

/-- Concatenation of a list of texts in list order. -/
def concatAll : List String → String
  | [] => ""
  | s :: ss => s ++ concatAll ss

/-- A text without carriage return and line feed. -/
def noCRLF (s : String) : Prop := ∀ c ∈ s.data, c ≠ '\r' ∧ c ≠ '\n'

instance (s : String) : Decidable (noCRLF s) := by
  unfold noCRLF; infer_instance

/-- The blank-line terminator CR LF CR LF. -/
def blankLine : List Char := ['\r', '\n', '\r', '\n']

/-- The operation-name line of each kind. -/
def Op.opName : Op → String
  | .create _ => "CREATE "
  | .mkdir _ => "MKDIR "
  | .rmdir _ => "RMDIR "
  | .rename _ => "RENAME "
  | .readdir _ => "READDIR "
  | .remove _ => "REMOVE "
  | .lookup _ => "LOOKUP "
  | .lookupPath _ => "LOOKUP_PATH "
  | .getAlloc _ => "GETALLOC "
  | .getLayout _ => "GETLAYOUT "
  | .allocate _ => "ALLOCATE "
  | .truncate _ => "TRUNCATE "
  | .openOp _ => "OPEN "
  | .close _ => "CLOSE "
  | .read _ => "READ "
  | .writePrepare _ => "WRITE_PREPARE "
  | .writeSync _ => "WRITE_SYNC "
  | .size _ => "SIZE "
  | .leaseAcquire _ => "LEASE_ACQUIRE "
  | .leaseRenew _ => "LEASE_RENEW "

/-- The keys of the operation-specific lines of each kind, in the order the
encoder writes them. -/
def Op.keys : Op → List String
  | .create _ => ["Parent File-handle", "Filename", "Num-replicas"]
  | .mkdir _ => ["Parent File-handle", "Directory"]
  | .rmdir _ => ["Parent File-handle", "Directory"]
  | .rename _ => ["Parent File-handle", "Old-name", "New-path", "Overwrite"]
  | .readdir _ => ["Directory File-handle"]
  | .remove _ => ["Parent File-handle", "Filename"]
  | .lookup _ => ["Parent File-handle", "Filename"]
  | .lookupPath _ => ["Root File-handle", "Pathname"]
  | .getAlloc _ => ["File-handle", "Chunk-offset"]
  | .getLayout _ => ["File-handle"]
  | .allocate _ => ["File-handle", "Chunk-offset"]
  | .truncate _ => ["File-handle", "Offset"]
  | .openOp _ => ["Chunk-handle", "Intent"]
  | .close _ => ["Chunk-handle"]
  | .read _ => ["Chunk-handle", "Chunk-version", "Offset", "Num-bytes"]
  | .writePrepare _ => ["Chunk-handle", "Chunk-version", "Offset", "Num-bytes"]
  | .writeSync _ => ["Chunk-handle", "Chunk-version", "Num-servers", "Servers"]
  | .size _ => ["Chunk-handle", "Chunk-version"]
  | .leaseAcquire _ => ["Chunk-handle"]
  | .leaseRenew _ => ["Chunk-handle", "Lease-id", "Lease-type"]

/-- The string members of each kind that go on the wire: names, paths and the
location strings of the write legs. -/
def Op.strings (d : Decls) : Op → List String
  | .create o => [o.filename]
  | .mkdir o => [o.dirname]
  | .rmdir o => [o.dirname]
  | .rename o => [o.oldname, o.newpath]
  | .remove o => [o.filename]
  | .lookup o => [o.filename]
  | .lookupPath o => [o.filename]
  | .writeSync o => o.writeInfo.map (fun w => d.ToString w.serverLoc)
  | _ => []

/-! ## White-space separated texts -/

/-- A token of a white-space separated text: non-empty and free of white
space. -/
def isToken (t : String) : Bool :=
  !t.data.isEmpty && t.data.all (fun c => !isspace c)

/-- A text made of white space only. -/
def allSpace (w : String) : Bool := w.data.all isspace

/-- The text of a list of tokens, each followed by its separator. -/
def spaced : List (String × String) → String
  | [] => ""
  | (t, w) :: rest => t ++ w ++ spaced rest

/-- The separators of a token list are white space, and non-empty except
possibly after the last token. -/
def sepOK : List (String × String) → Bool
  | [] => true
  | (_, w) :: rest => allSpace w && (rest.isEmpty || !w.data.isEmpty) && sepOK rest

/-- A stream that is about to deliver the given tokens: no failure so far, not
at the end unless no token is left, and the unread text is white space followed
by the tokens with their separators. -/
def Ready (s : IStream) (items : List (String × String)) : Prop :=
  s.failbit = false ∧ (items ≠ [] → s.eofbit = false) ∧ sepOK items = true ∧
    ∃ lead : String, allSpace lead = true ∧ s.buf = lead.data ++ (spaced items).data

/-- The tokens of a list of servers: host name and port of each, in order. -/
def serversTokens : List ServerLocation → List String
  | [] => []
  | l :: ls => l.hostname :: toString l.port :: serversTokens ls

/-- The tokens of a layout body: per chunk the offset, the chunk id, the chunk
version, the number of servers and the servers. -/
def layoutTokens : List ChunkLayoutInfo → List String
  | [] => []
  | c :: cs =>
    toString c.fileOffset :: toString c.chunkId :: toString c.chunkVersion ::
      toString c.chunkServers.length :: (serversTokens c.chunkServers ++ layoutTokens cs)

/-- A server that a text can carry: the host name is a token and the port is
an `int`. -/
def wfServer (l : ServerLocation) : Prop := isToken l.hostname = true ∧ inRange 32 l.port

instance (l : ServerLocation) : Decidable (wfServer l) := by
  unfold wfServer; infer_instance

/-- A chunk record that a layout body can carry: the offset, the chunk id and
the chunk version are 64-bit values, the number of servers is an `int`, and
every server is well formed. -/
def wfChunk (c : ChunkLayoutInfo) : Prop :=
  inRange 64 c.fileOffset ∧ inRange 64 c.chunkId ∧ inRange 64 c.chunkVersion ∧
    inRange 32 c.chunkServers.length ∧ ∀ l ∈ c.chunkServers, wfServer l

instance (c : ChunkLayoutInfo) : Decidable (wfChunk c) := by
  unfold wfChunk; infer_instance

/-! ## The remaining response decoders (`KfsOps.cc`, lines 303-393 and 491-532) -/

/-- The default decoder `KfsOp::ParseResponseHeader`. -/
def KfsOp.ParseResponseHeader (d : Decls) (op : KfsOp) (resp : String) : KfsOp :=
  (KfsOp.ParseResponseHeaderCommon d op resp).1

/-- The decoder `CreateOp::ParseResponseHeader`. -/
def CreateOp.ParseResponseHeader (d : Decls) (op : CreateOp) (resp : String) : CreateOp :=
  let c := KfsOp.ParseResponseHeaderCommon d op.toKfsOp resp
  { op with toKfsOp := c.1, fileId := c.2.getValueInt 64 "File-handle" (-1) }

/-- The decoder `ReaddirOp::ParseResponseHeader`. -/
def ReaddirOp.ParseResponseHeader (d : Decls) (op : ReaddirOp) (resp : String) : ReaddirOp :=
  let c := KfsOp.ParseResponseHeaderCommon d op.toKfsOp resp
  { op with toKfsOp := c.1, numEntries := c.2.getValueInt 32 "Num-Entries" 0 }

/-- The decoder `MkdirOp::ParseResponseHeader`. -/
def MkdirOp.ParseResponseHeader (d : Decls) (op : MkdirOp) (resp : String) : MkdirOp :=
  let c := KfsOp.ParseResponseHeaderCommon d op.toKfsOp resp
  { op with toKfsOp := c.1, fileId := c.2.getValueInt 64 "File-handle" (-1) }

/-- The helper `GetTimeval`: a non-empty text is read as two integers into
`tv_sec` and `tv_usec` (taken as 64-bit members), an empty text gives zero for
both. -/
def GetTimeval (d : Decls) (s : String) (tv : Timeval) : Timeval :=
  if s ≠ "" then
    let r1 := readInt 64 d.cxx11 (IStream.ofString s) tv.tv_sec
    let r2 := readInt 64 d.cxx11 r1.1 tv.tv_usec
    { tv_sec := r1.2, tv_usec := r2.2 }
  else { tv_sec := 0, tv_usec := 0 }

/-- The assignments to `fattr` shared, line for line, by
`LookupOp::ParseResponseHeader` and `LookupPathOp::ParseResponseHeader`. -/
def decodeFileAttr (d : Decls) (prop : Properties) (fattr : FileAttr) : FileAttr :=
  { fattr with
    fileId := prop.getValueInt 64 "File-handle" (-1)
    isDirectory := decide (prop.getValue "Type" "" = "dir")
    chunkCount := prop.getValueInt 32 "Chunk-count" 0
    numReplicas := prop.getValueInt 32 "Replication" 1
    mtime := GetTimeval d (prop.getValue "M-Time" "") fattr.mtime
    ctime := GetTimeval d (prop.getValue "C-Time" "") fattr.ctime
    crtime := GetTimeval d (prop.getValue "CR-Time" "") fattr.crtime }

/-- The decoder `LookupOp::ParseResponseHeader`. -/
def LookupOp.ParseResponseHeader (d : Decls) (op : LookupOp) (resp : String) : LookupOp :=
  let c := KfsOp.ParseResponseHeaderCommon d op.toKfsOp resp
  { op with toKfsOp := c.1, fattr := decodeFileAttr d c.2 op.fattr }

/-- The decoder `LookupPathOp::ParseResponseHeader`. -/
def LookupPathOp.ParseResponseHeader (d : Decls) (op : LookupPathOp) (resp : String) :
    LookupPathOp :=
  let c := KfsOp.ParseResponseHeaderCommon d op.toKfsOp resp
  { op with toKfsOp := c.1, fattr := decodeFileAttr d c.2 op.fattr }

/-- The decoder `SizeOp::ParseResponseHeader`. -/
def SizeOp.ParseResponseHeader (d : Decls) (op : SizeOp) (resp : String) : SizeOp :=
  let c := KfsOp.ParseResponseHeaderCommon d op.toKfsOp resp
  { op with toKfsOp := c.1, size := c.2.getValueInt 64 "Size" 0 }

/-- The decoder `WritePrepareOp::ParseResponseHeader`. -/
def WritePrepareOp.ParseResponseHeader (d : Decls) (op : WritePrepareOp) (resp : String) :
    WritePrepareOp :=
  let c := KfsOp.ParseResponseHeaderCommon d op.toKfsOp resp
  { op with toKfsOp := c.1, writeId := c.2.getValueInt 64 "Write-id" 0 }

/-- The decoder `LeaseAcquireOp::ParseResponseHeader`. -/
def LeaseAcquireOp.ParseResponseHeader (d : Decls) (op : LeaseAcquireOp) (resp : String) :
    LeaseAcquireOp :=
  let c := KfsOp.ParseResponseHeaderCommon d op.toKfsOp resp
  { op with toKfsOp := c.1, leaseId := c.2.getValueInt 64 "Lease-id" (-1) }

/-- The virtual call `op->ParseResponseHeader(buf, len)`: the kinds for which
the file defines a decoder use it, the other kinds inherit the default decoder
of `KfsOp`. -/
def Op.ParseResponseHeader (d : Decls) (op : Op) (resp : String) : Op :=
  match op with
  | .create o => .create (o.ParseResponseHeader d resp)
  | .mkdir o => .mkdir (o.ParseResponseHeader d resp)
  | .rmdir o => .rmdir { o with toKfsOp := o.toKfsOp.ParseResponseHeader d resp }
  | .rename o => .rename { o with toKfsOp := o.toKfsOp.ParseResponseHeader d resp }
  | .readdir o => .readdir (o.ParseResponseHeader d resp)
  | .remove o => .remove { o with toKfsOp := o.toKfsOp.ParseResponseHeader d resp }
  | .lookup o => .lookup (o.ParseResponseHeader d resp)
  | .lookupPath o => .lookupPath (o.ParseResponseHeader d resp)
  | .getAlloc o => .getAlloc (o.ParseResponseHeader d resp)
  | .getLayout o => .getLayout (o.ParseResponseHeader d resp)
  | .allocate o => .allocate (o.ParseResponseHeader d resp)
  | .truncate o => .truncate { o with toKfsOp := o.toKfsOp.ParseResponseHeader d resp }
  | .openOp o => .openOp { o with toKfsOp := o.toKfsOp.ParseResponseHeader d resp }
  | .close o => .close { o with toKfsOp := o.toKfsOp.ParseResponseHeader d resp }
  | .read o => .read { o with toKfsOp := o.toKfsOp.ParseResponseHeader d resp }
  | .writePrepare o => .writePrepare (o.ParseResponseHeader d resp)
  | .writeSync o => .writeSync { o with toKfsOp := o.toKfsOp.ParseResponseHeader d resp }
  | .size o => .size (o.ParseResponseHeader d resp)
  | .leaseAcquire o => .leaseAcquire (o.ParseResponseHeader d resp)
  | .leaseRenew o => .leaseRenew { o with toKfsOp := o.toKfsOp.ParseResponseHeader d resp }

/-- The base members of an operation. -/
def Op.base : Op → KfsOp
  | .create o => o.toKfsOp
  | .mkdir o => o.toKfsOp
  | .rmdir o => o.toKfsOp
  | .rename o => o.toKfsOp
  | .readdir o => o.toKfsOp
  | .remove o => o.toKfsOp
  | .lookup o => o.toKfsOp
  | .lookupPath o => o.toKfsOp
  | .getAlloc o => o.toKfsOp
  | .getLayout o => o.toKfsOp
  | .allocate o => o.toKfsOp
  | .truncate o => o.toKfsOp
  | .openOp o => o.toKfsOp
  | .close o => o.toKfsOp
  | .read o => o.toKfsOp
  | .writePrepare o => o.toKfsOp
  | .writeSync o => o.toKfsOp
  | .size o => o.toKfsOp
  | .leaseAcquire o => o.toKfsOp
  | .leaseRenew o => o.toKfsOp

/-- A key that is absent from a loaded property map. -/
def Properties.absent (p : Properties) (key : String) : Prop := p.propmap.lookup key = none

instance (p : Properties) (key : String) : Decidable (p.absent key) := by
  unfold Properties.absent; infer_instance

/-! ## Writing a request to the log (`logger.h`, line 87) -/

/-- The data member `ofstream file` of the logger: what has been written to the
active log file and whether the stream has failed. -/
structure OFStream where
  written : String
  failed : Bool
  deriving DecidableEq, Repr

/-- The logger state together with its log file. -/
structure LogState where
  st : MetaState
  file : OFStream

/-- The member `Logger::log`: its body is `return r->log(file)`. The virtual
member `MetaRequest::log(ofstream &)` belongs to `request.h` and is the
parameter `rlog`: from the request and the file it gives the status and the
file afterwards. -/
def Logger.log (rlog : ReqPtr → MetaRequest → OFStream → Int × OFStream)
    (w : LogState) (r : ReqPtr) : Int × LogState :=
  let res := rlog r (w.st.reqs r) w.file
  (res.1, { w with file := res.2 })

/-- A time text: seconds and microseconds as two integers of 64 bits, separated
by white space, with optional white space around them. -/
def isTimeText (s : String) (secs usecs : Int) : Prop :=
  inRange 64 secs ∧ inRange 64 usecs ∧
    ∃ lead w1 w2 : String, allSpace lead = true ∧ allSpace w1 = true ∧ w1 ≠ "" ∧
      allSpace w2 = true ∧ s = lead ++ toString secs ++ w1 ++ toString usecs ++ w2

/-- The members of an operation that its encoder reads: the integers, the
strings, the flags and the write legs, in the order `Request` writes them. -/
def Op.encoded : Op → List Int × List String × List Bool × List WriteInfo
  | .create o => ([o.seq, o.parentFid, o.numReplicas], [o.filename], [], [])
  | .mkdir o => ([o.seq, o.parentFid], [o.dirname], [], [])
  | .rmdir o => ([o.seq, o.parentFid], [o.dirname], [], [])
  | .rename o => ([o.seq, o.parentFid], [o.oldname, o.newpath], [o.overwrite], [])
  | .readdir o => ([o.seq, o.fid], [], [], [])
  | .remove o => ([o.seq, o.parentFid], [o.filename], [], [])
  | .lookup o => ([o.seq, o.parentFid], [o.filename], [], [])
  | .lookupPath o => ([o.seq, o.rootFid], [o.filename], [], [])
  | .getAlloc o => ([o.seq, o.fid, o.fileOffset], [], [], [])
  | .getLayout o => ([o.seq, o.fid], [], [], [])
  | .allocate o => ([o.seq, o.fid, o.fileOffset], [], [], [])
  | .truncate o => ([o.seq, o.fid, o.fileOffset], [], [], [])
  | .openOp o => ([o.seq, o.chunkId, o.openFlags], [], [], [])
  | .close o => ([o.seq, o.chunkId], [], [], [])
  | .read o => ([o.seq, o.chunkId, o.chunkVersion, o.offset, o.numBytes], [], [], [])
  | .writePrepare o => ([o.seq, o.chunkId, o.chunkVersion, o.offset, o.numBytes], [], [], [])
  | .writeSync o => ([o.seq, o.chunkId, o.chunkVersion], [], [], o.writeInfo)
  | .size o => ([o.seq, o.chunkId, o.chunkVersion], [], [], [])
  | .leaseAcquire o => ([o.seq, o.chunkId], [], [], [])
  | .leaseRenew o => ([o.seq, o.chunkId, o.leaseId], [], [], [])

/-! ## Shape of a text under integer extraction -/

/-- Value of a sign and a run of decimal digits: negated when the sign is `-`. -/
def signedValue (sign ds : List Char) : Int :=
  if sign = ['-'] then -(digitsValue ds : Int) else (digitsValue ds : Int)

/-- A text as an integer extraction sees it: white space `lead`, a sign (`-`,
`+` or none), a run of decimal digits `ds` that may be empty, and the remainder
`rest`, which does not start with a digit; when there is neither a sign nor a
digit, the remainder starts with a character that is neither white space nor a
sign. -/
def scansAs (cs lead sign ds rest : List Char) : Bool :=
  decide (cs = lead ++ sign ++ ds ++ rest) && lead.all isspace &&
    (decide (sign = []) || decide (sign = ['-']) || decide (sign = ['+'])) &&
    ds.all Char.isDigit &&
    (match rest.head? with
      | none => true
      | some c => !c.isDigit) &&
    (!(sign.isEmpty && ds.isEmpty) ||
      match rest.head? with
      | none => false
      | some c => !isspace c && c != '-' && c != '+')

/-! # Theorems -/

set_option linter.unusedTactic false
set_option linter.unreachableTactic false

/-! ## Decimal text of integers -/

theorem digitChar_isDigit (n : Nat) (h : n < 10) : (Nat.digitChar n).isDigit = true := by
  interval_cases n <;> decide

theorem digitChar_value (n : Nat) (h : n < 10) : (Nat.digitChar n).toNat - 48 = n := by
  interval_cases n <;> decide

theorem toDigitsCore_append : ∀ (fuel n : Nat) (ds : List Char),
    Nat.toDigitsCore 10 fuel n ds = Nat.toDigitsCore 10 fuel n [] ++ ds
  | 0, n, ds => by simp [Nat.toDigitsCore]
  | fuel + 1, n, ds => by
    simp only [Nat.toDigitsCore]
    split
    · simp
    · rw [toDigitsCore_append fuel (n / 10) (Nat.digitChar (n % 10) :: ds),
        toDigitsCore_append fuel (n / 10) [Nat.digitChar (n % 10)]]
      simp

theorem toDigitsCore_fuel_irrel : ∀ (f1 f2 n : Nat) (ds : List Char), n < f1 → n < f2 →
    Nat.toDigitsCore 10 f1 n ds = Nat.toDigitsCore 10 f2 n ds
  | 0, _, n, _, h, _ => by omega
  | _ + 1, 0, n, _, _, h => by omega
  | f1 + 1, f2 + 1, n, ds, h1, h2 => by
    simp only [Nat.toDigitsCore]
    split
    · rfl
    · exact toDigitsCore_fuel_irrel f1 f2 (n / 10) _ (by omega) (by omega)

theorem toDigits_step (n : Nat) :
    Nat.toDigits 10 n =
      if n < 10 then [Nat.digitChar n]
      else Nat.toDigits 10 (n / 10) ++ [Nat.digitChar (n % 10)] := by
  by_cases h10 : n < 10
  · have hd : n / 10 = 0 := by omega
    have hm : n % 10 = n := by omega
    simp [Nat.toDigits, Nat.toDigitsCore, hd, hm, h10]
  · have hd : n / 10 ≠ 0 := by omega
    simp only [h10, if_false]
    show Nat.toDigitsCore 10 (n + 1) n [] = Nat.toDigitsCore 10 (n / 10 + 1) (n / 10) [] ++ _
    rw [Nat.toDigitsCore]
    simp only [hd, if_false]
    rw [toDigitsCore_append]
    congr 1
    exact toDigitsCore_fuel_irrel _ _ _ _ (by omega) (by omega)

theorem toDigits_isDigit (n : Nat) : ∀ c ∈ Nat.toDigits 10 n, c.isDigit = true := by
  induction n using Nat.strong_induction_on with
  | _ n ih =>
    rw [toDigits_step]
    by_cases h10 : n < 10
    · simp only [h10, if_true, List.mem_singleton]
      rintro c rfl
      exact digitChar_isDigit n h10
    · simp only [h10, if_false, List.mem_append, List.mem_singleton]
      rintro c (hc | rfl)
      · exact ih (n / 10) (by omega) c hc
      · exact digitChar_isDigit _ (by omega)

theorem toDigits_ne_nil (n : Nat) : Nat.toDigits 10 n ≠ [] := by
  rw [toDigits_step]
  split <;> simp

theorem digitsValue_append_singleton (l : List Char) (c : Char) :
    digitsValue (l ++ [c]) = digitsValue l * 10 + (c.toNat - 48) := by
  simp [digitsValue, List.foldl_append]

theorem digitsValue_toDigits (n : Nat) : digitsValue (Nat.toDigits 10 n) = n := by
  induction n using Nat.strong_induction_on with
  | _ n ih =>
    rw [toDigits_step]
    by_cases h10 : n < 10
    · simp only [h10, if_true]
      simp only [digitsValue, List.foldl_cons, List.foldl_nil, zero_mul, zero_add]
      exact digitChar_value n h10
    · simp only [h10, if_false]
      rw [digitsValue_append_singleton, ih (n / 10) (by omega), digitChar_value _ (by omega)]
      omega

theorem Nat_toString_data (n : Nat) : (toString n).data = Nat.toDigits 10 n := rfl

theorem Int_toString_ofNat (n : Nat) :
    (toString (Int.ofNat n)).data = Nat.toDigits 10 n := rfl

theorem Int_toString_negSucc (n : Nat) :
    (toString (Int.negSucc n)).data = '-' :: Nat.toDigits 10 (n + 1) := rfl

/-- Characters that occur in the decimal text of an integer. -/
theorem Int_toString_chars (x : Int) : ∀ c ∈ (toString x).data, c.isDigit = true ∨ c = '-' := by
  cases x with
  | ofNat n =>
    intro c hc
    rw [Int_toString_ofNat] at hc
    exact Or.inl (toDigits_isDigit n c hc)
  | negSucc n =>
    intro c hc
    rw [Int_toString_negSucc] at hc
    rcases List.mem_cons.1 hc with rfl | h
    · exact Or.inr rfl
    · exact Or.inl (toDigits_isDigit _ c h)

theorem Int_toString_ne_nil (x : Int) : (toString x).data ≠ [] := by
  cases x with
  | ofNat n => rw [Int_toString_ofNat]; exact toDigits_ne_nil n
  | negSucc n => rw [Int_toString_negSucc]; simp


/-! ## The logger -/

theorem wrapSigned_of_inRange (w : Nat) (hw : 0 < w) (x : Int) (h : inRange w x) :
    wrapSigned w x = x := by
  obtain ⟨h1, h2⟩ := h
  unfold intMin at h1
  unfold intMax at h2
  unfold wrapSigned
  have hp : (2 : Int) ^ w = 2 * 2 ^ (w - 1) := by
    obtain ⟨n, rfl⟩ : ∃ n, w = n + 1 := ⟨w - 1, by omega⟩
    simp [pow_succ]; ring
  have hpos : (0 : Int) < 2 ^ (w - 1) := by positivity
  rw [Int.emod_eq_of_lt (by omega) (by omega)]
  omega

theorem intMin_64 : intMin 64 = -9223372036854775808 := by norm_num [intMin]
theorem intMax_64 : intMax 64 = 9223372036854775807 := by norm_num [intMax]

theorem get_pending_cons (s : MetaState) (r : ReqPtr) (rest : List ReqPtr)
    (hp : s.oplog.pending = r :: rest)
    (hlo : intMin 64 ≤ s.oplog.nextseq + 1) (hhi : s.oplog.nextseq + 1 ≤ intMax 64) :
    ∃ s1, Logger.get_pending s = some (r, s1) ∧ (s1.reqs r).seqno = s.oplog.nextseq + 1 ∧
      s1.oplog.nextseq = s.oplog.nextseq + 1 ∧ s1.oplog.pending = rest ∧
      s1.oplog.committed = s.oplog.committed ∧ s1.oplog.incp = s.oplog.incp ∧
      (∀ p, p ≠ r → s1.reqs p = s.reqs p) := by
  have hw := wrapSigned_of_inRange 64 (by decide) (s.oplog.nextseq + 1) ⟨hlo, hhi⟩
  simp only [Logger.get_pending, hp, hw]
  refine ⟨_, rfl, ?_, ?_, ?_, ?_, ?_, ?_⟩
  · simp
  · simp
  · simp
  · simp
  · simp
  · intro p hne; simp [hne]

theorem get_pending_run_spec : ∀ (k : Nat) (s : MetaState),
    k ≤ s.oplog.pending.length → intMin 64 ≤ s.oplog.nextseq →
    s.oplog.nextseq + (k : Int) ≤ intMax 64 →
    ∃ s1, Logger.get_pending_run k s =
        some ((s.oplog.pending.take k).zip
          ((List.range k).map fun (i : Nat) => s.oplog.nextseq + 1 + (i : Int)), s1) ∧
      s1.oplog.nextseq = s.oplog.nextseq + (k : Int) ∧
      s1.oplog.pending = s.oplog.pending.drop k
  | 0, s, _, _, _ => ⟨s, by simp [Logger.get_pending_run]⟩
  | k + 1, s, hk, hlo, hhi => by
    match hp : s.oplog.pending with
    | [] => simp [hp] at hk
    | r :: rest =>
      push_cast at hhi
      rw [intMin_64] at hlo
      rw [intMax_64] at hhi
      obtain ⟨s1, h1, hseq, hnext, hpend, -⟩ :=
        get_pending_cons s r rest hp (by rw [intMin_64]; omega) (by rw [intMax_64]; omega)
      have hk1 : k ≤ s1.oplog.pending.length := by
        rw [hpend]; simp [hp] at hk; omega
      obtain ⟨s2, h2, hn2, hp2⟩ := get_pending_run_spec k s1 hk1
        (by rw [intMin_64]; omega) (by rw [intMax_64]; omega)
      refine ⟨s2, ?_, ?_, ?_⟩
      · simp only [Logger.get_pending_run, h1, h2, hseq, hpend, hnext]
        simp only [List.take_succ_cons, List.range_succ_eq_map, List.map_cons, List.zip_cons_cons,
          List.map_map]
        congr 4
        · simp
        · apply List.map_congr_left
          intro i _
          simp only [Function.comp, Nat.succ_eq_add_one]
          push_cast; ring
      · rw [hn2, hnext]; push_cast; ring
      · rw [hp2, hpend]; simp


theorem calls_nextseq_count : ∀ (cs : List LoggerCall) (s s1 : MetaState),
    (∀ last, LoggerCall.set_seqno last ∉ cs) →
    Logger.calls s cs = some s1 → 0 ≤ s.oplog.nextseq →
    s.oplog.nextseq + (cs.count LoggerCall.get_pending : Int) ≤ intMax 64 →
    s1.oplog.nextseq = s.oplog.nextseq + (cs.count LoggerCall.get_pending : Int)
  | [], s, s1, _, h, _, _ => by
    simp only [Logger.calls, Option.some.injEq] at h
    subst h; simp
  | c :: cs, s, s1, hns, h, h0, hmax => by
    simp only [Logger.calls] at h
    cases hc : Logger.call s c with
    | none => simp [hc] at h
    | some s2 =>
      simp only [hc, Option.some_bind] at h
      have hns1 : ∀ last, LoggerCall.set_seqno last ∉ cs := fun last hm =>
        hns last (List.mem_cons_of_mem _ hm)
      rw [intMax_64] at hmax
      cases c with
      | set_seqno last => exact absurd (List.mem_cons_self _ _) (hns last)
      | add_pending r =>
        simp only [Logger.call, Option.some.injEq] at hc
        subst hc
        have := calls_nextseq_count cs _ s1 hns1 h (by simpa [Logger.add_pending] using h0)
          (by rw [intMax_64]; simpa [Logger.add_pending, List.count_cons] using hmax)
        simpa [Logger.add_pending, List.count_cons] using this
      | add_logged r =>
        simp only [Logger.call, Option.some.injEq] at hc
        subst hc
        have := calls_nextseq_count cs _ s1 hns1 h (by simpa [Logger.add_logged] using h0)
          (by rw [intMax_64]; simpa [Logger.add_logged, List.count_cons] using hmax)
        simpa [Logger.add_logged, List.count_cons] using this
      | save_cp r =>
        simp only [Logger.call, Option.some.injEq] at hc
        subst hc
        have := calls_nextseq_count cs _ s1 hns1 h (by simpa [Logger.save_cp] using h0)
          (by rw [intMax_64]; simpa [Logger.save_cp, List.count_cons] using hmax)
        simpa [Logger.save_cp, List.count_cons] using this
      | get_pending =>
        simp only [List.count_cons, beq_self_eq_true, if_true] at hmax ⊢
        push_cast at hmax ⊢
        simp only [Logger.call] at hc
        cases hp : s.oplog.pending with
        | nil => simp [Logger.get_pending, hp] at hc
        | cons r rest =>
          obtain ⟨s3, h3, -, hnext, -⟩ := get_pending_cons s r rest hp
            (by rw [intMin_64]; omega) (by rw [intMax_64]; omega)
          rw [h3] at hc
          simp only [Option.map_some', Option.some.injEq] at hc
          subst hc
          have := calls_nextseq_count cs _ s1 hns1 h (by rw [hnext]; omega)
            (by rw [intMax_64, hnext]; omega)
          rw [this, hnext]; ring

theorem wrapSigned_succ_eq_zero (n : Int) (h : inRange 64 n) :
    wrapSigned 64 (n + 1) = 0 ↔ n = -1 := by
  obtain ⟨h1, h2⟩ := h
  rw [intMin_64] at h1
  rw [intMax_64] at h2
  simp only [wrapSigned]
  norm_num
  omega

theorem wrapSigned_intMax_succ : wrapSigned 64 (intMax 64 + 1) = intMin 64 := by
  rw [intMax_64, intMin_64]
  simp only [wrapSigned]
  norm_num

theorem get_pending_seqno (s : MetaState) (r : ReqPtr) (rest : List ReqPtr)
    (hp : s.oplog.pending = r :: rest) :
    ∃ s1, Logger.get_pending s = some (r, s1) ∧
      (s1.reqs r).seqno = wrapSigned 64 (s.oplog.nextseq + 1) ∧
      s1.oplog.committed = s.oplog.committed := by
  simp only [Logger.get_pending, hp]
  exact ⟨_, rfl, by simp, rfl⟩

/-- Counterexample for C6: after `set_seqno(-1)` the next `get_pending` gives the
request it dequeues the reserved number `0`; and from a `nextseq` one below the
largest `seq_t` value, two consecutive `get_pending` calls give the largest
value and then, the increment wrapping in 64 bits, the smallest one, which is
neither `nextseq + 2` nor above the number given first. -/
theorem Logger_get_pending_assigns_zero :
    (Logger.get_pending
      (Logger.set_seqno
        { oplog := { Logger.ctor "logs" 0 with pending := [9] }
          reqs := fun _ => { seqno := 7 } } (-1))).map
        (fun p => (p.1, (p.2.reqs p.1).seqno)) = some (9, 0) ∧
    (Logger.get_pending_run 2
      (Logger.set_seqno
        { oplog := { Logger.ctor "logs" 0 with pending := [9, 10] }
          reqs := fun _ => { seqno := 7 } } 9223372036854775806)).map Prod.fst =
      some [(9, 9223372036854775807), (10, -9223372036854775808)] := by
  decide

/-- C6, as the code has it: a run of `k` consecutive `get_pending` calls on a
logger holding at least `k` pending requests, with `nextseq + k` not above the
largest `seq_t` value, returns the first `k` pending requests in queue order and
gives them the numbers `nextseq+1, ..., nextseq+k`, which are strictly
increasing and pairwise distinct, and among which `0` occurs exactly when
`-k <= nextseq <= -1`; on a freshly constructed logger the first number given
is `1`, and in every run of `add_pending`, `get_pending`, `add_logged` and
`save_cp` calls from a freshly constructed logger the next `get_pending` gives
the number of `get_pending` calls made so far plus one, never `0`; a single
`get_pending` gives `0` exactly when `nextseq` is `-1` at the call, which is
the state `set_seqno(-1)` leaves. -/
theorem Logger_get_pending_sequence :
    (∀ (s : MetaState) (k : Nat), k ≤ s.oplog.pending.length →
      intMin 64 ≤ s.oplog.nextseq → s.oplog.nextseq + (k : Int) ≤ intMax 64 →
      ∃ s1, Logger.get_pending_run k s =
          some ((s.oplog.pending.take k).zip
            ((List.range k).map fun (i : Nat) => s.oplog.nextseq + 1 + (i : Int)), s1) ∧
        ((List.range k).map fun (i : Nat) => s.oplog.nextseq + 1 + (i : Int)).Pairwise
          (fun a b => a < b) ∧
        ((List.range k).map fun (i : Nat) => s.oplog.nextseq + 1 + (i : Int)).Nodup ∧
        ((0 : Int) ∈ ((List.range k).map fun (i : Nat) => s.oplog.nextseq + 1 + (i : Int)) ↔
          -(k : Int) ≤ s.oplog.nextseq ∧ s.oplog.nextseq ≤ -1)) ∧
    (∀ (d : String) (garbage : Int) (reqs : ReqPtr → MetaRequest) (r : ReqPtr),
      ∃ s1, Logger.get_pending
          (Logger.add_pending { oplog := Logger.ctor d garbage, reqs := reqs } r) = some (r, s1) ∧
        (s1.reqs r).seqno = 1) ∧
    (∀ (d : String) (garbage : Int) (reqs : ReqPtr → MetaRequest) (cs : List LoggerCall)
      (s : MetaState) (r : ReqPtr) (rest : List ReqPtr),
      (∀ last, LoggerCall.set_seqno last ∉ cs) →
      Logger.calls { oplog := Logger.ctor d garbage, reqs := reqs } cs = some s →
      (cs.count LoggerCall.get_pending : Int) < intMax 64 →
      s.oplog.pending = r :: rest →
      ∃ s1, Logger.get_pending s = some (r, s1) ∧
        (s1.reqs r).seqno = (cs.count LoggerCall.get_pending : Int) + 1 ∧
        (s1.reqs r).seqno ≠ 0) ∧
    (∀ (s : MetaState) (r : ReqPtr) (rest : List ReqPtr),
      inRange 64 s.oplog.nextseq → s.oplog.pending = r :: rest →
      ∃ s1, Logger.get_pending s = some (r, s1) ∧
        ((s1.reqs r).seqno = 0 ↔ s.oplog.nextseq = -1)) ∧
    (∀ (s : MetaState) (r : ReqPtr) (rest : List ReqPtr), s.oplog.pending = r :: rest →
      ∃ s1, Logger.get_pending (Logger.set_seqno s (-1)) = some (r, s1) ∧
        (s1.reqs r).seqno = 0) := by
  refine ⟨?_, ?_, ?_, ?_, ?_⟩
  · intro s k hk hlo hhi
    obtain ⟨s1, h1, -, -⟩ := get_pending_run_spec k s hk hlo hhi
    have hpw : ((List.range k).map fun (i : Nat) => s.oplog.nextseq + 1 + (i : Int)).Pairwise
        (fun a b => a < b) := by
      rw [List.pairwise_map]
      refine List.Pairwise.imp ?_ (List.pairwise_lt_range k)
      intro a b hab
      omega
    refine ⟨s1, h1, hpw, ?_, ?_⟩
    · exact hpw.imp (fun h => ne_of_lt h)
    · simp only [List.mem_map, List.mem_range]
      constructor
      · rintro ⟨i, hi, h0⟩
        omega
      · rintro ⟨ha, hb⟩
        refine ⟨(-(s.oplog.nextseq + 1)).toNat, ?_, ?_⟩
        · omega
        · omega
  · intro d garbage reqs r
    obtain ⟨s1, h1, hseq, -⟩ := get_pending_cons
      (Logger.add_pending { oplog := Logger.ctor d garbage, reqs := reqs } r) r [] rfl
      (by rw [intMin_64]; simp [Logger.add_pending, Logger.ctor])
      (by rw [intMax_64]; simp [Logger.add_pending, Logger.ctor])
    exact ⟨s1, h1, by simpa [Logger.add_pending, Logger.ctor] using hseq⟩
  · intro d garbage reqs cs s r rest hns hcalls hcount hp
    rw [intMax_64] at hcount
    have hn := calls_nextseq_count cs _ s hns hcalls (by simp [Logger.ctor])
      (by rw [intMax_64]; simp only [Logger.ctor]; omega)
    simp only [Logger.ctor, zero_add] at hn
    obtain ⟨s1, h1, hseq, -⟩ := get_pending_cons s r rest hp
      (by rw [intMin_64, hn]; omega) (by rw [intMax_64, hn]; omega)
    refine ⟨s1, h1, by rw [hseq, hn], ?_⟩
    rw [hseq, hn]; omega
  · intro s r rest hr hp
    obtain ⟨s1, h1, hseq, -⟩ := get_pending_seqno s r rest hp
    exact ⟨s1, h1, by rw [hseq]; exact wrapSigned_succ_eq_zero _ hr⟩
  · intro s r rest hp
    obtain ⟨s1, h1, hseq, -⟩ := get_pending_seqno (Logger.set_seqno s (-1)) r rest
      (by simpa [Logger.set_seqno] using hp)
    refine ⟨s1, h1, ?_⟩
    rw [hseq]
    exact (wrapSigned_succ_eq_zero (-1) (by decide)).2 rfl

/-- Witness for C6: three pending requests on a fresh logger get 1, 2, 3. -/
theorem Logger_get_pending_sequence_witness :
    ∃ s1, Logger.get_pending_run 3
        { oplog := { Logger.ctor "logs" 0 with pending := [10, 11, 12] }
          reqs := fun _ => { seqno := 0 } } =
      some ([(10, 1), (11, 2), (12, 3)], s1) := by
  obtain ⟨s1, h, -⟩ := Logger_get_pending_sequence.1
    { oplog := { Logger.ctor "logs" 0 with pending := [10, 11, 12] }
      reqs := fun _ => { seqno := 0 } } 3 (by decide) (by decide) (by decide)
  exact ⟨s1, by simpa [Logger.ctor, List.range_succ] using h⟩

theorem call_keeps_iscommitted (s s1 : MetaState) (r : ReqPtr) (c : LoggerCall)
    (hc : Logger.call s c = some s1) (hk : Logger.keeps s r c = true)
    (h : Logger.iscommitted s r = true) :
    Logger.iscommitted s1 r = true ∧ (s1.reqs r).seqno = (s.reqs r).seqno := by
  simp only [Logger.iscommitted, Bool.and_eq_true, bne_iff_ne, ne_eq, decide_eq_true_eq] at h ⊢
  cases c with
  | add_pending p =>
    simp only [Logger.call, Option.some.injEq] at hc
    subst hc; simpa [Logger.add_pending] using h
  | add_logged p =>
    simp only [Logger.call, Option.some.injEq] at hc
    subst hc; simpa [Logger.add_logged] using h
  | save_cp p =>
    simp only [Logger.call, Option.some.injEq] at hc
    subst hc; simpa [Logger.save_cp] using h
  | set_seqno last =>
    simp only [Logger.call, Option.some.injEq] at hc
    simp only [Logger.keeps, decide_eq_true_eq] at hk
    subst hc
    simp only [Logger.set_seqno]
    exact ⟨⟨h.1, hk⟩, trivial⟩
  | get_pending =>
    simp only [Logger.call, Logger.get_pending] at hc
    cases hp : s.oplog.pending with
    | nil => simp [hp] at hc
    | cons p rest =>
      simp only [hp, Option.map_some', Option.some.injEq] at hc
      simp only [Logger.keeps, hp, List.head?_cons, bne_iff_ne, ne_eq, Option.some.injEq] at hk
      have hne : r ≠ p := fun e => hk e.symm
      subst hc
      simp only [hne, if_false]
      exact ⟨h, trivial⟩

theorem calls_keep_iscommitted (r : ReqPtr) : ∀ (cs : List LoggerCall) (s s1 : MetaState),
    Logger.calls s cs = some s1 → Logger.keepsAll r s cs = true →
    Logger.iscommitted s r = true → Logger.iscommitted s1 r = true
  | [], s, s1, hc, _, h => by
    simp only [Logger.calls, Option.some.injEq] at hc
    subst hc; exact h
  | c :: cs, s, s1, hc, hk, h => by
    simp only [Logger.calls] at hc
    cases h2 : Logger.call s c with
    | none => simp [h2] at hc
    | some s2 =>
      simp only [h2, Option.some_bind] at hc
      simp only [Logger.keepsAll, h2, Bool.and_eq_true] at hk
      exact calls_keep_iscommitted r cs s2 s1 hc hk.2
        (call_keeps_iscommitted s s2 r c h2 hk.1 h).1

/-- C7, as the code has it: `iscommitted(r)` holds exactly when `r.seqno` is
not `0` and at most `committed`; once it holds it still holds after every
sequence of `add_pending`, `get_pending`, `add_logged`, `save_cp` and
`set_seqno` calls in which no `set_seqno(last)` has `last` below `r.seqno` and
no `get_pending` dequeues `r` itself. -/
theorem Logger_iscommitted_characterised_and_kept :
    (∀ (s : MetaState) (r : ReqPtr),
      Logger.iscommitted s r = true ↔
        (s.reqs r).seqno ≠ 0 ∧ (s.reqs r).seqno ≤ s.oplog.committed) ∧
    (∀ (s : MetaState) (r : ReqPtr) (cs : List LoggerCall) (s1 : MetaState),
      Logger.iscommitted s r = true → Logger.calls s cs = some s1 →
      Logger.keepsAll r s cs = true → Logger.iscommitted s1 r = true) := by
  refine ⟨?_, ?_⟩
  · intro s r
    simp [Logger.iscommitted]
  · intro s r cs s1 h hc hk
    exact calls_keep_iscommitted r cs s s1 hc hk h

/-- Witness for C7: request 7 with sequence number 5 stays committed over a
sequence holding every kind of call. -/
theorem Logger_iscommitted_characterised_and_kept_witness :
    Logger.iscommitted
      ((Logger.calls
        { oplog := { Logger.ctor "logs" 0 with nextseq := 5, committed := 5 }
          reqs := fun _ => { seqno := 5 } }
        [.add_pending 8, .set_seqno 14, .get_pending, .add_logged 8, .save_cp 8]).get
          (by decide)) 7 = true :=
  Logger_iscommitted_characterised_and_kept.2
    { oplog := { Logger.ctor "logs" 0 with nextseq := 5, committed := 5 }
      reqs := fun _ => { seqno := 5 } } 7
    [.add_pending 8, .set_seqno 14, .get_pending, .add_logged 8, .save_cp 8] _
    (by decide) (Option.some_get _).symm (by decide)

/-- Counterexample for C7: with `committed = 5`, request 7 of sequence number 5
is committed; it is no longer committed after `set_seqno(3)`, and it is no
longer committed after it is queued again and handed out by `get_pending`. -/
theorem Logger_iscommitted_not_kept :
    Logger.iscommitted
      { oplog := { Logger.ctor "logs" 0 with nextseq := 5, committed := 5 }
        reqs := fun _ => { seqno := 5 } } 7 = true ∧
    (Logger.calls
      { oplog := { Logger.ctor "logs" 0 with nextseq := 5, committed := 5 }
        reqs := fun _ => { seqno := 5 } }
      [.set_seqno 3]).map (fun s1 => Logger.iscommitted s1 7) = some false ∧
    (Logger.calls
      { oplog := { Logger.ctor "logs" 0 with nextseq := 5, committed := 5 }
        reqs := fun _ => { seqno := 5 } }
      [.add_pending 7, .get_pending]).map (fun s1 => Logger.iscommitted s1 7) = some false := by
  decide

/-- Counterexample for C8: after `set_seqno(9223372036854775807)`, the largest
`seq_t` value, the next `get_pending` gives the request it dequeues the number
`-9223372036854775808`, the increment wrapping in 64 bits; that number is
`<= last`, and `iscommitted` is true for the request. -/
theorem Logger_set_seqno_largest_reused :
    (Logger.get_pending
      (Logger.set_seqno
        { oplog := { Logger.ctor "logs" 0 with pending := [9] }
          reqs := fun _ => { seqno := 0 } } 9223372036854775807)).map
        (fun p => (p.1, (p.2.reqs p.1).seqno,
          decide ((p.2.reqs p.1).seqno ≤ 9223372036854775807), Logger.iscommitted p.2 p.1)) =
      some (9, -9223372036854775808, true, true) := by
  decide

/-- C8, as the code has it: for every `last >= 1` and every prior state, after
`set_seqno(last)`: `checkpointed()` is `last` and every request whose sequence
number lies in `1..last` is committed; when `last` is below the largest `seq_t`
value, the next `get_pending` gives the request it dequeues the number
`last + 1`, which is not `<= last`, and that request is not committed; when
`last` is the largest `seq_t` value, the increment wraps in 64 bits, the next
`get_pending` gives the smallest `seq_t` value, which is `<= last`, and that
request is committed. -/
theorem Logger_set_seqno_primes (s : MetaState) (last : Int) (h1 : 1 ≤ last) :
    Logger.checkpointed (Logger.set_seqno s last) = last ∧
    (∀ r : ReqPtr, 1 ≤ (s.reqs r).seqno → (s.reqs r).seqno ≤ last →
      Logger.iscommitted (Logger.set_seqno s last) r = true) ∧
    (last < intMax 64 → ∀ (r : ReqPtr) (rest : List ReqPtr), s.oplog.pending = r :: rest →
      ∃ s1, Logger.get_pending (Logger.set_seqno s last) = some (r, s1) ∧
        (s1.reqs r).seqno = last + 1 ∧ ¬ (s1.reqs r).seqno ≤ last ∧
        Logger.iscommitted s1 r = false) ∧
    (last = intMax 64 → ∀ (r : ReqPtr) (rest : List ReqPtr), s.oplog.pending = r :: rest →
      ∃ s1, Logger.get_pending (Logger.set_seqno s last) = some (r, s1) ∧
        (s1.reqs r).seqno = intMin 64 ∧ (s1.reqs r).seqno ≤ last ∧
        Logger.iscommitted s1 r = true) := by
  refine ⟨rfl, ?_, ?_, ?_⟩
  · intro r hr1 hr2
    simp only [Logger.iscommitted, Logger.set_seqno, Bool.and_eq_true, bne_iff_ne, ne_eq,
      decide_eq_true_eq]
    exact ⟨by omega, hr2⟩
  · intro h2 r rest hp
    rw [intMax_64] at h2
    obtain ⟨s1, hg, hseq, -, -, hcomm, -⟩ := get_pending_cons (Logger.set_seqno s last) r rest
      (by simpa [Logger.set_seqno] using hp)
      (by rw [intMin_64]; simp only [Logger.set_seqno]; omega)
      (by rw [intMax_64]; simp only [Logger.set_seqno]; omega)
    simp only [Logger.set_seqno] at hseq hcomm
    refine ⟨s1, hg, hseq, by omega, ?_⟩
    simp only [Logger.iscommitted, hseq, hcomm, Bool.and_eq_false_imp, bne_iff_ne, ne_eq,
      decide_eq_false_iff_not]
    intro _; omega
  · intro h2 r rest hp
    obtain ⟨s1, hg, hseq, hcomm⟩ := get_pending_seqno (Logger.set_seqno s last) r rest
      (by simpa [Logger.set_seqno] using hp)
    simp only [Logger.set_seqno] at hseq hcomm
    rw [h2, wrapSigned_intMax_succ] at hseq
    refine ⟨s1, hg, hseq, ?_, ?_⟩
    · rw [hseq, h2, intMin_64, intMax_64]; decide
    · simp only [Logger.iscommitted, hseq, hcomm, h2, intMin_64, intMax_64]
      decide

/-- Witness for C8: after `set_seqno(5)` a request of sequence number 5 is
committed and the request handed out next gets 6 and is not committed. -/
theorem Logger_set_seqno_primes_witness :
    Logger.iscommitted
      (Logger.set_seqno
        { oplog := { Logger.ctor "logs" 0 with pending := [9] }
          reqs := fun p => if p = 9 then { seqno := 0 } else { seqno := 5 } } 5) 4 = true ∧
    ∃ s1, Logger.get_pending
        (Logger.set_seqno
          { oplog := { Logger.ctor "logs" 0 with pending := [9] }
            reqs := fun p => if p = 9 then { seqno := 0 } else { seqno := 5 } } 5) =
          some (9, s1) ∧
      (s1.reqs 9).seqno = 5 + 1 ∧ ¬ (s1.reqs 9).seqno ≤ 5 ∧ Logger.iscommitted s1 9 = false :=
  ⟨(Logger_set_seqno_primes
      { oplog := { Logger.ctor "logs" 0 with pending := [9] }
        reqs := fun p => if p = 9 then { seqno := 0 } else { seqno := 5 } } 5
      (by decide)).2.1 4 (by decide) (by decide),
   (Logger_set_seqno_primes
      { oplog := { Logger.ctor "logs" 0 with pending := [9] }
        reqs := fun p => if p = 9 then { seqno := 0 } else { seqno := 5 } } 5
      (by decide)).2.2.1 (by decide) 9 [] rfl⟩

/-- C9 at the failing input: the constructor gives `nextseq` and `committed`
the value `0` and leaves `incp` as it finds it, so a logger constructed over
storage holding `7` reports `checkpointed() = 7` above `committed = 0`. -/
theorem Logger_ctor_leaves_incp :
    Logger.checkpointed { oplog := Logger.ctor "logs" 7, reqs := fun _ => { seqno := 0 } } = 7 ∧
    (Logger.ctor "logs" 7).committed = 0 ∧ (Logger.ctor "logs" 7).nextseq = 0 ∧
    ¬ (Logger.checkpointed { oplog := Logger.ctor "logs" 7, reqs := fun _ => { seqno := 0 } } ≤
        (Logger.ctor "logs" 7).committed) := by
  decide

/-- The order of the watermarks is kept by every call that returns, from any
state in which it holds and `nextseq` is below the largest `seq_t` value. -/
theorem Logger_watermarks_kept (s s1 : MetaState) (c : LoggerCall)
    (hc : Logger.call s c = some s1)
    (h : s.oplog.incp ≤ s.oplog.committed ∧ s.oplog.committed ≤ s.oplog.nextseq)
    (hlo : intMin 64 ≤ s.oplog.nextseq) (hhi : s.oplog.nextseq < intMax 64) :
    s1.oplog.incp ≤ s1.oplog.committed ∧ s1.oplog.committed ≤ s1.oplog.nextseq := by
  rw [intMin_64] at hlo
  rw [intMax_64] at hhi
  cases c with
  | add_pending p =>
    simp only [Logger.call, Option.some.injEq] at hc
    subst hc; simpa [Logger.add_pending] using h
  | add_logged p =>
    simp only [Logger.call, Option.some.injEq] at hc
    subst hc; simpa [Logger.add_logged] using h
  | save_cp p =>
    simp only [Logger.call, Option.some.injEq] at hc
    subst hc; simpa [Logger.save_cp] using h
  | set_seqno last =>
    simp only [Logger.call, Option.some.injEq] at hc
    subst hc; simp [Logger.set_seqno]
  | get_pending =>
    simp only [Logger.call] at hc
    cases hp : s.oplog.pending with
    | nil => simp [Logger.get_pending, hp] at hc
    | cons r rest =>
      obtain ⟨s3, h3, -, hnext, -, hcomm, hincp, -⟩ := get_pending_cons s r rest hp
        (by rw [intMin_64]; omega) (by rw [intMax_64]; omega)
      rw [h3] at hc
      simp only [Option.map_some', Option.some.injEq] at hc
      subst hc
      rw [hnext, hcomm, hincp]
      omega

/-! ## Encoders -/

theorem noCRLF_append {a b : String} (ha : noCRLF a) (hb : noCRLF b) : noCRLF (a ++ b) := by
  intro c hc
  rw [String.data_append, List.mem_append] at hc
  exact hc.elim (ha c) (hb c)

theorem noCRLF_int (x : Int) : noCRLF (toString x) := by
  intro c hc
  rcases Int_toString_chars x c hc with h | rfl
  · constructor <;> rintro rfl <;> simp at h
  · decide

theorem noCRLF_nat (n : Nat) : noCRLF (toString n) := by
  intro c hc
  rw [Nat_toString_data] at hc
  have h := toDigits_isDigit n c hc
  constructor <;> rintro rfl <;> simp at h

theorem noCRLF_c_str {s : String} (h : noCRLF s) : noCRLF (c_str s) := by
  intro c hc
  exact h c (List.takeWhile_subset _ hc)

theorem c_str_of_no_nul (s : String) (h : '\x00' ∉ s.data) : c_str s = s := by
  apply String.ext
  simp only [c_str]
  rw [List.takeWhile_eq_self_iff]
  intro c hc
  simp only [bne_iff_ne, ne_eq]
  rintro rfl
  exact h hc

theorem data_append_ne_nil {a : String} (b : String) (ha : a.data ≠ []) :
    (a ++ b).data ≠ [] := by
  rw [String.data_append]
  simp [ha]

theorem headerBlock_data_cons (l : String) (ls : List String) :
    (headerBlock (l :: ls)).data = l.data ++ ('\r' :: '\n' :: (headerBlock ls).data) := by
  simp [headerBlock]

theorem blankLine_after_line : ∀ (m : List Char) (R pre post : List Char),
    (∀ c ∈ m, c ≠ '\r') →
    (∀ pre1 post1, R = pre1 ++ blankLine ++ post1 → post1 = []) →
    (R = ['\r', '\n'] ∨ ∃ c t, R = c :: t ∧ c ≠ '\r') →
    m ++ ('\r' :: '\n' :: R) = pre ++ blankLine ++ post → post = []
  | [], R, pre, post, _, hR, hhead, h => by
    match pre, h with
    | [], h =>
      simp only [blankLine, List.nil_append, List.cons_append, List.cons.injEq, true_and] at h
      rcases hhead with rfl | ⟨c, t, rfl, hc⟩
      · simp only [List.cons.injEq, true_and] at h
        exact h.symm
      · simp only [List.cons.injEq] at h
        exact absurd h.1 hc
    | [x], h =>
      simp [blankLine] at h
    | x :: y :: pre2, h =>
      simp only [List.nil_append, List.cons_append, List.cons.injEq] at h
      exact hR pre2 post h.2.2
  | c :: m, R, pre, post, hm, hR, hhead, h => by
    match pre, h with
    | [], h =>
      simp only [blankLine, List.nil_append, List.cons_append, List.cons.injEq] at h
      exact absurd h.1 (hm c (List.mem_cons_self _ _))
    | x :: pre1, h =>
      simp only [List.cons_append, List.cons.injEq] at h
      exact blankLine_after_line m R pre1 post
        (fun c1 h1 => hm c1 (List.mem_cons_of_mem _ h1)) hR hhead h.2

theorem headerBlock_head : ∀ (ls : List String), (∀ l ∈ ls, l.data ≠ [] ∧ noCRLF l) →
    ((headerBlock ls).data = ['\r', '\n'] ∨ ∃ c t, (headerBlock ls).data = c :: t ∧ c ≠ '\r')
  | [], _ => Or.inl rfl
  | l :: ls, h => by
    right
    obtain ⟨hne, hcl⟩ := h l (List.mem_cons_self _ _)
    rw [headerBlock_data_cons]
    match hd : l.data with
    | [] => exact absurd hd hne
    | c :: t =>
      refine ⟨c, _, rfl, ?_⟩
      exact (hcl c (by rw [hd]; exact List.mem_cons_self _ _)).1

/-- In a header block of non-empty lines free of CR and LF, the blank-line
terminator occurs at the end only. -/
theorem headerBlock_blankLine_last : ∀ (ls : List String),
    (∀ l ∈ ls, l.data ≠ [] ∧ noCRLF l) →
    ∀ pre post, (headerBlock ls).data = pre ++ blankLine ++ post → post = []
  | [], _, pre, post, h => by
    have := congrArg List.length h
    simp [headerBlock, blankLine] at this
    omega
  | l :: ls, hcl, pre, post, h => by
    rw [headerBlock_data_cons] at h
    have hcl1 : ∀ l1 ∈ ls, l1.data ≠ [] ∧ noCRLF l1 := fun l1 h1 =>
      hcl l1 (List.mem_cons_of_mem _ h1)
    exact blankLine_after_line l.data _ pre post
      (fun c hc => ((hcl l (List.mem_cons_self _ _)).2 c hc).1)
      (headerBlock_blankLine_last ls hcl1) (headerBlock_head ls hcl1) h

/-- A header block with at least one line ends in the blank-line terminator. -/
theorem headerBlock_ends : ∀ (l : String) (ls : List String),
    ∃ pre, (headerBlock (l :: ls)).data = pre ++ blankLine
  | l, [] => ⟨l.data, by simp [headerBlock, blankLine]⟩
  | l, l1 :: ls => by
    obtain ⟨pre, h⟩ := headerBlock_ends l1 ls
    refine ⟨l.data ++ ('\r' :: '\n' :: pre), ?_⟩
    rw [headerBlock_data_cons, h]
    simp

theorem serversLoop_eq (d : Decls) (w : List WriteInfo) : ∀ (fuel i : Nat) (os : String),
    w.length ≤ fuel + i →
    WriteSyncOp.serversLoop d w fuel i os =
      os ++ concatAll ((w.drop i).map fun e =>
        c_str (d.ToString e.serverLoc) ++ " " ++ toString e.writeId ++ " ")
  | 0, i, os, h => by
    have : w.drop i = [] := List.drop_eq_nil_of_le (by omega)
    simp [WriteSyncOp.serversLoop, this, concatAll]
  | fuel + 1, i, os, h => by
    simp only [WriteSyncOp.serversLoop]
    cases hg : w.get? i with
    | none =>
      have : w.drop i = [] := List.drop_eq_nil_of_le (List.get?_eq_none.1 hg)
      simp [this, concatAll]
    | some e =>
      have hi : i < w.length := by
        by_contra hcon
        rw [List.get?_eq_none.2 (by omega)] at hg
        exact Option.noConfusion hg
      have hd : w.drop i = e :: w.drop (i + 1) := by
        rw [List.drop_eq_getElem_cons hi]
        congr 1
        rw [List.get?_eq_getElem?, List.getElem?_eq_getElem hi] at hg
        exact Option.some.inj hg
      simp only []
      rw [serversLoop_eq d w fuel (i + 1) _ (by omega), hd]
      simp only [List.map_cons, concatAll, String.append_assoc]

theorem noCRLF_concatAll : ∀ (l : List String), (∀ s ∈ l, noCRLF s) → noCRLF (concatAll l)
  | [], _ => by decide
  | s :: ss, h => by
    simp only [concatAll]
    exact noCRLF_append (h s (List.mem_cons_self _ _))
      (noCRLF_concatAll ss fun t ht => h t (List.mem_cons_of_mem _ ht))

theorem WriteSyncOp_Request_eq (d : Decls) (op : WriteSyncOp) :
    WriteSyncOp.Request d op =
      headerBlock ["WRITE_SYNC ", "Cseq: " ++ toString op.seq, "Version: KFS/1.0",
        "Chunk-handle: " ++ toString op.chunkId,
        "Chunk-version: " ++ toString op.chunkVersion,
        "Num-servers: " ++ toString op.writeInfo.length,
        "Servers:" ++ concatAll (op.writeInfo.map fun w =>
          c_str (d.ToString w.serverLoc) ++ " " ++ toString w.writeId ++ " ")] := by
  simp only [WriteSyncOp.Request]
  rw [serversLoop_eq d op.writeInfo op.writeInfo.length 0 _ (by omega)]
  apply String.ext
  simp [headerBlock, KFS_VERSION_STR]

/-- The framing facts of a header block whose lines are clean. -/
theorem framed_of (text : String) (seq : Int) (name : String) (keys vals : List String)
    (hlen : vals.length = keys.length)
    (heq : text = headerBlock (name :: ("Cseq: " ++ toString seq) :: "Version: KFS/1.0" ::
      List.zipWith (fun k v => k ++ ":" ++ v) keys vals))
    (hclean : ∀ l ∈ name :: ("Cseq: " ++ toString seq) :: "Version: KFS/1.0" ::
      List.zipWith (fun k v => k ++ ":" ++ v) keys vals, l.data ≠ [] ∧ noCRLF l) :
    ∃ vals : List String, vals.length = keys.length ∧
      text = headerBlock (name :: ("Cseq: " ++ toString seq) :: "Version: KFS/1.0" ::
        List.zipWith (fun k v => k ++ ":" ++ v) keys vals) ∧
      (∀ l ∈ name :: ("Cseq: " ++ toString seq) :: "Version: KFS/1.0" ::
        List.zipWith (fun k v => k ++ ":" ++ v) keys vals, l.data ≠ [] ∧ noCRLF l) ∧
      (∃ pre, text.data = pre ++ blankLine) ∧
      (∀ pre post, text.data = pre ++ blankLine ++ post → post = []) := by
  refine ⟨vals, hlen, heq, hclean, ?_, ?_⟩
  · rw [heq]; exact headerBlock_ends _ _
  · rw [heq]; exact headerBlock_blankLine_last _ hclean

/-- C3: `OpenOp::Request` writes the line `Intent: READ` as the last line of
the request when the mode is read-only, the line `Intent: WRITE` when it is
write-only or read-write, and aborts, producing no request, for every other
mode value. -/
theorem OpenOp_Request_intent (op : OpenOp) :
    (op.openFlags = O_RDONLY →
      op.Request = some (headerBlock ["OPEN ", "Cseq: " ++ toString op.seq,
        "Version: KFS/1.0", "Chunk-handle: " ++ toString op.chunkId, "Intent: READ"])) ∧
    (op.openFlags = O_WRONLY ∨ op.openFlags = O_RDWR →
      op.Request = some (headerBlock ["OPEN ", "Cseq: " ++ toString op.seq,
        "Version: KFS/1.0", "Chunk-handle: " ++ toString op.chunkId, "Intent: WRITE"])) ∧
    (op.openFlags ≠ O_RDONLY → op.openFlags ≠ O_WRONLY → op.openFlags ≠ O_RDWR →
      op.Request = none) := by
  refine ⟨?_, ?_, ?_⟩
  · intro h
    simp only [OpenOp.Request, h, if_true, Option.some.injEq]
    apply String.ext
    simp [headerBlock, KFS_VERSION_STR]
  · intro h
    have hne : op.openFlags ≠ O_RDONLY := by
      rcases h with h | h <;> rw [h] <;> decide
    simp only [OpenOp.Request, hne, h, if_true, if_false, Option.some.injEq]
    apply String.ext
    simp [headerBlock, KFS_VERSION_STR]
  · intro h0 h1 h2
    simp [OpenOp.Request, h0, h1, h2]

/-- Witness for C3: flags 0, 1 and 2 give the two intents, flag 64 aborts. -/
theorem OpenOp_Request_intent_witness :
    OpenOp.Request { seq := 7, status := 0, contentLength := 0, contentBuf := none,
                     chunkId := 42, openFlags := 0 } =
      some "OPEN \r\nCseq: 7\r\nVersion: KFS/1.0\r\nChunk-handle: 42\r\nIntent: READ\r\n\r\n" ∧
    OpenOp.Request { seq := 7, status := 0, contentLength := 0, contentBuf := none,
                     chunkId := 42, openFlags := 2 } =
      some "OPEN \r\nCseq: 7\r\nVersion: KFS/1.0\r\nChunk-handle: 42\r\nIntent: WRITE\r\n\r\n" ∧
    OpenOp.Request { seq := 7, status := 0, contentLength := 0, contentBuf := none,
                     chunkId := 42, openFlags := 64 } = none :=
  ⟨(OpenOp_Request_intent _).1 (by decide),
   (OpenOp_Request_intent _).2.1 (Or.inr (by decide)),
   (OpenOp_Request_intent _).2.2 (by decide) (by decide) (by decide)⟩

/-- C4: for each of the twenty kinds, when `Request` completes and the string
members are free of CR and LF, the text is a header block: the operation-name
line, `Cseq: <seq>`, `Version: KFS/1.0`, then one line per key of the kind, in
the order of the code, each made of the key, a colon and the value text, and
the empty line; every line is non-empty and free of CR and LF, and the
blank-line terminator CR LF CR LF occurs once, at the very end. -/
theorem Op_Request_framing (d : Decls) (op : Op) (text : String)
    (h : Op.Request d op = some text) (hs : ∀ s ∈ Op.strings d op, noCRLF s) :
    ∃ vals : List String, vals.length = (Op.keys op).length ∧
      text = headerBlock (Op.opName op :: ("Cseq: " ++ toString (Op.seq op)) ::
        "Version: KFS/1.0" :: List.zipWith (fun k v => k ++ ":" ++ v) (Op.keys op) vals) ∧
      (∀ l ∈ Op.opName op :: ("Cseq: " ++ toString (Op.seq op)) ::
        "Version: KFS/1.0" :: List.zipWith (fun k v => k ++ ":" ++ v) (Op.keys op) vals,
        l.data ≠ [] ∧ noCRLF l) ∧
      (∃ pre, text.data = pre ++ blankLine) ∧
      (∀ pre post, text.data = pre ++ blankLine ++ post → post = []) := by
  cases op with
  | create o =>
    simp only [Op.Request, Option.some.injEq] at h
    subst h
    have hs0 : noCRLF o.filename := hs _ (by simp [Op.strings])
    refine framed_of _ _ _ _ [" " ++ toString o.parentFid, " " ++ o.filename, " " ++ toString o.numReplicas] rfl ?_ ?_
    · apply String.ext
      simp [CreateOp.Request, headerBlock, KFS_VERSION_STR, Op.opName, Op.keys, Op.seq]
    · simp only [Op.opName, Op.keys, Op.seq, List.zipWith, List.forall_mem_cons]
      repeat' constructor
      all_goals first
        | decide
        | exact data_append_ne_nil _ (by decide)
        | exact data_append_ne_nil _ (data_append_ne_nil _ (by decide))
        | (repeat' apply noCRLF_append) <;>
            first | decide | exact noCRLF_int _ | exact noCRLF_nat _ | assumption
  | mkdir o =>
    simp only [Op.Request, Option.some.injEq] at h
    subst h
    have hs0 : noCRLF o.dirname := hs _ (by simp [Op.strings])
    refine framed_of _ _ _ _ [" " ++ toString o.parentFid, " " ++ o.dirname] rfl ?_ ?_
    · apply String.ext
      simp [MkdirOp.Request, headerBlock, KFS_VERSION_STR, Op.opName, Op.keys, Op.seq]
    · simp only [Op.opName, Op.keys, Op.seq, List.zipWith, List.forall_mem_cons]
      repeat' constructor
      all_goals first
        | decide
        | exact data_append_ne_nil _ (by decide)
        | exact data_append_ne_nil _ (data_append_ne_nil _ (by decide))
        | (repeat' apply noCRLF_append) <;>
            first | decide | exact noCRLF_int _ | exact noCRLF_nat _ | assumption
  | rmdir o =>
    simp only [Op.Request, Option.some.injEq] at h
    subst h
    have hs0 : noCRLF o.dirname := hs _ (by simp [Op.strings])
    refine framed_of _ _ _ _ [" " ++ toString o.parentFid, " " ++ o.dirname] rfl ?_ ?_
    · apply String.ext
      simp [RmdirOp.Request, headerBlock, KFS_VERSION_STR, Op.opName, Op.keys, Op.seq]
    · simp only [Op.opName, Op.keys, Op.seq, List.zipWith, List.forall_mem_cons]
      repeat' constructor
      all_goals first
        | decide
        | exact data_append_ne_nil _ (by decide)
        | exact data_append_ne_nil _ (data_append_ne_nil _ (by decide))
        | (repeat' apply noCRLF_append) <;>
            first | decide | exact noCRLF_int _ | exact noCRLF_nat _ | assumption
  | rename o =>
    simp only [Op.Request, Option.some.injEq] at h
    subst h
    have hs0 : noCRLF o.oldname := hs _ (by simp [Op.strings])
    have hs1 : noCRLF o.newpath := hs _ (by simp [Op.strings])
    refine framed_of _ _ _ _ [" " ++ toString o.parentFid, " " ++ o.oldname, " " ++ o.newpath, " " ++ toString (if o.overwrite then (1 : Int) else 0)] rfl ?_ ?_
    · apply String.ext
      simp [RenameOp.Request, headerBlock, KFS_VERSION_STR, Op.opName, Op.keys, Op.seq]
    · simp only [Op.opName, Op.keys, Op.seq, List.zipWith, List.forall_mem_cons]
      repeat' constructor
      all_goals first
        | decide
        | exact data_append_ne_nil _ (by decide)
        | exact data_append_ne_nil _ (data_append_ne_nil _ (by decide))
        | (repeat' apply noCRLF_append) <;>
            first | decide | exact noCRLF_int _ | exact noCRLF_nat _ | assumption
  | readdir o =>
    simp only [Op.Request, Option.some.injEq] at h
    subst h
    refine framed_of _ _ _ _ [" " ++ toString o.fid] rfl ?_ ?_
    · apply String.ext
      simp [ReaddirOp.Request, headerBlock, KFS_VERSION_STR, Op.opName, Op.keys, Op.seq]
    · simp only [Op.opName, Op.keys, Op.seq, List.zipWith, List.forall_mem_cons]
      repeat' constructor
      all_goals first
        | decide
        | exact data_append_ne_nil _ (by decide)
        | exact data_append_ne_nil _ (data_append_ne_nil _ (by decide))
        | (repeat' apply noCRLF_append) <;>
            first | decide | exact noCRLF_int _ | exact noCRLF_nat _ | assumption
  | remove o =>
    simp only [Op.Request, Option.some.injEq] at h
    subst h
    have hs0 : noCRLF o.filename := hs _ (by simp [Op.strings])
    refine framed_of _ _ _ _ [" " ++ toString o.parentFid, " " ++ o.filename] rfl ?_ ?_
    · apply String.ext
      simp [RemoveOp.Request, headerBlock, KFS_VERSION_STR, Op.opName, Op.keys, Op.seq]
    · simp only [Op.opName, Op.keys, Op.seq, List.zipWith, List.forall_mem_cons]
      repeat' constructor
      all_goals first
        | decide
        | exact data_append_ne_nil _ (by decide)
        | exact data_append_ne_nil _ (data_append_ne_nil _ (by decide))
        | (repeat' apply noCRLF_append) <;>
            first | decide | exact noCRLF_int _ | exact noCRLF_nat _ | assumption
  | lookup o =>
    simp only [Op.Request, Option.some.injEq] at h
    subst h
    have hs0 : noCRLF o.filename := hs _ (by simp [Op.strings])
    refine framed_of _ _ _ _ [" " ++ toString o.parentFid, " " ++ o.filename] rfl ?_ ?_
    · apply String.ext
      simp [LookupOp.Request, headerBlock, KFS_VERSION_STR, Op.opName, Op.keys, Op.seq]
    · simp only [Op.opName, Op.keys, Op.seq, List.zipWith, List.forall_mem_cons]
      repeat' constructor
      all_goals first
        | decide
        | exact data_append_ne_nil _ (by decide)
        | exact data_append_ne_nil _ (data_append_ne_nil _ (by decide))
        | (repeat' apply noCRLF_append) <;>
            first | decide | exact noCRLF_int _ | exact noCRLF_nat _ | assumption
  | lookupPath o =>
    simp only [Op.Request, Option.some.injEq] at h
    subst h
    have hs0 : noCRLF o.filename := hs _ (by simp [Op.strings])
    refine framed_of _ _ _ _ [" " ++ toString o.rootFid, " " ++ o.filename] rfl ?_ ?_
    · apply String.ext
      simp [LookupPathOp.Request, headerBlock, KFS_VERSION_STR, Op.opName, Op.keys, Op.seq]
    · simp only [Op.opName, Op.keys, Op.seq, List.zipWith, List.forall_mem_cons]
      repeat' constructor
      all_goals first
        | decide
        | exact data_append_ne_nil _ (by decide)
        | exact data_append_ne_nil _ (data_append_ne_nil _ (by decide))
        | (repeat' apply noCRLF_append) <;>
            first | decide | exact noCRLF_int _ | exact noCRLF_nat _ | assumption
  | getAlloc o =>
    simp only [Op.Request, GetAllocOp.Request] at h
    split at h
    · simp only [Option.some.injEq] at h
      subst h
      refine framed_of _ _ _ _ [" " ++ toString o.fid, " " ++ toString o.fileOffset] rfl ?_ ?_
      · apply String.ext
        simp [headerBlock, KFS_VERSION_STR, Op.opName, Op.keys, Op.seq]
      · simp only [Op.opName, Op.keys, Op.seq, List.zipWith, List.forall_mem_cons]
        repeat' constructor
        all_goals first
          | decide
          | exact data_append_ne_nil _ (by decide)
          | exact data_append_ne_nil _ (data_append_ne_nil _ (by decide))
          | (repeat' apply noCRLF_append) <;>
              first | decide | exact noCRLF_int _ | exact noCRLF_nat _ | assumption
    · exact Option.noConfusion h
  | getLayout o =>
    simp only [Op.Request, Option.some.injEq] at h
    subst h
    refine framed_of _ _ _ _ [" " ++ toString o.fid] rfl ?_ ?_
    · apply String.ext
      simp [GetLayoutOp.Request, headerBlock, KFS_VERSION_STR, Op.opName, Op.keys, Op.seq]
    · simp only [Op.opName, Op.keys, Op.seq, List.zipWith, List.forall_mem_cons]
      repeat' constructor
      all_goals first
        | decide
        | exact data_append_ne_nil _ (by decide)
        | exact data_append_ne_nil _ (data_append_ne_nil _ (by decide))
        | (repeat' apply noCRLF_append) <;>
            first | decide | exact noCRLF_int _ | exact noCRLF_nat _ | assumption
  | allocate o =>
    simp only [Op.Request, Option.some.injEq] at h
    subst h
    refine framed_of _ _ _ _ [" " ++ toString o.fid, " " ++ toString o.fileOffset] rfl ?_ ?_
    · apply String.ext
      simp [AllocateOp.Request, headerBlock, KFS_VERSION_STR, Op.opName, Op.keys, Op.seq]
    · simp only [Op.opName, Op.keys, Op.seq, List.zipWith, List.forall_mem_cons]
      repeat' constructor
      all_goals first
        | decide
        | exact data_append_ne_nil _ (by decide)
        | exact data_append_ne_nil _ (data_append_ne_nil _ (by decide))
        | (repeat' apply noCRLF_append) <;>
            first | decide | exact noCRLF_int _ | exact noCRLF_nat _ | assumption
  | truncate o =>
    simp only [Op.Request, Option.some.injEq] at h
    subst h
    refine framed_of _ _ _ _ [" " ++ toString o.fid, " " ++ toString o.fileOffset] rfl ?_ ?_
    · apply String.ext
      simp [TruncateOp.Request, headerBlock, KFS_VERSION_STR, Op.opName, Op.keys, Op.seq]
    · simp only [Op.opName, Op.keys, Op.seq, List.zipWith, List.forall_mem_cons]
      repeat' constructor
      all_goals first
        | decide
        | exact data_append_ne_nil _ (by decide)
        | exact data_append_ne_nil _ (data_append_ne_nil _ (by decide))
        | (repeat' apply noCRLF_append) <;>
            first | decide | exact noCRLF_int _ | exact noCRLF_nat _ | assumption
  | openOp o =>
    simp only [Op.Request, OpenOp.Request] at h
    split at h
    · simp only [Option.some.injEq] at h
      subst h
      refine framed_of _ _ _ _ [" " ++ toString o.chunkId, " READ"] rfl ?_ ?_
      · apply String.ext
        simp [headerBlock, KFS_VERSION_STR, Op.opName, Op.keys, Op.seq]
      · simp only [Op.opName, Op.keys, Op.seq, List.zipWith, List.forall_mem_cons]
        repeat' constructor
        all_goals first
          | decide
          | exact data_append_ne_nil _ (by decide)
          | exact data_append_ne_nil _ (data_append_ne_nil _ (by decide))
          | (repeat' apply noCRLF_append) <;>
              first | decide | exact noCRLF_int _ | exact noCRLF_nat _ | assumption
    · split at h
      · simp only [Option.some.injEq] at h
        subst h
        refine framed_of _ _ _ _ [" " ++ toString o.chunkId, " WRITE"] rfl ?_ ?_
        · apply String.ext
          simp [headerBlock, KFS_VERSION_STR, Op.opName, Op.keys, Op.seq]
        · simp only [Op.opName, Op.keys, Op.seq, List.zipWith, List.forall_mem_cons]
          repeat' constructor
          all_goals first
            | decide
            | exact data_append_ne_nil _ (by decide)
            | exact data_append_ne_nil _ (data_append_ne_nil _ (by decide))
            | (repeat' apply noCRLF_append) <;>
                first | decide | exact noCRLF_int _ | exact noCRLF_nat _ | assumption
      · exact Option.noConfusion h
  | close o =>
    simp only [Op.Request, Option.some.injEq] at h
    subst h
    refine framed_of _ _ _ _ [" " ++ toString o.chunkId] rfl ?_ ?_
    · apply String.ext
      simp [CloseOp.Request, headerBlock, KFS_VERSION_STR, Op.opName, Op.keys, Op.seq]
    · simp only [Op.opName, Op.keys, Op.seq, List.zipWith, List.forall_mem_cons]
      repeat' constructor
      all_goals first
        | decide
        | exact data_append_ne_nil _ (by decide)
        | exact data_append_ne_nil _ (data_append_ne_nil _ (by decide))
        | (repeat' apply noCRLF_append) <;>
            first | decide | exact noCRLF_int _ | exact noCRLF_nat _ | assumption
  | read o =>
    simp only [Op.Request, Option.some.injEq] at h
    subst h
    refine framed_of _ _ _ _ [" " ++ toString o.chunkId, " " ++ toString o.chunkVersion, " " ++ toString o.offset, " " ++ toString o.numBytes] rfl ?_ ?_
    · apply String.ext
      simp [ReadOp.Request, headerBlock, KFS_VERSION_STR, Op.opName, Op.keys, Op.seq]
    · simp only [Op.opName, Op.keys, Op.seq, List.zipWith, List.forall_mem_cons]
      repeat' constructor
      all_goals first
        | decide
        | exact data_append_ne_nil _ (by decide)
        | exact data_append_ne_nil _ (data_append_ne_nil _ (by decide))
        | (repeat' apply noCRLF_append) <;>
            first | decide | exact noCRLF_int _ | exact noCRLF_nat _ | assumption
  | writePrepare o =>
    simp only [Op.Request, Option.some.injEq] at h
    subst h
    refine framed_of _ _ _ _ [" " ++ toString o.chunkId, " " ++ toString o.chunkVersion, " " ++ toString o.offset, " " ++ toString o.numBytes] rfl ?_ ?_
    · apply String.ext
      simp [WritePrepareOp.Request, headerBlock, KFS_VERSION_STR, Op.opName, Op.keys, Op.seq]
    · simp only [Op.opName, Op.keys, Op.seq, List.zipWith, List.forall_mem_cons]
      repeat' constructor
      all_goals first
        | decide
        | exact data_append_ne_nil _ (by decide)
        | exact data_append_ne_nil _ (data_append_ne_nil _ (by decide))
        | (repeat' apply noCRLF_append) <;>
            first | decide | exact noCRLF_int _ | exact noCRLF_nat _ | assumption
  | writeSync o =>
    simp only [Op.Request, Option.some.injEq] at h
    subst h
    have hv : noCRLF (concatAll (o.writeInfo.map fun w =>
        c_str (d.ToString w.serverLoc) ++ " " ++ toString w.writeId ++ " ")) := by
      apply noCRLF_concatAll
      intro s hmem
      obtain ⟨w, hw, rfl⟩ := List.mem_map.1 hmem
      have hl : noCRLF (d.ToString w.serverLoc) :=
        hs _ (by simp only [Op.strings]; exact List.mem_map.2 ⟨w, hw, rfl⟩)
      exact noCRLF_append (noCRLF_append (noCRLF_append (noCRLF_c_str hl) (by decide))
        (noCRLF_int _)) (by decide)
    refine framed_of _ _ _ _ [" " ++ toString o.chunkId, " " ++ toString o.chunkVersion,
      " " ++ toString o.writeInfo.length, concatAll (o.writeInfo.map fun w =>
        c_str (d.ToString w.serverLoc) ++ " " ++ toString w.writeId ++ " ")] rfl ?_ ?_
    · rw [WriteSyncOp_Request_eq]
      apply String.ext
      simp [headerBlock, Op.opName, Op.keys, Op.seq]
    · simp only [Op.opName, Op.keys, Op.seq, List.zipWith, List.forall_mem_cons]
      repeat' constructor
      all_goals first
        | decide
        | exact data_append_ne_nil _ (by decide)
        | exact data_append_ne_nil _ (data_append_ne_nil _ (by decide))
        | (repeat' apply noCRLF_append) <;>
            first | decide | exact noCRLF_int _ | exact noCRLF_nat _ | assumption
  | size o =>
    simp only [Op.Request, Option.some.injEq] at h
    subst h
    refine framed_of _ _ _ _ [" " ++ toString o.chunkId, " " ++ toString o.chunkVersion] rfl ?_ ?_
    · apply String.ext
      simp [SizeOp.Request, headerBlock, KFS_VERSION_STR, Op.opName, Op.keys, Op.seq]
    · simp only [Op.opName, Op.keys, Op.seq, List.zipWith, List.forall_mem_cons]
      repeat' constructor
      all_goals first
        | decide
        | exact data_append_ne_nil _ (by decide)
        | exact data_append_ne_nil _ (data_append_ne_nil _ (by decide))
        | (repeat' apply noCRLF_append) <;>
            first | decide | exact noCRLF_int _ | exact noCRLF_nat _ | assumption
  | leaseAcquire o =>
    simp only [Op.Request, Option.some.injEq] at h
    subst h
    refine framed_of _ _ _ _ [" " ++ toString o.chunkId] rfl ?_ ?_
    · apply String.ext
      simp [LeaseAcquireOp.Request, headerBlock, KFS_VERSION_STR, Op.opName, Op.keys, Op.seq]
    · simp only [Op.opName, Op.keys, Op.seq, List.zipWith, List.forall_mem_cons]
      repeat' constructor
      all_goals first
        | decide
        | exact data_append_ne_nil _ (by decide)
        | exact data_append_ne_nil _ (data_append_ne_nil _ (by decide))
        | (repeat' apply noCRLF_append) <;>
            first | decide | exact noCRLF_int _ | exact noCRLF_nat _ | assumption
  | leaseRenew o =>
    simp only [Op.Request, Option.some.injEq] at h
    subst h
    refine framed_of _ _ _ _ [" " ++ toString o.chunkId, " " ++ toString o.leaseId, " READ_LEASE"] rfl ?_ ?_
    · apply String.ext
      simp [LeaseRenewOp.Request, headerBlock, KFS_VERSION_STR, Op.opName, Op.keys, Op.seq]
    · simp only [Op.opName, Op.keys, Op.seq, List.zipWith, List.forall_mem_cons]
      repeat' constructor
      all_goals first
        | decide
        | exact data_append_ne_nil _ (by decide)
        | exact data_append_ne_nil _ (data_append_ne_nil _ (by decide))
        | (repeat' apply noCRLF_append) <;>
            first | decide | exact noCRLF_int _ | exact noCRLF_nat _ | assumption

/-- Witness for C4: a `CREATE` request. -/
theorem Op_Request_framing_witness :
    ∃ vals : List String, vals.length = 3 ∧
      "CREATE \r\nCseq: 3\r\nVersion: KFS/1.0\r\nParent File-handle: 2\r\nFilename: a.txt\r\nNum-replicas: 3\r\n\r\n" =
        headerBlock ("CREATE " :: ("Cseq: " ++ toString (3 : Int)) :: "Version: KFS/1.0" ::
          List.zipWith (fun k v => k ++ ":" ++ v)
            ["Parent File-handle", "Filename", "Num-replicas"] vals) := by
  obtain ⟨vals, hlen, heq, -⟩ := Op_Request_framing
    { cxx11 := false, loadProperties := fun _ => { propmap := [] },
      ToString := fun l => l.hostname ++ " " ++ toString l.port,
      defaultLoc := { hostname := "", port := -1 },
      defaultLayout := { fileOffset := -1, chunkId := -1, chunkVersion := 0, chunkServers := [] },
      uninitInt := 0 }
    (.create { seq := 3, status := 0, contentLength := 0, contentBuf := none, parentFid := 2,
               filename := "a.txt", numReplicas := 3, fileId := 0 })
    "CREATE \r\nCseq: 3\r\nVersion: KFS/1.0\r\nParent File-handle: 2\r\nFilename: a.txt\r\nNum-replicas: 3\r\n\r\n"
    (by decide) (by decide)
  exact ⟨vals, hlen, heq⟩

/-- C5: `WriteSyncOp::Request` writes `Num-servers: n` with `n` the length of
the write-info list, and after `Servers:` the concatenation, in list order, of
each entry's location string (as the C string handed to the stream), a blank,
the entry's write id and a blank; the pairs are as many as advertised; and for
location strings without NUL the C string is the location string itself. -/
theorem WriteSyncOp_Request_servers (d : Decls) (op : WriteSyncOp) :
    WriteSyncOp.Request d op =
      headerBlock ["WRITE_SYNC ", "Cseq: " ++ toString op.seq, "Version: KFS/1.0",
        "Chunk-handle: " ++ toString op.chunkId,
        "Chunk-version: " ++ toString op.chunkVersion,
        "Num-servers: " ++ toString op.writeInfo.length,
        "Servers:" ++ concatAll (op.writeInfo.map fun w =>
          c_str (d.ToString w.serverLoc) ++ " " ++ toString w.writeId ++ " ")] ∧
    (op.writeInfo.map fun w =>
      c_str (d.ToString w.serverLoc) ++ " " ++ toString w.writeId ++ " ").length =
        op.writeInfo.length ∧
    ((∀ w ∈ op.writeInfo, '\x00' ∉ (d.ToString w.serverLoc).data) →
      (op.writeInfo.map fun w =>
        c_str (d.ToString w.serverLoc) ++ " " ++ toString w.writeId ++ " ") =
      op.writeInfo.map fun w => d.ToString w.serverLoc ++ " " ++ toString w.writeId ++ " ") := by
  refine ⟨WriteSyncOp_Request_eq d op, by simp, ?_⟩
  intro h
  apply List.map_congr_left
  intro w hw
  rw [c_str_of_no_nul _ (h w hw)]

/-- Witness for C5: two write legs. -/
theorem WriteSyncOp_Request_servers_witness :
    (([{ serverLoc := { hostname := "h1", port := 100 }, writeId := 7 },
       { serverLoc := { hostname := "h2", port := 200 }, writeId := 8 }] : List WriteInfo).map
      fun w => c_str (w.serverLoc.hostname ++ " " ++ toString w.serverLoc.port) ++ " " ++
        toString w.writeId ++ " ") =
    ["h1 100 7 ", "h2 200 8 "] := by
  have h := (WriteSyncOp_Request_servers
    { cxx11 := false, loadProperties := fun _ => { propmap := [] },
      ToString := fun l => l.hostname ++ " " ++ toString l.port,
      defaultLoc := { hostname := "", port := -1 },
      defaultLayout := { fileOffset := -1, chunkId := -1, chunkVersion := 0, chunkServers := [] },
      uninitInt := 0 }
    { seq := 1, status := 0, contentLength := 0, contentBuf := none, chunkId := 5,
      chunkVersion := 2,
      writeInfo := [{ serverLoc := { hostname := "h1", port := 100 }, writeId := 7 },
                    { serverLoc := { hostname := "h2", port := 200 }, writeId := 8 }] }).2.2
    (by decide)
  rw [h]
  decide

/-- Counterexample for C10: `GetAllocOp::Request` aborts on the file offset
`-1`. -/
theorem GetAllocOp_Request_negative_offset :
    GetAllocOp.Request { seq := 1, status := 0, contentLength := 0, contentBuf := none,
                         fid := 2, fileOffset := -1, chunkId := 0, chunkVersion := 0,
                         chunkServers := [] } = none := by
  decide

/-- C10, as the code has it: `Request` fails to complete in exactly two cases,
an Open whose mode is none of read-only, write-only, read-write, and a GetAlloc
whose file offset is negative; `GetAllocOp::Request` completes exactly for the
offsets that are not negative. -/
theorem Op_Request_aborts_iff (d : Decls) (op : Op) :
    Op.Request d op = none ↔
      (∃ o : OpenOp, op = .openOp o ∧ o.openFlags ≠ O_RDONLY ∧ o.openFlags ≠ O_WRONLY ∧
        o.openFlags ≠ O_RDWR) ∨
      (∃ o : GetAllocOp, op = .getAlloc o ∧ o.fileOffset < 0) := by
  cases op with
  | openOp o =>
    simp only [Op.Request, OpenOp.Request, Op.openOp.injEq, exists_eq_left', reduceCtorEq,
      false_and, exists_false, or_false]
    by_cases h0 : o.openFlags = O_RDONLY
    · rw [if_pos h0]
      simp [h0]
    · rw [if_neg h0]
      by_cases h12 : o.openFlags = O_WRONLY ∨ o.openFlags = O_RDWR
      · rw [if_pos h12]
        simp only [reduceCtorEq, false_iff, not_and]
        intro _ h1 h2
        exact h12.elim h1 h2
      · rw [if_neg h12]
        simp only [true_iff]
        exact ⟨h0, fun h => h12 (Or.inl h), fun h => h12 (Or.inr h)⟩
  | getAlloc o =>
    simp only [Op.Request, GetAllocOp.Request, Op.getAlloc.injEq, exists_eq_left', reduceCtorEq,
      false_and, exists_false, false_or]
    by_cases h0 : 0 ≤ o.fileOffset
    · simp [h0]
    · simp only [h0, if_false, true_iff]; omega
  | _ => simp [Op.Request]

/-! ## Extraction of well-formed tokens -/

theorem isspace_not_digit (c : Char) (h : c.isDigit = true) : isspace c = false := by
  have h1 : c.val ≥ 48 := by
    simp only [Char.isDigit, Bool.and_eq_true, decide_eq_true_eq] at h; exact h.1
  simp only [isspace, Bool.or_eq_false_iff, beq_eq_false_iff_ne, ne_eq]
  refine ⟨⟨⟨⟨⟨?_, ?_⟩, ?_⟩, ?_⟩, ?_⟩, ?_⟩ <;> rintro rfl <;> exact absurd h1 (by decide)

theorem sentry_skip (s : IStream) (w : List Char) (c : Char) (r : List Char)
    (hg : s.good = true) (hb : s.buf = w ++ c :: r) (hw : ∀ x ∈ w, isspace x = true)
    (hc : isspace c = false) :
    s.sentry = ({ s with buf := c :: r }, true) := by
  have hd : s.buf.dropWhile isspace = c :: r := by
    rw [hb, List.dropWhile_append_of_pos hw, List.dropWhile_cons_of_neg (by simp [hc])]
  simp only [IStream.sentry, hg, if_true, hd]

theorem takeWhile_run {p : Char → Bool} (t r : List Char) (ht : ∀ x ∈ t, p x = true)
    (hr : r = [] ∨ ∃ c r1, r = c :: r1 ∧ p c = false) :
    (t ++ r).takeWhile p = t ∧ (t ++ r).dropWhile p = r := by
  rw [List.takeWhile_append_of_pos ht, List.dropWhile_append_of_pos ht]
  rcases hr with rfl | ⟨c, r1, rfl, hc⟩
  · simp
  · simp [hc]

theorem readString_run (s : IStream) (old : String) (w t r : List Char)
    (hg : s.good = true) (hb : s.buf = w ++ t ++ r) (hw : ∀ x ∈ w, isspace x = true)
    (ht : t ≠ []) (hts : ∀ x ∈ t, isspace x = false)
    (hr : r = [] ∨ ∃ c r1, r = c :: r1 ∧ isspace c = true) :
    readString s old = ({ buf := r, eofbit := r.isEmpty, failbit := false }, String.mk t) := by
  obtain ⟨c, t1, rfl⟩ := List.exists_cons_of_ne_nil ht
  have hs := sentry_skip s w c (t1 ++ r) hg (by simpa using hb) hw
    (hts c (List.mem_cons_self _ _))
  have hrun := takeWhile_run (p := fun x => !isspace x) (c :: t1) r
    (fun x hx => by simp [hts x hx])
    (by
      rcases hr with rfl | ⟨c1, r1, rfl, hc1⟩
      · exact Or.inl rfl
      · exact Or.inr ⟨c1, r1, rfl, by simp [hc1]⟩)
  simp only [List.cons_append] at hrun
  simp only [readString, hs, hrun.1, hrun.2]

theorem readInt_run (bits : Nat) (cxx11 : Bool) (s : IStream) (old : Int) (v : Int)
    (w r : List Char)
    (hg : s.good = true) (hb : s.buf = w ++ (toString v).data ++ r)
    (hw : ∀ x ∈ w, isspace x = true) (hv : inRange bits v)
    (hr : r = [] ∨ ∃ c r1, r = c :: r1 ∧ c.isDigit = false) :
    readInt bits cxx11 s old = ({ buf := r, eofbit := r.isEmpty, failbit := false }, v) := by
  obtain ⟨hv1, hv2⟩ := hv
  cases v with
  | ofNat n =>
    have hne := toDigits_ne_nil n
    obtain ⟨c, t1, hct⟩ := List.exists_cons_of_ne_nil hne
    have hdig : ∀ x ∈ c :: t1, x.isDigit = true := by
      rw [← hct]; exact toDigits_isDigit n
    have hc : c.isDigit = true := hdig c (List.mem_cons_self _ _)
    have hs := sentry_skip s w c (t1 ++ r) hg
      (by rw [hb, Int_toString_ofNat, hct]; simp) hw (isspace_not_digit c hc)
    have hrun := takeWhile_run (p := Char.isDigit) (c :: t1) r hdig hr
    simp only [List.cons_append] at hrun
    have hm : c ≠ '-' := by rintro rfl; simp at hc
    have hp : c ≠ '+' := by rintro rfl; simp at hc
    have hval : digitsValue (c :: t1) = n := by rw [← hct]; exact digitsValue_toDigits n
    have h1 : ¬ ((digitsValue (c :: t1) : Int) < intMin bits) := by
      rw [hval]; exact not_lt.2 hv1
    have h2 : ¬ (intMax bits < (digitsValue (c :: t1) : Int)) := by
      rw [hval]; exact not_lt.2 hv2
    have hm1 : (some c == some '-') = false := by simp [hm]
    have hp1 : (some c == some '+') = false := by simp [hp]
    simp only [readInt, hs, List.head?_cons, hm1, hp1, Bool.or_self, Bool.false_eq_true,
      if_false, hrun.1, hrun.2, List.isEmpty_cons, h1, h2]
    rw [hval]; rfl
  | negSucc n =>
    have hne := toDigits_ne_nil (n + 1)
    have hdig : ∀ x ∈ Nat.toDigits 10 (n + 1), x.isDigit = true := toDigits_isDigit (n + 1)
    have hs := sentry_skip s w '-' (Nat.toDigits 10 (n + 1) ++ r) hg
      (by rw [hb, Int_toString_negSucc]; simp) hw (by decide)
    have hrun := takeWhile_run (p := Char.isDigit) (Nat.toDigits 10 (n + 1)) r hdig hr
    have hval : digitsValue (Nat.toDigits 10 (n + 1)) = n + 1 := digitsValue_toDigits (n + 1)
    have hemp : (Nat.toDigits 10 (n + 1)).isEmpty = false := by
      cases h : Nat.toDigits 10 (n + 1) with
      | nil => exact absurd h hne
      | cons _ _ => rfl
    have hneg : -((n : Int) + 1) = Int.negSucc n := by
      rw [Int.negSucc_eq]
    have h1 : ¬ (-(((n + 1 : Nat)) : Int) < intMin bits) := by
      push_cast; rw [hneg]; exact not_lt.2 hv1
    have h2 : ¬ (intMax bits < -(((n + 1 : Nat)) : Int)) := by
      push_cast; rw [hneg]; exact not_lt.2 hv2
    have hm1 : (some '-' == some '-') = true := by decide
    simp only [readInt, hs, List.head?_cons, hm1, Bool.true_or, if_true,
      List.tail_cons, hrun.1, hrun.2, hval, hemp, Bool.false_eq_true, if_false, h1, h2]
    rw [← hneg]
    push_cast
    rfl

theorem Ready_tail (s : IStream) (t w : String) (rest : List (String × String))
    (h : Ready s ((t, w) :: rest)) :
    s.good = true ∧ (∀ x ∈ w.data, isspace x = true) ∧ (rest ≠ [] → w.data ≠ []) ∧
      sepOK rest = true ∧
      ∃ lead : List Char, (∀ x ∈ lead, isspace x = true) ∧
        s.buf = lead ++ t.data ++ (w.data ++ (spaced rest).data) ∧
        (w.data ++ (spaced rest).data = [] ∨
          ∃ c r1, w.data ++ (spaced rest).data = c :: r1 ∧ isspace c = true) := by
  obtain ⟨hf, he, hsep, lead, hlead, hbuf⟩ := h
  have he1 := he (by simp)
  simp only [sepOK, Bool.and_eq_true, Bool.or_eq_true, List.isEmpty_iff, Bool.not_eq_true',
    allSpace, List.all_eq_true] at hsep
  obtain ⟨⟨hw, hne⟩, hrest⟩ := hsep
  have hne1 : rest ≠ [] → w.data ≠ [] := by
    intro hr
    rcases hne with h1 | h1
    · exact absurd h1 hr
    · intro h2; rw [h2] at h1; simp at h1
  refine ⟨by simp [IStream.good, hf, he1], hw, hne1, hrest, lead.data, ?_, ?_, ?_⟩
  · simpa [allSpace, List.all_eq_true] using hlead
  · rw [hbuf]; simp [spaced, String.data_append]
  · cases hwd : w.data with
    | nil =>
      left
      cases rest with
      | nil => simp [spaced]
      | cons a as => exact absurd hwd (hne1 (by simp))
    | cons c r1 =>
      right
      exact ⟨c, r1 ++ (spaced rest).data, by simp, hw c (by rw [hwd]; exact List.mem_cons_self _ _)⟩

theorem Ready_after (w : String) (rest : List (String × String))
    (hw : ∀ x ∈ w.data, isspace x = true) (hne : rest ≠ [] → w.data ≠ [])
    (hsep : sepOK rest = true) :
    Ready { buf := w.data ++ (spaced rest).data,
            eofbit := (w.data ++ (spaced rest).data).isEmpty, failbit := false } rest := by
  refine ⟨rfl, ?_, hsep, w, ?_, rfl⟩
  · intro hr
    have := hne hr
    cases hwd : w.data with
    | nil => exact absurd hwd this
    | cons c r1 => simp
  · simpa [allSpace, List.all_eq_true] using hw

theorem Ready_readString (s : IStream) (old t w : String) (rest : List (String × String))
    (h : Ready s ((t, w) :: rest)) (ht : isToken t = true) :
    ∃ s1, readString s old = (s1, t) ∧ Ready s1 rest := by
  obtain ⟨hg, hw, hne, hsep, lead, hlead, hbuf, hr⟩ := Ready_tail s t w rest h
  simp only [isToken, Bool.and_eq_true, Bool.not_eq_true', List.isEmpty_eq_false, ne_eq,
    List.all_eq_true] at ht
  have hrun := readString_run s old lead t.data _ hg hbuf hlead
    (by intro h0; simp [h0] at ht)
    (fun x hx => by simpa using ht.2 x hx) hr
  exact ⟨_, hrun, Ready_after w rest hw hne hsep⟩

theorem Ready_readInt (bits : Nat) (cxx11 : Bool) (s : IStream) (old v : Int) (w : String)
    (rest : List (String × String))
    (h : Ready s ((toString v, w) :: rest)) (hv : inRange bits v) :
    ∃ s1, readInt bits cxx11 s old = (s1, v) ∧ Ready s1 rest := by
  obtain ⟨hg, hw, hne, hsep, lead, hlead, hbuf, hr⟩ := Ready_tail s (toString v) w rest h
  have hr1 : w.data ++ (spaced rest).data = [] ∨
      ∃ c r1, w.data ++ (spaced rest).data = c :: r1 ∧ c.isDigit = false := by
    rcases hr with h0 | ⟨c, r1, h1, hc⟩
    · exact Or.inl h0
    · refine Or.inr ⟨c, r1, h1, ?_⟩
      cases hd : c.isDigit with
      | false => rfl
      | true => rw [isspace_not_digit c hd] at hc; exact absurd hc (by decide)
  exact ⟨_, readInt_run bits cxx11 s old v lead _ hg hbuf hlead hv hr1,
    Ready_after w rest hw hne hsep⟩

theorem Ready_ofString (lead : String) (items : List (String × String))
    (hlead : allSpace lead = true) (hsep : sepOK items = true) :
    Ready (IStream.ofString (lead ++ spaced items)) items :=
  ⟨rfl, fun _ => rfl, hsep, lead, hlead, by simp [IStream.ofString, String.data_append]⟩

theorem Nat_toString_eq_Int (n : Nat) : toString n = toString (n : Int) := rfl

theorem serversLoop_run (d : Decls) : ∀ (svs : List ServerLocation)
    (items rest : List (String × String)) (s : IStream) (loc : ServerLocation)
    (acc : List ServerLocation),
    items.map Prod.fst = serversTokens svs → (∀ l ∈ svs, wfServer l) →
    Ready s (items ++ rest) →
    ∃ s1, GetLayoutOp.serversLoop d svs.length s loc acc = (s1, acc ++ svs) ∧ Ready s1 rest
  | [], items, rest, s, loc, acc, hm, _, hr => by
    simp only [serversTokens, List.map_eq_nil_iff] at hm
    subst hm
    exact ⟨s, by simp [GetLayoutOp.serversLoop], by simpa using hr⟩
  | l :: ls, items, rest, s, loc, acc, hm, hwf, hr => by
    simp only [serversTokens] at hm
    obtain ⟨⟨h1, w1⟩, it1, rfl, hh, hm1⟩ := List.map_eq_cons_iff.1 hm
    obtain ⟨⟨p1, w2⟩, it2, rfl, hp, hm2⟩ := List.map_eq_cons_iff.1 hm1
    simp only at hh hp
    subst hh hp
    obtain ⟨hl1, hl2⟩ := hwf l (List.mem_cons_self _ _)
    simp only [List.cons_append] at hr
    obtain ⟨s1, e1, r1⟩ := Ready_readString s loc.hostname _ _ _ hr hl1
    obtain ⟨s2, e2, r2⟩ := Ready_readInt 32 d.cxx11 s1 loc.port _ _ _ r1 hl2
    obtain ⟨s3, e3, r3⟩ := serversLoop_run d ls it2 rest s2 l (acc ++ [l]) hm2
      (fun x hx => hwf x (List.mem_cons_of_mem _ hx)) r2
    refine ⟨s3, ?_, r3⟩
    simp only [List.length_cons, GetLayoutOp.serversLoop, e1, e2]
    rw [e3]
    simp

theorem chunksLoop_run (d : Decls) : ∀ (recs : List ChunkLayoutInfo)
    (items : List (String × String)) (s : IStream) (acc : List ChunkLayoutInfo),
    items.map Prod.fst = layoutTokens recs → (∀ c ∈ recs, wfChunk c) → Ready s items →
    GetLayoutOp.chunksLoop d recs.length s acc = acc ++ recs
  | [], _, s, acc, _, _, _ => by simp [GetLayoutOp.chunksLoop]
  | c :: cs, items, s, acc, hm, hwf, hr => by
    simp only [layoutTokens] at hm
    obtain ⟨⟨t1, w1⟩, it1, rfl, h1, hm1⟩ := List.map_eq_cons_iff.1 hm
    obtain ⟨⟨t2, w2⟩, it2, rfl, h2, hm2⟩ := List.map_eq_cons_iff.1 hm1
    obtain ⟨⟨t3, w3⟩, it3, rfl, h3, hm3⟩ := List.map_eq_cons_iff.1 hm2
    obtain ⟨⟨t4, w4⟩, it4, rfl, h4, hm4⟩ := List.map_eq_cons_iff.1 hm3
    obtain ⟨i1, i2, rfl, hi1, hi2⟩ := List.map_eq_append_iff.1 hm4
    simp only at h1 h2 h3 h4
    subst h1 h2 h3 h4
    obtain ⟨c1, c2, c3, c4, c5⟩ := hwf c (List.mem_cons_self _ _)
    obtain ⟨s1, e1, r1⟩ := Ready_readInt 64 d.cxx11 s d.defaultLayout.fileOffset _ _ _ hr c1
    obtain ⟨s2, e2, r2⟩ := Ready_readInt 64 d.cxx11 s1 d.defaultLayout.chunkId _ _ _ r1 c2
    obtain ⟨s3, e3, r3⟩ := Ready_readInt 64 d.cxx11 s2 d.defaultLayout.chunkVersion _ _ _ r2 c3
    rw [Nat_toString_eq_Int] at r3
    obtain ⟨s4, e4, r4⟩ := Ready_readInt 32 d.cxx11 s3 d.uninitInt _ _ _ r3 c4
    obtain ⟨s5, e5, r5⟩ := serversLoop_run d c.chunkServers i1 i2 s4 d.defaultLoc [] hi1 c5 r4
    have ih := chunksLoop_run d cs i2 s5 (acc ++ [c]) hi2
      (fun x hx => hwf x (List.mem_cons_of_mem _ hx)) r5
    simp only [List.length_cons, GetLayoutOp.chunksLoop, e1, e2, e3, e4, Int.toNat_ofNat, e5,
      List.nil_append]
    rw [ih]
    simp

/-- C2: for every list of at least one chunk record and every layout body that
carries the tokens of the records in order (offset, chunk id, chunk version,
number of servers, then host and port of each server), separated by white
space, `ParseLayoutInfo` on an operation with `numChunks` records advertised
and an empty chunk list returns `0` and leaves exactly the records as the chunk
list: one entry per record, in order, each with its own offset, chunk id,
chunk version and servers. -/
theorem GetLayoutOp_ParseLayoutInfo_records (d : Decls) (op : GetLayoutOp)
    (recs : List ChunkLayoutInfo) (lead : String) (items : List (String × String))
    (hn : 1 ≤ recs.length) (hnum : op.numChunks = recs.length) (hchunks : op.chunks = [])
    (hwf : ∀ c ∈ recs, wfChunk c)
    (htoks : items.map Prod.fst = layoutTokens recs)
    (hlead : allSpace lead = true) (hsep : sepOK items = true)
    (hbuf : op.contentBuf = some (lead ++ spaced items)) :
    GetLayoutOp.ParseLayoutInfo d op = (0, { op with chunks := recs }) := by
  have h0 : op.numChunks ≠ 0 := by rw [hnum]; omega
  simp only [GetLayoutOp.ParseLayoutInfo, hbuf]
  rw [if_neg h0, hnum, Int.toNat_ofNat, hchunks,
    chunksLoop_run d recs items _ [] htoks hwf (Ready_ofString lead items hlead hsep)]
  simp

/-- Witness for C2: `Num-chunks = 2` with the body
`0 1001 1 2 h1 100 h2 200 1000 1002 1 1 h3 300`. -/
theorem GetLayoutOp_ParseLayoutInfo_records_witness :
    (GetLayoutOp.ParseLayoutInfo
      { cxx11 := false, loadProperties := fun _ => { propmap := [] },
        ToString := fun l => l.hostname ++ " " ++ toString l.port,
        defaultLoc := { hostname := "", port := -1 },
        defaultLayout := { fileOffset := -1, chunkId := -1, chunkVersion := 0,
                           chunkServers := [] },
        uninitInt := 0 }
      { seq := 1, status := 0, contentLength := 45,
        contentBuf := some "0 1001 1 2 h1 100 h2 200 1000 1002 1 1 h3 300",
        fid := 9, numChunks := 2, chunks := [] }).2.chunks =
    [{ fileOffset := 0, chunkId := 1001, chunkVersion := 1,
       chunkServers := [{ hostname := "h1", port := 100 }, { hostname := "h2", port := 200 }] },
     { fileOffset := 1000, chunkId := 1002, chunkVersion := 1,
       chunkServers := [{ hostname := "h3", port := 300 }] }] := by
  rw [GetLayoutOp_ParseLayoutInfo_records _ _
    [{ fileOffset := 0, chunkId := 1001, chunkVersion := 1,
       chunkServers := [{ hostname := "h1", port := 100 }, { hostname := "h2", port := 200 }] },
     { fileOffset := 1000, chunkId := 1002, chunkVersion := 1,
       chunkServers := [{ hostname := "h3", port := 300 }] }]
    ""
    [("0", " "), ("1001", " "), ("1", " "), ("2", " "), ("h1", " "), ("100", " "),
     ("h2", " "), ("200", " "), ("1000", " "), ("1002", " "), ("1", " "), ("1", " "),
     ("h3", " "), ("300", "")]
    (by decide) (by decide) rfl (by decide) (by decide) (by decide) (by decide) (by decide)]

theorem Allocate_replicasLoop_no_master (d : Decls) (m : ServerLocation) :
    ∀ (n : Nat) (s : IStream) (loc : ServerLocation) (acc : List ServerLocation),
    ∃ extra, AllocateOp.replicasLoop d m n s loc acc = acc ++ extra ∧ m ∉ extra
  | 0, _, _, acc => ⟨[], by simp [AllocateOp.replicasLoop]⟩
  | n + 1, s, loc, acc => by
    simp only [AllocateOp.replicasLoop]
    generalize (readInt 32 d.cxx11 (readString s loc.hostname).1 loc.port).1 = s2
    generalize ({ hostname := (readString s loc.hostname).2,
                  port := (readInt 32 d.cxx11 (readString s loc.hostname).1 loc.port).2 } :
      ServerLocation) = loc1
    split
    · rename_i hne
      obtain ⟨extra, he, hm⟩ :=
        Allocate_replicasLoop_no_master d m n s2 loc1 (acc ++ [loc1])
      refine ⟨loc1 :: extra, by rw [he]; simp, ?_⟩
      simp only [List.mem_cons, not_or]
      exact ⟨fun h => hne h.symm, hm⟩
    · exact Allocate_replicasLoop_no_master d m n s2 loc1 acc

theorem Allocate_replicasLoop_run (d : Decls) (m : ServerLocation) :
    ∀ (reps : List ServerLocation) (items : List (String × String)) (s : IStream)
      (loc : ServerLocation) (acc : List ServerLocation),
    items.map Prod.fst = serversTokens reps → (∀ l ∈ reps, wfServer l) → Ready s items →
    AllocateOp.replicasLoop d m reps.length s loc acc = acc ++ reps.filter (fun l => l ≠ m)
  | [], _, s, loc, acc, _, _, _ => by simp [AllocateOp.replicasLoop]
  | l :: ls, items, s, loc, acc, hm, hwf, hr => by
    simp only [serversTokens] at hm
    obtain ⟨⟨h1, w1⟩, it1, rfl, hh, hm1⟩ := List.map_eq_cons_iff.1 hm
    obtain ⟨⟨p1, w2⟩, it2, rfl, hp, hm2⟩ := List.map_eq_cons_iff.1 hm1
    simp only at hh hp
    subst hh hp
    obtain ⟨hl1, hl2⟩ := hwf l (List.mem_cons_self _ _)
    obtain ⟨s1, e1, r1⟩ := Ready_readString s loc.hostname _ _ _ hr hl1
    obtain ⟨s2, e2, r2⟩ := Ready_readInt 32 d.cxx11 s1 loc.port _ _ _ r1 hl2
    have ih := Allocate_replicasLoop_run d m ls it2 s2 l
    simp only [List.length_cons, AllocateOp.replicasLoop, e1, e2]
    by_cases hlm : l = m
    · subst hlm
      rw [if_neg (by simp), ih acc hm2 (fun x hx => hwf x (List.mem_cons_of_mem _ hx)) r2]
      simp
    · rw [if_pos hlm, ih _ hm2 (fun x hx => hwf x (List.mem_cons_of_mem _ hx)) r2]
      simp [hlm]

theorem String_ne_empty_of_data {s : String} (h : s.data ≠ []) : s ≠ "" := by
  rintro rfl
  exact h rfl

theorem Allocate_master_parse (d : Decls) (old : ServerLocation) (host w1 w2 : String)
    (port : Int) (hhost : isToken host = true) (hport : inRange 32 port)
    (hw1 : allSpace w1 = true) (hne : w1 ≠ "") (hw2 : allSpace w2 = true) :
    (readString (IStream.ofString (host ++ w1 ++ toString port ++ w2)) old.hostname).2 = host ∧
    (readInt 32 d.cxx11
      (readString (IStream.ofString (host ++ w1 ++ toString port ++ w2)) old.hostname).1
      old.port).2 = port ∧
    host ++ w1 ++ toString port ++ w2 ≠ "" := by
  have hsep : sepOK [(host, w1), (toString port, w2)] = true := by
    have : w1.data ≠ [] := fun h => hne (String.ext h)
    have h1 : w1.data.isEmpty = false := by
      cases hd : w1.data with
      | nil => exact absurd hd this
      | cons _ _ => rfl
    simp [sepOK, hw1, hw2, h1]
  have heq : host ++ w1 ++ toString port ++ w2 =
      "" ++ spaced [(host, w1), (toString port, w2)] := by
    apply String.ext
    simp [spaced, String.data_append]
  have hr := Ready_ofString "" [(host, w1), (toString port, w2)] (by decide) hsep
  rw [← heq] at hr
  obtain ⟨s1, e1, r1⟩ := Ready_readString _ old.hostname _ _ _ hr hhost
  obtain ⟨s2, e2, r2⟩ := Ready_readInt 32 d.cxx11 s1 old.port _ _ _ r1 hport
  refine ⟨by rw [e1], by rw [e1]; simp only; rw [e2], ?_⟩
  apply String_ne_empty_of_data
  simp only [isToken, Bool.and_eq_true, Bool.not_eq_true', List.isEmpty_eq_false] at hhost
  simp only [String.data_append]
  intro h
  simp only [List.append_eq_nil] at h
  exact hhost.1 h.1.1.1

/-- C1: when an Allocate response is decoded into an operation with an empty
replica list and its `Master` value is a host name, white space and a port, the
master becomes `masterServer` and the first entry of the replica list, and no
later entry equals it, whatever `Num-replicas` and `Replicas` hold; in
particular `Master = "h1 100"`, `Num-replicas = 2`,
`Replicas = "h1 100 h2 200"` give exactly `[(h1,100), (h2,200)]`. -/
theorem AllocateOp_master_first (d : Decls) (op : AllocateOp) (resp : String)
    (hempty : op.chunkServers = []) :
    (∀ (host w1 w2 : String) (port : Int),
      isToken host = true → inRange 32 port → allSpace w1 = true → w1 ≠ "" →
      allSpace w2 = true →
      (d.loadProperties resp).getValue "Master" "" = host ++ w1 ++ toString port ++ w2 →
      (AllocateOp.ParseResponseHeader d op resp).masterServer =
        { hostname := host, port := port } ∧
      ∃ tail, (AllocateOp.ParseResponseHeader d op resp).chunkServers =
          { hostname := host, port := port } :: tail ∧
        ({ hostname := host, port := port } : ServerLocation) ∉ tail) ∧
    ((d.loadProperties resp).getValue "Master" "" = "h1 100" →
      (d.loadProperties resp).getValueInt 32 "Num-replicas" 0 = 2 →
      (d.loadProperties resp).getValue "Replicas" "" = "h1 100 h2 200" →
      (AllocateOp.ParseResponseHeader d op resp).chunkServers =
        [{ hostname := "h1", port := 100 }, { hostname := "h2", port := 200 }]) := by
  refine ⟨?_, ?_⟩
  · intro host w1 w2 port hhost hport hw1 hne hw2 hmaster
    obtain ⟨p1, p2, p3⟩ := Allocate_master_parse d op.masterServer host w1 w2 port hhost hport
      hw1 hne hw2
    simp only [AllocateOp.ParseResponseHeader, KfsOp.ParseResponseHeaderCommon, hmaster, p1, p2,
      hempty, List.nil_append, ne_eq, p3, not_false_eq_true, if_true]
    refine ⟨trivial, ?_⟩
    split
    · obtain ⟨extra, he, hm⟩ := Allocate_replicasLoop_no_master d
        { hostname := host, port := port }
        ((d.loadProperties resp).getValueInt 32 "Num-replicas" 0).toNat
        (IStream.ofString ((d.loadProperties resp).getValue "Replicas" "")) d.defaultLoc
        [{ hostname := host, port := port }]
      exact ⟨extra, by rw [he]; rfl, hm⟩
    · exact ⟨[], rfl, by simp⟩
  · intro hmaster hnum hreps
    obtain ⟨p1, p2, p3⟩ := Allocate_master_parse d op.masterServer "h1" " " "" 100 (by decide)
      (by decide) (by decide) (by decide) (by decide)
    have hm : ("h1 100" : String) = "h1" ++ " " ++ toString (100 : Int) ++ "" := by decide
    have hloop := Allocate_replicasLoop_run d { hostname := "h1", port := 100 }
      [{ hostname := "h1", port := 100 }, { hostname := "h2", port := 200 }]
      [("h1", " "), ("100", " "), ("h2", " "), ("200", "")]
      (IStream.ofString "h1 100 h2 200") d.defaultLoc [{ hostname := "h1", port := 100 }]
      (by decide) (by decide)
      (Ready_ofString "" [("h1", " "), ("100", " "), ("h2", " "), ("200", "")]
        (by decide) (by decide))
    rw [← hm] at p1 p2
    simp only [AllocateOp.ParseResponseHeader, KfsOp.ParseResponseHeaderCommon, hmaster, hnum,
      hreps, p1, p2, hempty, List.nil_append]
    exact hloop

/-- Witness for C1: a response whose `Master` is `m1 7000` and whose replicas
name the master twice. -/
theorem AllocateOp_master_first_witness :
    ∃ tail, (AllocateOp.ParseResponseHeader
        { cxx11 := true,
          loadProperties := fun _ =>
            { propmap := [("Master", "m1 7000"), ("Num-replicas", "3"),
                          ("Replicas", "m1 7000 r2 7001 m1 7000")] },
          ToString := fun l => l.hostname ++ " " ++ toString l.port,
          defaultLoc := { hostname := "", port := -1 },
          defaultLayout := { fileOffset := -1, chunkId := -1, chunkVersion := 0,
                             chunkServers := [] },
          uninitInt := 0 }
        { seq := 1, status := 0, contentLength := 0, contentBuf := none, fid := 2,
          fileOffset := 0, chunkId := 0, chunkVersion := 0,
          masterServer := { hostname := "", port := -1 }, chunkServers := [] }
        "").chunkServers = { hostname := "m1", port := 7000 } :: tail ∧
      ({ hostname := "m1", port := 7000 } : ServerLocation) ∉ tail :=
  ((AllocateOp_master_first _ _ _ rfl).1 "m1" " " "" 7000 (by decide) (by decide) (by decide)
    (by decide) (by decide) (by decide)).2

/-! ## Decoding of absent fields -/

theorem getValue_absent (p : Properties) (key dflt : String) (h : p.absent key) :
    p.getValue key dflt = dflt := by
  unfold Properties.absent at h
  simp [Properties.getValue, h]

theorem getValueInt_absent (p : Properties) (w : Nat) (key : String) (dflt : Int)
    (h : p.absent key) : p.getValueInt w key dflt = dflt := by
  unfold Properties.absent at h
  simp [Properties.getValueInt, h]

theorem GetTimeval_empty (d : Decls) (tv : Timeval) :
    GetTimeval d "" tv = { tv_sec := 0, tv_usec := 0 } := by
  simp [GetTimeval]

/-- C11: decoding is a total function of the header text, and every field whose
key is absent from the loaded header takes its default: `Status` -1 and
`Content-length` 0 for every kind; `File-handle` -1 (Create, Mkdir, Lookup,
LookupPath); `Chunk-handle` -1 and `Chunk-version` -1 (Allocate, GetAlloc);
`Num-Entries` 0; `Num-chunks` 0; `Size` 0; `Write-id` 0; `Lease-id` -1; an
absent `Type` gives not-a-directory and an absent timestamp gives (0,0)
(Lookup, LookupPath); with `Master` absent and `Replicas` or `Num-replicas`
absent an empty replica list stays empty (Allocate), with `Replicas` or
`Num-replicas` absent it stays empty (GetAlloc); for a header with no key at
all, such as the empty text, every key is absent. -/
theorem decode_absent_defaults (d : Decls) (resp : String) :
    (∀ op : Op, (d.loadProperties resp).absent "Status" →
      (Op.ParseResponseHeader d op resp).base.status = -1) ∧
    (∀ op : Op, (d.loadProperties resp).absent "Content-length" →
      (Op.ParseResponseHeader d op resp).base.contentLength = 0) ∧
    ((d.loadProperties resp).absent "File-handle" →
      (∀ o : CreateOp, (o.ParseResponseHeader d resp).fileId = -1) ∧
      (∀ o : MkdirOp, (o.ParseResponseHeader d resp).fileId = -1) ∧
      (∀ o : LookupOp, (o.ParseResponseHeader d resp).fattr.fileId = -1) ∧
      (∀ o : LookupPathOp, (o.ParseResponseHeader d resp).fattr.fileId = -1)) ∧
    ((d.loadProperties resp).absent "Chunk-handle" →
      (∀ o : AllocateOp, (o.ParseResponseHeader d resp).chunkId = -1) ∧
      (∀ o : GetAllocOp, (o.ParseResponseHeader d resp).chunkId = -1)) ∧
    ((d.loadProperties resp).absent "Chunk-version" →
      (∀ o : AllocateOp, (o.ParseResponseHeader d resp).chunkVersion = -1) ∧
      (∀ o : GetAllocOp, (o.ParseResponseHeader d resp).chunkVersion = -1)) ∧
    ((d.loadProperties resp).absent "Num-Entries" →
      ∀ o : ReaddirOp, (o.ParseResponseHeader d resp).numEntries = 0) ∧
    ((d.loadProperties resp).absent "Num-chunks" →
      ∀ o : GetLayoutOp, (o.ParseResponseHeader d resp).numChunks = 0) ∧
    ((d.loadProperties resp).absent "Size" →
      ∀ o : SizeOp, (o.ParseResponseHeader d resp).size = 0) ∧
    ((d.loadProperties resp).absent "Write-id" →
      ∀ o : WritePrepareOp, (o.ParseResponseHeader d resp).writeId = 0) ∧
    ((d.loadProperties resp).absent "Lease-id" →
      ∀ o : LeaseAcquireOp, (o.ParseResponseHeader d resp).leaseId = -1) ∧
    ((d.loadProperties resp).absent "Type" →
      (∀ o : LookupOp, (o.ParseResponseHeader d resp).fattr.isDirectory = false) ∧
      (∀ o : LookupPathOp, (o.ParseResponseHeader d resp).fattr.isDirectory = false)) ∧
    ((d.loadProperties resp).absent "M-Time" →
      (∀ o : LookupOp,
        (o.ParseResponseHeader d resp).fattr.mtime = { tv_sec := 0, tv_usec := 0 }) ∧
      (∀ o : LookupPathOp,
        (o.ParseResponseHeader d resp).fattr.mtime = { tv_sec := 0, tv_usec := 0 })) ∧
    ((d.loadProperties resp).absent "C-Time" →
      (∀ o : LookupOp,
        (o.ParseResponseHeader d resp).fattr.ctime = { tv_sec := 0, tv_usec := 0 }) ∧
      (∀ o : LookupPathOp,
        (o.ParseResponseHeader d resp).fattr.ctime = { tv_sec := 0, tv_usec := 0 })) ∧
    ((d.loadProperties resp).absent "CR-Time" →
      (∀ o : LookupOp,
        (o.ParseResponseHeader d resp).fattr.crtime = { tv_sec := 0, tv_usec := 0 }) ∧
      (∀ o : LookupPathOp,
        (o.ParseResponseHeader d resp).fattr.crtime = { tv_sec := 0, tv_usec := 0 })) ∧
    ((d.loadProperties resp).absent "Master" →
      (d.loadProperties resp).absent "Replicas" ∨
        (d.loadProperties resp).absent "Num-replicas" →
      ∀ o : AllocateOp, o.chunkServers = [] →
        (o.ParseResponseHeader d resp).chunkServers = []) ∧
    ((d.loadProperties resp).absent "Replicas" ∨
        (d.loadProperties resp).absent "Num-replicas" →
      ∀ o : GetAllocOp, o.chunkServers = [] →
        (o.ParseResponseHeader d resp).chunkServers = []) ∧
    ((d.loadProperties resp).propmap = [] → ∀ key, (d.loadProperties resp).absent key) := by
  refine ⟨?_, ?_, ?_, ?_, ?_, ?_, ?_, ?_, ?_, ?_, ?_, ?_, ?_, ?_, ?_, ?_, ?_⟩
  · intro op h
    have := getValueInt_absent _ 32 "Status" (-1) h
    cases op <;>
      simp [Op.ParseResponseHeader, Op.base, KfsOp.ParseResponseHeader,
        CreateOp.ParseResponseHeader, MkdirOp.ParseResponseHeader,
        ReaddirOp.ParseResponseHeader, LookupOp.ParseResponseHeader,
        LookupPathOp.ParseResponseHeader, GetAllocOp.ParseResponseHeader,
        GetLayoutOp.ParseResponseHeader, AllocateOp.ParseResponseHeader,
        WritePrepareOp.ParseResponseHeader, SizeOp.ParseResponseHeader,
        LeaseAcquireOp.ParseResponseHeader, KfsOp.ParseResponseHeaderCommon, this]
  · intro op h
    have := getValueInt_absent _ 32 "Content-length" 0 h
    cases op <;>
      simp [Op.ParseResponseHeader, Op.base, KfsOp.ParseResponseHeader,
        CreateOp.ParseResponseHeader, MkdirOp.ParseResponseHeader,
        ReaddirOp.ParseResponseHeader, LookupOp.ParseResponseHeader,
        LookupPathOp.ParseResponseHeader, GetAllocOp.ParseResponseHeader,
        GetLayoutOp.ParseResponseHeader, AllocateOp.ParseResponseHeader,
        WritePrepareOp.ParseResponseHeader, SizeOp.ParseResponseHeader,
        LeaseAcquireOp.ParseResponseHeader, KfsOp.ParseResponseHeaderCommon, this]
  · intro h
    have := getValueInt_absent _ 64 "File-handle" (-1) h
    refine ⟨?_, ?_, ?_, ?_⟩ <;> intro o <;>
      simp [CreateOp.ParseResponseHeader, MkdirOp.ParseResponseHeader,
        LookupOp.ParseResponseHeader, LookupPathOp.ParseResponseHeader, decodeFileAttr,
        KfsOp.ParseResponseHeaderCommon, this]
  · intro h
    have := getValueInt_absent _ 64 "Chunk-handle" (-1) h
    refine ⟨?_, ?_⟩ <;> intro o <;>
      simp [AllocateOp.ParseResponseHeader, GetAllocOp.ParseResponseHeader,
        KfsOp.ParseResponseHeaderCommon, this]
  · intro h
    have := getValueInt_absent _ 64 "Chunk-version" (-1) h
    refine ⟨?_, ?_⟩ <;> intro o <;>
      simp [AllocateOp.ParseResponseHeader, GetAllocOp.ParseResponseHeader,
        KfsOp.ParseResponseHeaderCommon, this]
  · intro h o
    simp [ReaddirOp.ParseResponseHeader, KfsOp.ParseResponseHeaderCommon,
      getValueInt_absent _ 32 "Num-Entries" 0 h]
  · intro h o
    simp [GetLayoutOp.ParseResponseHeader, KfsOp.ParseResponseHeaderCommon,
      getValueInt_absent _ 32 "Num-chunks" 0 h]
  · intro h o
    simp [SizeOp.ParseResponseHeader, KfsOp.ParseResponseHeaderCommon,
      getValueInt_absent _ 64 "Size" 0 h]
  · intro h o
    simp [WritePrepareOp.ParseResponseHeader, KfsOp.ParseResponseHeaderCommon,
      getValueInt_absent _ 64 "Write-id" 0 h]
  · intro h o
    simp [LeaseAcquireOp.ParseResponseHeader, KfsOp.ParseResponseHeaderCommon,
      getValueInt_absent _ 64 "Lease-id" (-1) h]
  · intro h
    have := getValue_absent _ "Type" "" h
    refine ⟨?_, ?_⟩ <;> intro o <;>
      simp [LookupOp.ParseResponseHeader, LookupPathOp.ParseResponseHeader, decodeFileAttr,
        KfsOp.ParseResponseHeaderCommon, this]
  · intro h
    have := getValue_absent _ "M-Time" "" h
    refine ⟨?_, ?_⟩ <;> intro o <;>
      simp [LookupOp.ParseResponseHeader, LookupPathOp.ParseResponseHeader, decodeFileAttr,
        KfsOp.ParseResponseHeaderCommon, this, GetTimeval_empty]
  · intro h
    have := getValue_absent _ "C-Time" "" h
    refine ⟨?_, ?_⟩ <;> intro o <;>
      simp [LookupOp.ParseResponseHeader, LookupPathOp.ParseResponseHeader, decodeFileAttr,
        KfsOp.ParseResponseHeaderCommon, this, GetTimeval_empty]
  · intro h
    have := getValue_absent _ "CR-Time" "" h
    refine ⟨?_, ?_⟩ <;> intro o <;>
      simp [LookupOp.ParseResponseHeader, LookupPathOp.ParseResponseHeader, decodeFileAttr,
        KfsOp.ParseResponseHeaderCommon, this, GetTimeval_empty]
  · intro hm hr o ho
    have h1 := getValue_absent _ "Master" "" hm
    rcases hr with hr | hr
    · have h2 := getValue_absent _ "Replicas" "" hr
      simp [AllocateOp.ParseResponseHeader, KfsOp.ParseResponseHeaderCommon, h1, h2, ho]
    · have h2 := getValueInt_absent _ 32 "Num-replicas" 0 hr
      simp [AllocateOp.ParseResponseHeader, KfsOp.ParseResponseHeaderCommon, h1, h2, ho,
        AllocateOp.replicasLoop]
  · intro hr o ho
    rcases hr with hr | hr
    · have h2 := getValue_absent _ "Replicas" "" hr
      simp [GetAllocOp.ParseResponseHeader, KfsOp.ParseResponseHeaderCommon, h2, ho]
    · have h2 := getValueInt_absent _ 32 "Num-replicas" 0 hr
      simp [GetAllocOp.ParseResponseHeader, KfsOp.ParseResponseHeaderCommon, h2, ho,
        GetAllocOp.replicasLoop]
  · intro h key
    simp [Properties.absent, h]

/-- Witness for C11: a header with no key decoded into a Create operation. -/
theorem decode_absent_defaults_witness :
    (CreateOp.ParseResponseHeader
      { cxx11 := false, loadProperties := fun _ => { propmap := [] },
        ToString := fun l => l.hostname ++ " " ++ toString l.port,
        defaultLoc := { hostname := "", port := -1 },
        defaultLayout := { fileOffset := -1, chunkId := -1, chunkVersion := 0,
                           chunkServers := [] },
        uninitInt := 0 }
      { seq := 1, status := 0, contentLength := 9, contentBuf := none, parentFid := 2,
        filename := "a", numReplicas := 3, fileId := 77 } "").fileId = -1 :=
  ((decode_absent_defaults _ "").2.2.1 (by decide)).1 _

/-! ## The sequence id under decoding -/

theorem getValue_congr (p q : Properties) (key dflt : String)
    (h : p.propmap.lookup key = q.propmap.lookup key) :
    p.getValue key dflt = q.getValue key dflt := by
  simp [Properties.getValue, h]

theorem getValueInt_congr (p q : Properties) (w : Nat) (key : String) (dflt : Int)
    (h : p.propmap.lookup key = q.propmap.lookup key) :
    p.getValueInt w key dflt = q.getValueInt w key dflt := by
  simp [Properties.getValueInt, h]

/-- C19: decoding leaves the sequence id of the operation as it was, and two
header texts whose loaded maps agree on every key other than `Cseq` (so the
`Cseq` of one may equal the operation's `seq`, differ from it or be absent)
decode to the same operation: same status, content length and kind-specific
fields. -/
theorem decode_ignores_Cseq (d : Decls) (op : Op) :
    (∀ resp : String, (Op.ParseResponseHeader d op resp).seq = op.seq) ∧
    (∀ resp1 resp2 : String,
      (∀ key : String, key ≠ "Cseq" →
        (d.loadProperties resp1).propmap.lookup key =
          (d.loadProperties resp2).propmap.lookup key) →
      Op.ParseResponseHeader d op resp1 = Op.ParseResponseHeader d op resp2) := by
  refine ⟨?_, ?_⟩
  · intro resp
    cases op <;> rfl
  · intro resp1 resp2 h
    have e1 := fun dflt => getValueInt_congr _ _ 32 "Status" dflt (h "Status" (by decide))
    have e2 := fun dflt =>
      getValueInt_congr _ _ 32 "Content-length" dflt (h "Content-length" (by decide))
    have e3 := fun dflt =>
      getValueInt_congr _ _ 64 "File-handle" dflt (h "File-handle" (by decide))
    have e4 := fun dflt =>
      getValueInt_congr _ _ 32 "Num-Entries" dflt (h "Num-Entries" (by decide))
    have e5 := fun dflt => getValue_congr _ _ "Type" dflt (h "Type" (by decide))
    have e6 := fun dflt =>
      getValueInt_congr _ _ 32 "Chunk-count" dflt (h "Chunk-count" (by decide))
    have e7 := fun dflt =>
      getValueInt_congr _ _ 32 "Replication" dflt (h "Replication" (by decide))
    have e8 := fun dflt => getValue_congr _ _ "M-Time" dflt (h "M-Time" (by decide))
    have e9 := fun dflt => getValue_congr _ _ "C-Time" dflt (h "C-Time" (by decide))
    have e10 := fun dflt => getValue_congr _ _ "CR-Time" dflt (h "CR-Time" (by decide))
    have e11 := fun dflt =>
      getValueInt_congr _ _ 64 "Chunk-handle" dflt (h "Chunk-handle" (by decide))
    have e12 := fun dflt =>
      getValueInt_congr _ _ 64 "Chunk-version" dflt (h "Chunk-version" (by decide))
    have e13 := fun dflt => getValue_congr _ _ "Master" dflt (h "Master" (by decide))
    have e14 := fun dflt =>
      getValueInt_congr _ _ 32 "Num-replicas" dflt (h "Num-replicas" (by decide))
    have e15 := fun dflt => getValue_congr _ _ "Replicas" dflt (h "Replicas" (by decide))
    have e16 := fun dflt =>
      getValueInt_congr _ _ 32 "Num-chunks" dflt (h "Num-chunks" (by decide))
    have e17 := fun dflt => getValueInt_congr _ _ 64 "Size" dflt (h "Size" (by decide))
    have e18 := fun dflt =>
      getValueInt_congr _ _ 64 "Write-id" dflt (h "Write-id" (by decide))
    have e19 := fun dflt =>
      getValueInt_congr _ _ 64 "Lease-id" dflt (h "Lease-id" (by decide))
    cases op <;>
      simp only [Op.ParseResponseHeader, KfsOp.ParseResponseHeader,
        CreateOp.ParseResponseHeader, MkdirOp.ParseResponseHeader,
        ReaddirOp.ParseResponseHeader, LookupOp.ParseResponseHeader,
        LookupPathOp.ParseResponseHeader, GetAllocOp.ParseResponseHeader,
        GetLayoutOp.ParseResponseHeader, AllocateOp.ParseResponseHeader,
        WritePrepareOp.ParseResponseHeader, SizeOp.ParseResponseHeader,
        LeaseAcquireOp.ParseResponseHeader, KfsOp.ParseResponseHeaderCommon, decodeFileAttr,
        e1, e2, e3, e4, e5, e6, e7, e8, e9, e10, e11, e12, e13, e14, e15, e16, e17, e18, e19]

/-- Witness for C19: a header with a `Cseq` that differs from the `seq` of the
operation and a header without `Cseq` decode alike. -/
theorem decode_ignores_Cseq_witness :
    Op.ParseResponseHeader
      { cxx11 := false,
        loadProperties := fun r =>
          if r = "Cseq: 5\r\nStatus: 0\r\n\r\n"
          then { propmap := [("Cseq", "5"), ("Status", "0")] }
          else { propmap := [("Status", "0")] },
        ToString := fun l => l.hostname ++ " " ++ toString l.port,
        defaultLoc := { hostname := "", port := -1 },
        defaultLayout := { fileOffset := -1, chunkId := -1, chunkVersion := 0,
                           chunkServers := [] },
        uninitInt := 0 }
      (.close { seq := 7, status := -1, contentLength := 0, contentBuf := none, chunkId := 4 })
      "Cseq: 5\r\nStatus: 0\r\n\r\n" =
    Op.ParseResponseHeader
      { cxx11 := false,
        loadProperties := fun r =>
          if r = "Cseq: 5\r\nStatus: 0\r\n\r\n"
          then { propmap := [("Cseq", "5"), ("Status", "0")] }
          else { propmap := [("Status", "0")] },
        ToString := fun l => l.hostname ++ " " ++ toString l.port,
        defaultLoc := { hostname := "", port := -1 },
        defaultLayout := { fileOffset := -1, chunkId := -1, chunkVersion := 0,
                           chunkServers := [] },
        uninitInt := 0 }
      (.close { seq := 7, status := -1, contentLength := 0, contentBuf := none, chunkId := 4 })
      "Status: 0\r\n\r\n" :=
  (decode_ignores_Cseq _ _).2 _ _ (by
    intro key hk
    have h1 : ("Cseq: 5\r\nStatus: 0\r\n\r\n" : String) = "Cseq: 5\r\nStatus: 0\r\n\r\n" := rfl
    have h2 : ¬ (("Status: 0\r\n\r\n" : String) = "Cseq: 5\r\nStatus: 0\r\n\r\n") := by decide
    have h3 : (key == "Cseq") = false := by simp [hk]
    simp only [h1, h2, if_true, if_false, List.lookup, h3])

/-! ## Writing to the log -/

/-- C17: `Logger::log(r)` returns exactly the status that the serialization of
`r` to the log file returns, whatever the log file holds: the status is
negative exactly when that of the serialization is, the file is left as the
serialization leaves it, and the logger itself is not touched. -/
theorem Logger_log_status (rlog : ReqPtr → MetaRequest → OFStream → Int × OFStream)
    (w : LogState) (r : ReqPtr) :
    (Logger.log rlog w r).1 = (rlog r (w.st.reqs r) w.file).1 ∧
    ((Logger.log rlog w r).1 < 0 ↔ (rlog r (w.st.reqs r) w.file).1 < 0) ∧
    ((Logger.log rlog w r).1 = 0 ↔ (rlog r (w.st.reqs r) w.file).1 = 0) ∧
    (Logger.log rlog w r).2.file = (rlog r (w.st.reqs r) w.file).2 ∧
    (Logger.log rlog w r).2.st = w.st :=
  ⟨rfl, Iff.rfl, Iff.rfl, rfl, rfl⟩

/-- Counterexample for C18: with a serialization that succeeds, `log(3)`
returns 0 on a fresh logger and `logged` is still empty; and with request 3
still queued in `pending`, `log(3)` returns 0 and leaves it there. -/
theorem Logger_log_moves_nothing :
    (Logger.log (fun _ _ f => (0, { f with written := f.written ++ "rec\n" }))
      { st := { oplog := Logger.ctor "logs" 0, reqs := fun _ => { seqno := 1 } },
        file := { written := "", failed := false } } 3).1 = 0 ∧
    (Logger.log (fun _ _ f => (0, { f with written := f.written ++ "rec\n" }))
      { st := { oplog := Logger.ctor "logs" 0, reqs := fun _ => { seqno := 1 } },
        file := { written := "", failed := false } } 3).2.st.oplog.logged = [] ∧
    (Logger.log (fun _ _ f => (0, { f with written := f.written ++ "rec\n" }))
      { st := Logger.add_pending
          { oplog := Logger.ctor "logs" 0, reqs := fun _ => { seqno := 1 } } 3,
        file := { written := "", failed := false } } 3).1 = 0 ∧
    (Logger.log (fun _ _ f => (0, { f with written := f.written ++ "rec\n" }))
      { st := Logger.add_pending
          { oplog := Logger.ctor "logs" 0, reqs := fun _ => { seqno := 1 } } 3,
        file := { written := "", failed := false } } 3).2.st.oplog.pending = [3] := by
  decide

/-- C18, as the code has it: `Logger::log(r)` changes neither `pending` nor
`logged`; the request enters `logged`, as its last element, by the separate
call `add_logged(r)`; and when `r` is the head of `pending` and occurs there
once, then after `get_pending`, `log` and `add_logged` the request `r` is the
last element of `logged` and is not in `pending`. -/
theorem Logger_log_then_add_logged
    (rlog : ReqPtr → MetaRequest → OFStream → Int × OFStream) :
    (∀ (w : LogState) (r : ReqPtr),
      (Logger.log rlog w r).2.st.oplog.pending = w.st.oplog.pending ∧
      (Logger.log rlog w r).2.st.oplog.logged = w.st.oplog.logged) ∧
    (∀ (w : LogState) (r : ReqPtr),
      (Logger.add_logged (Logger.log rlog w r).2.st r).oplog.logged =
        w.st.oplog.logged ++ [r] ∧
      (Logger.add_logged (Logger.log rlog w r).2.st r).oplog.pending =
        w.st.oplog.pending) ∧
    (∀ (s : MetaState) (file : OFStream) (r : ReqPtr) (rest : List ReqPtr),
      s.oplog.pending = r :: rest → r ∉ rest →
      ∃ s1, Logger.get_pending s = some (r, s1) ∧
        (Logger.add_logged (Logger.log rlog { st := s1, file := file } r).2.st r).oplog.logged =
          s.oplog.logged ++ [r] ∧
        r ∈ (Logger.add_logged
          (Logger.log rlog { st := s1, file := file } r).2.st r).oplog.logged ∧
        r ∉ (Logger.add_logged
          (Logger.log rlog { st := s1, file := file } r).2.st r).oplog.pending) := by
  refine ⟨fun w r => ⟨rfl, rfl⟩, fun w r => ⟨rfl, rfl⟩, ?_⟩
  intro s file r rest hp hr
  simp only [Logger.get_pending, hp]
  refine ⟨_, rfl, ?_, ?_, ?_⟩
  · simp [Logger.add_logged, Logger.log]
  · simp [Logger.add_logged, Logger.log]
  · simpa [Logger.add_logged, Logger.log] using hr

/-- Witness for C18: request 3, alone in `pending`, goes through `get_pending`,
`log` and `add_logged`. -/
theorem Logger_log_then_add_logged_witness :
    ∃ s1, Logger.get_pending
        (Logger.add_pending
          { oplog := Logger.ctor "logs" 0, reqs := fun _ => { seqno := 0 } } 3) =
        some (3, s1) ∧
      (Logger.add_logged
        (Logger.log (fun _ _ f => (0, f))
          { st := s1, file := { written := "", failed := false } } 3).2.st 3).oplog.logged =
        [] ++ [3] ∧
      3 ∈ (Logger.add_logged
        (Logger.log (fun _ _ f => (0, f))
          { st := s1, file := { written := "", failed := false } } 3).2.st 3).oplog.logged ∧
      3 ∉ (Logger.add_logged
        (Logger.log (fun _ _ f => (0, f))
          { st := s1, file := { written := "", failed := false } } 3).2.st 3).oplog.pending :=
  (Logger_log_then_add_logged (fun _ _ f => (0, f))).2.2
    (Logger.add_pending { oplog := Logger.ctor "logs" 0, reqs := fun _ => { seqno := 0 } } 3)
    { written := "", failed := false } 3 [] rfl (by decide)

/-! ## The list-building decoders -/

theorem Allocate_replicasLoop_append (d : Decls) (m : ServerLocation) :
    ∀ (n : Nat) (s : IStream) (loc : ServerLocation) (acc : List ServerLocation),
    AllocateOp.replicasLoop d m n s loc acc = acc ++ AllocateOp.replicasLoop d m n s loc []
  | 0, _, _, acc => by simp [AllocateOp.replicasLoop]
  | n + 1, s, loc, acc => by
    simp only [AllocateOp.replicasLoop]
    generalize (readInt 32 d.cxx11 (readString s loc.hostname).1 loc.port).1 = s2
    generalize ({ hostname := (readString s loc.hostname).2,
                  port := (readInt 32 d.cxx11 (readString s loc.hostname).1 loc.port).2 } :
      ServerLocation) = loc1
    split
    · rw [Allocate_replicasLoop_append d m n s2 loc1 (acc ++ [loc1]),
        Allocate_replicasLoop_append d m n s2 loc1 ([] ++ [loc1])]
      simp
    · exact Allocate_replicasLoop_append d m n s2 loc1 acc

theorem GetAlloc_replicasLoop_append (d : Decls) :
    ∀ (n : Nat) (s : IStream) (loc : ServerLocation) (acc : List ServerLocation),
    GetAllocOp.replicasLoop d n s loc acc = acc ++ GetAllocOp.replicasLoop d n s loc []
  | 0, _, _, acc => by simp [GetAllocOp.replicasLoop]
  | n + 1, s, loc, acc => by
    simp only [GetAllocOp.replicasLoop]
    rw [GetAlloc_replicasLoop_append d n _ _ (acc ++ _),
      GetAlloc_replicasLoop_append d n _ _ ([] ++ _)]
    simp

theorem GetAlloc_replicasLoop_length (d : Decls) :
    ∀ (n : Nat) (s : IStream) (loc : ServerLocation) (acc : List ServerLocation),
    (GetAllocOp.replicasLoop d n s loc acc).length = acc.length + n
  | 0, _, _, acc => by simp [GetAllocOp.replicasLoop]
  | n + 1, s, loc, acc => by
    simp only [GetAllocOp.replicasLoop]
    rw [GetAlloc_replicasLoop_length d n]
    simp; omega

theorem Allocate_replicasLoop_length_le (d : Decls) (m : ServerLocation) :
    ∀ (n : Nat) (s : IStream) (loc : ServerLocation) (acc : List ServerLocation),
    (AllocateOp.replicasLoop d m n s loc acc).length ≤ acc.length + n
  | 0, _, _, acc => by simp [AllocateOp.replicasLoop]
  | n + 1, s, loc, acc => by
    simp only [AllocateOp.replicasLoop]
    split
    · refine le_trans (Allocate_replicasLoop_length_le d m n _ _ _) ?_
      simp; omega
    · refine le_trans (Allocate_replicasLoop_length_le d m n _ _ _) ?_
      omega

theorem chunksLoop_append (d : Decls) :
    ∀ (n : Nat) (s : IStream) (acc : List ChunkLayoutInfo),
    GetLayoutOp.chunksLoop d n s acc = acc ++ GetLayoutOp.chunksLoop d n s []
  | 0, _, acc => by simp [GetLayoutOp.chunksLoop]
  | n + 1, s, acc => by
    simp only [GetLayoutOp.chunksLoop]
    rw [chunksLoop_append d n _ (acc ++ _), chunksLoop_append d n _ ([] ++ _)]
    simp

theorem GetAlloc_replicasLoop_run (d : Decls) :
    ∀ (reps : List ServerLocation) (items : List (String × String)) (s : IStream)
      (loc : ServerLocation) (acc : List ServerLocation),
    items.map Prod.fst = serversTokens reps → (∀ l ∈ reps, wfServer l) → Ready s items →
    GetAllocOp.replicasLoop d reps.length s loc acc = acc ++ reps
  | [], _, s, loc, acc, _, _, _ => by simp [GetAllocOp.replicasLoop]
  | l :: ls, items, s, loc, acc, hm, hwf, hr => by
    simp only [serversTokens] at hm
    obtain ⟨⟨h1, w1⟩, it1, rfl, hh, hm1⟩ := List.map_eq_cons_iff.1 hm
    obtain ⟨⟨p1, w2⟩, it2, rfl, hp, hm2⟩ := List.map_eq_cons_iff.1 hm1
    simp only at hh hp
    subst hh hp
    obtain ⟨hl1, hl2⟩ := hwf l (List.mem_cons_self _ _)
    obtain ⟨s1, e1, r1⟩ := Ready_readString s loc.hostname _ _ _ hr hl1
    obtain ⟨s2, e2, r2⟩ := Ready_readInt 32 d.cxx11 s1 loc.port _ _ _ r1 hl2
    simp only [List.length_cons, GetAllocOp.replicasLoop, e1, e2]
    rw [GetAlloc_replicasLoop_run d ls it2 s2 l _ hm2
      (fun x hx => hwf x (List.mem_cons_of_mem _ hx)) r2]
    simp

/-- C14: for every list of well-formed (host, port) pairs and every `Replicas`
value that carries their tokens in order, separated by white space, with
`Num-replicas` the number of pairs (zero included),
`GetAllocOp::ParseResponseHeader` on an operation with an empty replica list
leaves exactly the pairs, in order, repeated pairs kept. -/
theorem GetAllocOp_replicas_kept (d : Decls) (op : GetAllocOp) (resp : String)
    (reps : List ServerLocation) (lead : String) (items : List (String × String))
    (hempty : op.chunkServers = [])
    (hnum : (d.loadProperties resp).getValueInt 32 "Num-replicas" 0 = reps.length)
    (hwf : ∀ l ∈ reps, wfServer l)
    (htoks : items.map Prod.fst = serversTokens reps)
    (hlead : allSpace lead = true) (hsep : sepOK items = true)
    (hreps : (d.loadProperties resp).getValue "Replicas" "" = lead ++ spaced items) :
    (GetAllocOp.ParseResponseHeader d op resp).chunkServers = reps := by
  simp only [GetAllocOp.ParseResponseHeader, KfsOp.ParseResponseHeaderCommon, hnum, hreps,
    Int.toNat_ofNat, hempty]
  split
  · rw [GetAlloc_replicasLoop_run d reps items _ _ [] htoks hwf
      (Ready_ofString lead items hlead hsep)]
    simp
  · rename_i hne
    simp only [ne_eq, Decidable.not_not] at hne
    have hd := congrArg String.data hne
    simp only [String.data_append] at hd
    have hsp : (spaced items).data = [] := (List.append_eq_nil.1 hd).2
    cases reps with
    | nil => rfl
    | cons l ls =>
      exfalso
      simp only [serversTokens] at htoks
      obtain ⟨⟨h1, w1⟩, it1, rfl, hh, -⟩ := List.map_eq_cons_iff.1 htoks
      simp only at hh
      subst hh
      have hl := (hwf l (List.mem_cons_self _ _)).1
      simp only [spaced, String.data_append, List.append_eq_nil] at hsp
      simp only [isToken, Bool.and_eq_true, Bool.not_eq_true', List.isEmpty_eq_false] at hl
      exact hl.1 hsp.1.1

/-- Witness for C14: three pairs, one of them repeated. -/
theorem GetAllocOp_replicas_kept_witness :
    (GetAllocOp.ParseResponseHeader
      { cxx11 := false,
        loadProperties := fun _ =>
          { propmap := [("Num-replicas", "3"), ("Replicas", "h1 100 h2 200 h1 100")] },
        ToString := fun l => l.hostname ++ " " ++ toString l.port,
        defaultLoc := { hostname := "", port := -1 },
        defaultLayout := { fileOffset := -1, chunkId := -1, chunkVersion := 0,
                           chunkServers := [] },
        uninitInt := 0 }
      { seq := 1, status := 0, contentLength := 0, contentBuf := none, fid := 2,
        fileOffset := 0, chunkId := 0, chunkVersion := 0, chunkServers := [] }
      "").chunkServers =
    [{ hostname := "h1", port := 100 }, { hostname := "h2", port := 200 },
     { hostname := "h1", port := 100 }] :=
  GetAllocOp_replicas_kept _ _ _
    [{ hostname := "h1", port := 100 }, { hostname := "h2", port := 200 },
     { hostname := "h1", port := 100 }] ""
    [("h1", " "), ("100", " "), ("h2", " "), ("200", " "), ("h1", " "), ("100", "")]
    rfl (by decide) (by decide) (by decide) (by decide) (by decide) (by decide)

theorem append_ne_self {α : Type} (l x : List α) (hx : x ≠ []) : l ++ x ≠ l := by
  intro h
  have := congrArg List.length h
  simp only [List.length_append] at this
  exact hx (List.length_eq_zero.1 (by omega))

theorem AllocateOp_decode_append (d : Decls) (op : AllocateOp) (resp : String) :
    (AllocateOp.ParseResponseHeader d op resp).chunkServers =
      op.chunkServers ++
        (AllocateOp.ParseResponseHeader d { op with chunkServers := [] } resp).chunkServers := by
  by_cases hm : (d.loadProperties resp).getValue "Master" "" = "" <;>
    by_cases hr : (d.loadProperties resp).getValue "Replicas" "" = ""
  · simp [AllocateOp.ParseResponseHeader, KfsOp.ParseResponseHeaderCommon, hm, hr]
  · simp only [AllocateOp.ParseResponseHeader, KfsOp.ParseResponseHeaderCommon, hm, hr, ne_eq,
      not_true_eq_false, not_false_eq_true, if_true, if_false]
    rw [Allocate_replicasLoop_append]
  · simp [AllocateOp.ParseResponseHeader, KfsOp.ParseResponseHeaderCommon, hm, hr]
  · simp only [AllocateOp.ParseResponseHeader, KfsOp.ParseResponseHeaderCommon, hm, hr, ne_eq,
      not_true_eq_false, not_false_eq_true, if_true, if_false, List.nil_append]
    rw [Allocate_replicasLoop_append]
    conv_rhs => rw [Allocate_replicasLoop_append]
    simp

theorem GetAllocOp_decode_append (d : Decls) (op : GetAllocOp) (resp : String) :
    (GetAllocOp.ParseResponseHeader d op resp).chunkServers =
      op.chunkServers ++
        (GetAllocOp.ParseResponseHeader d { op with chunkServers := [] } resp).chunkServers := by
  simp only [GetAllocOp.ParseResponseHeader, KfsOp.ParseResponseHeaderCommon]
  split
  · rw [GetAlloc_replicasLoop_append]
  · simp

theorem GetLayoutOp_decode_append (d : Decls) (op : GetLayoutOp) :
    (GetLayoutOp.ParseLayoutInfo d op).2.chunks =
      op.chunks ++ (GetLayoutOp.ParseLayoutInfo d { op with chunks := [] }).2.chunks := by
  simp only [GetLayoutOp.ParseLayoutInfo]
  split
  · simp
  · split
    · simp
    · simp only []
      rw [chunksLoop_append]

theorem ParseLayoutInfo_keeps (d : Decls) (op : GetLayoutOp) :
    (GetLayoutOp.ParseLayoutInfo d op).2.contentBuf = op.contentBuf ∧
    (GetLayoutOp.ParseLayoutInfo d op).2.numChunks = op.numChunks := by
  simp only [GetLayoutOp.ParseLayoutInfo]
  split
  · exact ⟨rfl, rfl⟩
  · split <;> exact ⟨rfl, rfl⟩

theorem ParseLayoutInfo_chunks_congr (d : Decls) (a b : GetLayoutOp)
    (h1 : a.contentBuf = b.contentBuf) (h2 : a.numChunks = b.numChunks)
    (h3 : a.chunks = b.chunks) :
    (GetLayoutOp.ParseLayoutInfo d a).2.chunks = (GetLayoutOp.ParseLayoutInfo d b).2.chunks := by
  simp only [GetLayoutOp.ParseLayoutInfo, h1, h2, h3]
  split
  · exact h3
  · split
    · exact h3
    · rfl

/-- C20: the list-building decoders append and never clear. For every prior
replica list, `AllocateOp::ParseResponseHeader` and
`GetAllocOp::ParseResponseHeader` leave the prior list followed by what the same
input yields on an empty list, and so does `GetLayoutOp::ParseLayoutInfo` for
the chunk list; decoding the same response a second time appends once more, so
the second result differs from the first whenever the first is not empty. -/
theorem list_decoders_append (d : Decls) :
    (∀ (op : AllocateOp) (resp : String),
      (AllocateOp.ParseResponseHeader d op resp).chunkServers =
        op.chunkServers ++
          (AllocateOp.ParseResponseHeader d { op with chunkServers := [] } resp).chunkServers) ∧
    (∀ (op : GetAllocOp) (resp : String),
      (GetAllocOp.ParseResponseHeader d op resp).chunkServers =
        op.chunkServers ++
          (GetAllocOp.ParseResponseHeader d { op with chunkServers := [] } resp).chunkServers) ∧
    (∀ op : GetLayoutOp,
      (GetLayoutOp.ParseLayoutInfo d op).2.chunks =
        op.chunks ++ (GetLayoutOp.ParseLayoutInfo d { op with chunks := [] }).2.chunks) ∧
    (∀ (op : AllocateOp) (resp : String), op.chunkServers = [] →
      (AllocateOp.ParseResponseHeader d (AllocateOp.ParseResponseHeader d op resp)
          resp).chunkServers =
        (AllocateOp.ParseResponseHeader d op resp).chunkServers ++
          (AllocateOp.ParseResponseHeader d
            { AllocateOp.ParseResponseHeader d op resp with chunkServers := [] }
            resp).chunkServers ∧
      ((AllocateOp.ParseResponseHeader d op resp).chunkServers ≠ [] →
        (AllocateOp.ParseResponseHeader d (AllocateOp.ParseResponseHeader d op resp)
            resp).chunkServers ≠
          (AllocateOp.ParseResponseHeader d op resp).chunkServers)) ∧
    (∀ (op : GetAllocOp) (resp : String), op.chunkServers = [] →
      (GetAllocOp.ParseResponseHeader d (GetAllocOp.ParseResponseHeader d op resp)
          resp).chunkServers =
        (GetAllocOp.ParseResponseHeader d op resp).chunkServers ++
          (GetAllocOp.ParseResponseHeader d op resp).chunkServers ∧
      ((GetAllocOp.ParseResponseHeader d op resp).chunkServers ≠ [] →
        (GetAllocOp.ParseResponseHeader d (GetAllocOp.ParseResponseHeader d op resp)
            resp).chunkServers ≠
          (GetAllocOp.ParseResponseHeader d op resp).chunkServers)) ∧
    (∀ op : GetLayoutOp, op.chunks = [] →
      (GetLayoutOp.ParseLayoutInfo d (GetLayoutOp.ParseLayoutInfo d op).2).2.chunks =
        (GetLayoutOp.ParseLayoutInfo d op).2.chunks ++
          (GetLayoutOp.ParseLayoutInfo d op).2.chunks ∧
      ((GetLayoutOp.ParseLayoutInfo d op).2.chunks ≠ [] →
        (GetLayoutOp.ParseLayoutInfo d (GetLayoutOp.ParseLayoutInfo d op).2).2.chunks ≠
          (GetLayoutOp.ParseLayoutInfo d op).2.chunks)) := by
  refine ⟨AllocateOp_decode_append d, GetAllocOp_decode_append d, GetLayoutOp_decode_append d,
    ?_, ?_, ?_⟩
  · intro op resp hempty
    refine ⟨AllocateOp_decode_append d _ resp, ?_⟩
    intro hne
    rw [AllocateOp_decode_append d (AllocateOp.ParseResponseHeader d op resp) resp]
    apply append_ne_self
    by_cases hm : (d.loadProperties resp).getValue "Master" "" = ""
    · have hsame : (AllocateOp.ParseResponseHeader d
          { AllocateOp.ParseResponseHeader d op resp with chunkServers := [] }
          resp).chunkServers = (AllocateOp.ParseResponseHeader d op resp).chunkServers := by
        simp [AllocateOp.ParseResponseHeader, KfsOp.ParseResponseHeaderCommon, hm, hempty]
      rw [hsame]
      exact hne
    · simp only [AllocateOp.ParseResponseHeader, KfsOp.ParseResponseHeaderCommon, ne_eq, hm,
        not_false_eq_true, if_true, List.nil_append]
      split
      · rw [Allocate_replicasLoop_append]
        simp
      · simp
  · intro op resp hempty
    have hsame : (GetAllocOp.ParseResponseHeader d
        { GetAllocOp.ParseResponseHeader d op resp with chunkServers := [] }
        resp).chunkServers = (GetAllocOp.ParseResponseHeader d op resp).chunkServers := by
      simp [GetAllocOp.ParseResponseHeader, KfsOp.ParseResponseHeaderCommon, hempty]
    have h2 := GetAllocOp_decode_append d (GetAllocOp.ParseResponseHeader d op resp) resp
    rw [hsame] at h2
    exact ⟨h2, fun hne => by rw [h2]; exact append_ne_self _ _ hne⟩
  · intro op hempty
    have hsame : (GetLayoutOp.ParseLayoutInfo d
        { (GetLayoutOp.ParseLayoutInfo d op).2 with chunks := [] }).2.chunks =
        (GetLayoutOp.ParseLayoutInfo d op).2.chunks := by
      apply ParseLayoutInfo_chunks_congr
      · exact (ParseLayoutInfo_keeps d op).1
      · exact (ParseLayoutInfo_keeps d op).2
      · exact hempty.symm
    have h2 := GetLayoutOp_decode_append d (GetLayoutOp.ParseLayoutInfo d op).2
    rw [hsame] at h2
    exact ⟨h2, fun hne => by rw [h2]; exact append_ne_self _ _ hne⟩

/-- Witness for C20: a GetAlloc response with one replica decoded twice into an
operation with an empty list gives the replica twice. -/
theorem list_decoders_append_witness :
    (GetAllocOp.ParseResponseHeader
      { cxx11 := false,
        loadProperties := fun _ =>
          { propmap := [("Num-replicas", "1"), ("Replicas", "h1 100")] },
        ToString := fun l => l.hostname ++ " " ++ toString l.port,
        defaultLoc := { hostname := "", port := -1 },
        defaultLayout := { fileOffset := -1, chunkId := -1, chunkVersion := 0,
                           chunkServers := [] },
        uninitInt := 0 }
      (GetAllocOp.ParseResponseHeader
        { cxx11 := false,
          loadProperties := fun _ =>
            { propmap := [("Num-replicas", "1"), ("Replicas", "h1 100")] },
          ToString := fun l => l.hostname ++ " " ++ toString l.port,
          defaultLoc := { hostname := "", port := -1 },
          defaultLayout := { fileOffset := -1, chunkId := -1, chunkVersion := 0,
                             chunkServers := [] },
          uninitInt := 0 }
        { seq := 1, status := 0, contentLength := 0, contentBuf := none, fid := 2,
          fileOffset := 0, chunkId := 0, chunkVersion := 0, chunkServers := [] } "")
      "").chunkServers =
    [{ hostname := "h1", port := 100 }, { hostname := "h1", port := 100 }] := by
  rw [((list_decoders_append _).2.2.2.2.1 _ "" rfl).1]
  decide

theorem filter_ne_length_add_count (m : ServerLocation) : ∀ reps : List ServerLocation,
    (reps.filter (fun l => l ≠ m)).length + reps.count m = reps.length
  | [] => rfl
  | l :: ls => by
    have ih := filter_ne_length_add_count m ls
    by_cases h : l = m
    · subst h
      simp only [ne_eq, not_true_eq_false, decide_False, Bool.false_eq_true, not_false_eq_true,
        List.filter_cons_of_neg, List.count_cons_self, List.length_cons]
      simp only [ne_eq] at ih
      omega
    · have h1 : (l == m) = false := by simp [h]
      simp only [ne_eq, h, not_false_eq_true, decide_True, List.filter_cons_of_pos,
        List.length_cons, List.count_cons, h1, Bool.false_eq_true, if_false]
      simp only [ne_eq] at ih
      omega

theorem spaced_servers_ne_empty (lead : String) (items : List (String × String))
    (l : ServerLocation) (ls : List ServerLocation)
    (htoks : items.map Prod.fst = serversTokens (l :: ls)) (hl : wfServer l) :
    lead ++ spaced items ≠ "" := by
  intro hne
  have hd := congrArg String.data hne
  simp only [String.data_append] at hd
  have hsp : (spaced items).data = [] := (List.append_eq_nil.1 hd).2
  simp only [serversTokens] at htoks
  obtain ⟨⟨h1, w1⟩, it1, rfl, hh, -⟩ := List.map_eq_cons_iff.1 htoks
  simp only at hh
  subst hh
  have hl1 := hl.1
  simp only [spaced, String.data_append, List.append_eq_nil] at hsp
  simp only [isToken, Bool.and_eq_true, Bool.not_eq_true', List.isEmpty_eq_false] at hl1
  exact hl1.1 hsp.1.1

theorem AllocateOp_wellformed_list (d : Decls) (op : AllocateOp) (resp : String)
    (host w1 w2 : String) (port : Int) (reps : List ServerLocation) (lead : String)
    (items : List (String × String))
    (hempty : op.chunkServers = [])
    (hhost : isToken host = true) (hport : inRange 32 port) (hw1 : allSpace w1 = true)
    (hne : w1 ≠ "") (hw2 : allSpace w2 = true)
    (hmaster : (d.loadProperties resp).getValue "Master" "" =
      host ++ w1 ++ toString port ++ w2)
    (hnum : (d.loadProperties resp).getValueInt 32 "Num-replicas" 0 = reps.length)
    (hwf : ∀ l ∈ reps, wfServer l)
    (htoks : items.map Prod.fst = serversTokens reps)
    (hlead : allSpace lead = true) (hsep : sepOK items = true)
    (hreps : (d.loadProperties resp).getValue "Replicas" "" = lead ++ spaced items) :
    (AllocateOp.ParseResponseHeader d op resp).chunkServers =
      { hostname := host, port := port } ::
        reps.filter (fun l => l ≠ { hostname := host, port := port }) := by
  obtain ⟨p1, p2, p3⟩ := Allocate_master_parse d op.masterServer host w1 w2 port hhost hport
    hw1 hne hw2
  simp only [AllocateOp.ParseResponseHeader, KfsOp.ParseResponseHeaderCommon, hmaster, p1, p2,
    hempty, List.nil_append, ne_eq, p3, not_false_eq_true, if_true, hnum, hreps,
    Int.toNat_ofNat]
  cases reps with
  | nil =>
    split
    · simp [AllocateOp.replicasLoop]
    · simp
  | cons l ls =>
    have hr := spaced_servers_ne_empty lead items l ls htoks (hwf l (List.mem_cons_self _ _))
    rw [if_pos hr]
    rw [Allocate_replicasLoop_run d _ (l :: ls) items _ _ _ htoks hwf
      (Ready_ofString lead items hlead hsep)]
    rfl

/-- Counterexample for C13: a GetAlloc header with `Num-replicas: 2` and no
`Replicas` leaves the list empty, and an Allocate header with
`Master: h1 100`, `Num-replicas: 2`, `Replicas: h2 200 h3 300` leaves three
entries. -/
theorem replica_list_length_differs :
    (GetAllocOp.ParseResponseHeader
      { cxx11 := false,
        loadProperties := fun _ => { propmap := [("Num-replicas", "2")] },
        ToString := fun l => l.hostname ++ " " ++ toString l.port,
        defaultLoc := { hostname := "", port := -1 },
        defaultLayout := { fileOffset := -1, chunkId := -1, chunkVersion := 0,
                           chunkServers := [] },
        uninitInt := 0 }
      { seq := 1, status := 0, contentLength := 0, contentBuf := none, fid := 2,
        fileOffset := 0, chunkId := 0, chunkVersion := 0, chunkServers := [] }
      "").chunkServers.length = 0 ∧
    Properties.getValueInt { propmap := [("Num-replicas", "2")] } 32 "Num-replicas" 0 = 2 ∧
    (AllocateOp.ParseResponseHeader
      { cxx11 := false,
        loadProperties := fun _ =>
          { propmap := [("Master", "h1 100"), ("Num-replicas", "2"),
                        ("Replicas", "h2 200 h3 300")] },
        ToString := fun l => l.hostname ++ " " ++ toString l.port,
        defaultLoc := { hostname := "", port := -1 },
        defaultLayout := { fileOffset := -1, chunkId := -1, chunkVersion := 0,
                           chunkServers := [] },
        uninitInt := 0 }
      { seq := 1, status := 0, contentLength := 0, contentBuf := none, fid := 2,
        fileOffset := 0, chunkId := 0, chunkVersion := 0,
        masterServer := { hostname := "", port := -1 }, chunkServers := [] }
      "").chunkServers.length = 3 := by
  decide

/-- C13, as the code has it: after `GetAllocOp::ParseResponseHeader` into an
empty list the length is `Num-replicas` (0 when negative) if the `Replicas`
value is not empty, and 0 if it is empty or absent; after
`AllocateOp::ParseResponseHeader` into an empty list the length is at most one
(for a non-empty `Master`) plus `Num-replicas` (for a non-empty `Replicas`),
and it is `Num-replicas` when `Master` is well formed and `Replicas` lists
`Num-replicas` well-formed pairs among which the master occurs once. -/
theorem replica_list_length (d : Decls) (resp : String) :
    (∀ op : GetAllocOp, op.chunkServers = [] →
      ((d.loadProperties resp).getValue "Replicas" "" ≠ "" →
        (GetAllocOp.ParseResponseHeader d op resp).chunkServers.length =
          ((d.loadProperties resp).getValueInt 32 "Num-replicas" 0).toNat) ∧
      ((d.loadProperties resp).getValue "Replicas" "" = "" →
        (GetAllocOp.ParseResponseHeader d op resp).chunkServers.length = 0)) ∧
    (∀ op : AllocateOp, op.chunkServers = [] →
      (AllocateOp.ParseResponseHeader d op resp).chunkServers.length ≤
        (if (d.loadProperties resp).getValue "Master" "" ≠ "" then 1 else 0) +
          (if (d.loadProperties resp).getValue "Replicas" "" ≠ ""
            then ((d.loadProperties resp).getValueInt 32 "Num-replicas" 0).toNat else 0)) ∧
    (∀ (op : AllocateOp) (host w1 w2 : String) (port : Int) (reps : List ServerLocation)
      (lead : String) (items : List (String × String)),
      op.chunkServers = [] →
      isToken host = true → inRange 32 port → allSpace w1 = true → w1 ≠ "" →
      allSpace w2 = true →
      (d.loadProperties resp).getValue "Master" "" = host ++ w1 ++ toString port ++ w2 →
      (d.loadProperties resp).getValueInt 32 "Num-replicas" 0 = reps.length →
      (∀ l ∈ reps, wfServer l) → items.map Prod.fst = serversTokens reps →
      allSpace lead = true → sepOK items = true →
      (d.loadProperties resp).getValue "Replicas" "" = lead ++ spaced items →
      reps.count { hostname := host, port := port } = 1 →
      (AllocateOp.ParseResponseHeader d op resp).chunkServers.length = reps.length) := by
  refine ⟨?_, ?_, ?_⟩
  · intro op hempty
    refine ⟨?_, ?_⟩
    · intro hr
      simp only [GetAllocOp.ParseResponseHeader, KfsOp.ParseResponseHeaderCommon, hr, ne_eq,
        not_false_eq_true, if_true, hempty]
      rw [GetAlloc_replicasLoop_length]
      simp
    · intro hr
      simp [GetAllocOp.ParseResponseHeader, KfsOp.ParseResponseHeaderCommon, hr, hempty]
  · intro op hempty
    by_cases hm : (d.loadProperties resp).getValue "Master" "" = "" <;>
      by_cases hr : (d.loadProperties resp).getValue "Replicas" "" = ""
    · simp [AllocateOp.ParseResponseHeader, KfsOp.ParseResponseHeaderCommon, hm, hr, hempty]
    · simp only [AllocateOp.ParseResponseHeader, KfsOp.ParseResponseHeaderCommon, hm, hr, ne_eq,
        not_true_eq_false, not_false_eq_true, if_true, if_false, hempty]
      refine le_trans (Allocate_replicasLoop_length_le d _ _ _ _ _) ?_
      simp
    · simp [AllocateOp.ParseResponseHeader, KfsOp.ParseResponseHeaderCommon, hm, hr, hempty]
    · simp only [AllocateOp.ParseResponseHeader, KfsOp.ParseResponseHeaderCommon, hm, hr, ne_eq,
        not_true_eq_false, not_false_eq_true, if_true, if_false, hempty, List.nil_append]
      refine le_trans (Allocate_replicasLoop_length_le d _ _ _ _ _) ?_
      simp
  · intro op host w1 w2 port reps lead items hempty hhost hport hw1 hne hw2 hmaster hnum hwf
      htoks hlead hsep hreps hcount
    rw [AllocateOp_wellformed_list d op resp host w1 w2 port reps lead items hempty hhost hport
      hw1 hne hw2 hmaster hnum hwf htoks hlead hsep hreps]
    have := filter_ne_length_add_count { hostname := host, port := port } reps
    simp only [List.length_cons]
    omega

/-- Witness for C13: the response of the specification, `Master: h1 100`,
`Num-replicas: 2`, `Replicas: h1 100 h2 200`, leaves two entries. -/
theorem replica_list_length_witness :
    (AllocateOp.ParseResponseHeader
      { cxx11 := false,
        loadProperties := fun _ =>
          { propmap := [("Master", "h1 100"), ("Num-replicas", "2"),
                        ("Replicas", "h1 100 h2 200")] },
        ToString := fun l => l.hostname ++ " " ++ toString l.port,
        defaultLoc := { hostname := "", port := -1 },
        defaultLayout := { fileOffset := -1, chunkId := -1, chunkVersion := 0,
                           chunkServers := [] },
        uninitInt := 0 }
      { seq := 1, status := 0, contentLength := 0, contentBuf := none, fid := 2,
        fileOffset := 0, chunkId := 0, chunkVersion := 0,
        masterServer := { hostname := "", port := -1 }, chunkServers := [] }
      "").chunkServers.length =
    ([{ hostname := "h1", port := 100 }, { hostname := "h2", port := 200 }] :
      List ServerLocation).length :=
  (replica_list_length _ "").2.2 _ "h1" " " "" 100
    [{ hostname := "h1", port := 100 }, { hostname := "h2", port := 200 }] ""
    [("h1", " "), ("100", " "), ("h2", " "), ("200", "")]
    rfl (by decide) (by decide) (by decide) (by decide) (by decide) (by decide) (by decide)
    (by decide) (by decide) (by decide) (by decide) (by decide) (by decide)

/-! ## Time stamps and the directory flag -/

theorem readInt_exhausted (w : Nat) (cxx11 : Bool) (s : IStream) (old : Int)
    (h : s.good = false ∨ ∀ c ∈ s.buf, isspace c = true) :
    (readInt w cxx11 s old).2 = old := by
  by_cases hg : s.good = true
  · have hall : ∀ c ∈ s.buf, isspace c = true := by
      rcases h with h | h
      · rw [hg] at h; exact absurd h (by decide)
      · exact h
    have hd : s.buf.dropWhile isspace = [] := by
      rw [List.dropWhile_eq_nil_iff]; exact hall
    simp [readInt, IStream.sentry, hg, hd]
  · simp [readInt, IStream.sentry, hg]

theorem GetTimeval_two (d : Decls) (tv : Timeval) (s : String) (secs usecs : Int)
    (h : isTimeText s secs usecs) :
    GetTimeval d s tv = { tv_sec := secs, tv_usec := usecs } := by
  obtain ⟨h1, h2, lead, w1, w2, hl, hw1, hne, hw2, rfl⟩ := h
  have hsep : sepOK [(toString secs, w1), (toString usecs, w2)] = true := by
    have : w1.data ≠ [] := fun h => hne (String.ext h)
    have h1 : w1.data.isEmpty = false := by
      cases hd : w1.data with
      | nil => exact absurd hd this
      | cons _ _ => rfl
    simp [sepOK, hw1, hw2, h1]
  have heq : lead ++ toString secs ++ w1 ++ toString usecs ++ w2 =
      lead ++ spaced [(toString secs, w1), (toString usecs, w2)] := by
    apply String.ext
    simp [spaced, String.data_append]
  have hr := Ready_ofString lead [(toString secs, w1), (toString usecs, w2)] hl hsep
  rw [← heq] at hr
  obtain ⟨s1, e1, r1⟩ := Ready_readInt 64 d.cxx11 _ tv.tv_sec _ _ _ hr h1
  obtain ⟨s2, e2, r2⟩ := Ready_readInt 64 d.cxx11 s1 tv.tv_usec _ _ _ r1 h2
  have hnz : lead ++ toString secs ++ w1 ++ toString usecs ++ w2 ≠ "" := by
    apply String_ne_empty_of_data
    simp only [String.data_append]
    intro h
    simp only [List.append_eq_nil] at h
    exact Int_toString_ne_nil secs h.1.1.1.2
  simp only [GetTimeval, ne_eq, hnz, not_false_eq_true, if_true, e1, e2]

theorem GetTimeval_one (d : Decls) (tv : Timeval) (lead trail : String) (n : Int)
    (hl : allSpace lead = true) (ht : allSpace trail = true) (hn : inRange 64 n) :
    GetTimeval d (lead ++ toString n ++ trail) tv = { tv_sec := n, tv_usec := tv.tv_usec } := by
  have hsep : sepOK [(toString n, trail)] = true := by simp [sepOK, ht]
  have heq : lead ++ toString n ++ trail = lead ++ spaced [(toString n, trail)] := by
    apply String.ext
    simp [spaced, String.data_append]
  have hr := Ready_ofString lead [(toString n, trail)] hl hsep
  rw [← heq] at hr
  obtain ⟨s1, e1, r1⟩ := Ready_readInt 64 d.cxx11 _ tv.tv_sec _ _ _ hr hn
  obtain ⟨-, -, -, lead1, hl1, hb1⟩ := r1
  have h2 : (readInt 64 d.cxx11 s1 tv.tv_usec).2 = tv.tv_usec := by
    apply readInt_exhausted
    right
    rw [hb1]
    simpa [spaced, allSpace, List.all_eq_true] using hl1
  have hnz : lead ++ toString n ++ trail ≠ "" := by
    apply String_ne_empty_of_data
    simp only [String.data_append]
    intro h
    simp only [List.append_eq_nil] at h
    exact Int_toString_ne_nil n h.1.2
  simp only [GetTimeval, ne_eq, hnz, not_false_eq_true, if_true, e1, h2]

theorem GetTimeval_not_number (d : Decls) (tv : Timeval) (s lead : String) (c : Char)
    (rest : List Char) (hl : allSpace lead = true) (hc : isspace c = false)
    (hd : c.isDigit = false) (hm : c ≠ '-') (hp : c ≠ '+')
    (hs : s.data = lead.data ++ c :: rest) :
    GetTimeval d s tv =
      { tv_sec := if d.cxx11 then 0 else tv.tv_sec, tv_usec := tv.tv_usec } := by
  have hnz : s ≠ "" := by
    apply String_ne_empty_of_data
    rw [hs]; simp
  have hsen := sentry_skip (IStream.ofString s) lead.data c rest rfl
    (by simpa [IStream.ofString] using hs)
    (by simpa [allSpace, List.all_eq_true] using hl) hc
  have hm1 : (some c == some '-') = false := by simp [hm]
  have hp1 : (some c == some '+') = false := by simp [hp]
  have htk : List.takeWhile Char.isDigit (c :: rest) = [] := by
    rw [List.takeWhile_cons_of_neg]; simp [hd]
  have hdr : List.dropWhile Char.isDigit (c :: rest) = c :: rest := by
    rw [List.dropWhile_cons_of_neg]; simp [hd]
  have e1 : readInt 64 d.cxx11 (IStream.ofString s) tv.tv_sec =
      ({ buf := c :: rest, eofbit := false, failbit := true },
        if d.cxx11 then 0 else tv.tv_sec) := by
    simp only [readInt, hsen, List.head?_cons, hm1, hp1, Bool.or_self, Bool.false_eq_true,
      if_false, htk, hdr, List.isEmpty_nil, if_true, List.isEmpty_cons]
  have e2 : (readInt 64 d.cxx11 { buf := c :: rest, eofbit := false, failbit := true }
      tv.tv_usec).2 = tv.tv_usec := by
    apply readInt_exhausted
    left
    rfl
  simp only [GetTimeval, ne_eq, hnz, not_false_eq_true, if_true, e1, e2]

theorem scansAs_iff (cs lead sign ds rest : List Char) :
    scansAs cs lead sign ds rest = true ↔
      cs = lead ++ sign ++ ds ++ rest ∧ (∀ x ∈ lead, isspace x = true) ∧
      (sign = [] ∨ sign = ['-'] ∨ sign = ['+']) ∧ (∀ x ∈ ds, x.isDigit = true) ∧
      (rest = [] ∨ ∃ c r1, rest = c :: r1 ∧ c.isDigit = false) ∧
      (sign = [] → ds = [] →
        ∃ c r1, rest = c :: r1 ∧ isspace c = false ∧ c ≠ '-' ∧ c ≠ '+') := by
  have hor : (sign = [] ∨ sign = ['-']) ∨ sign = ['+'] ↔
      sign = [] ∨ sign = ['-'] ∨ sign = ['+'] := or_assoc
  cases rest with
  | nil =>
    have h5 : (([] : List Char) = [] ∨ ∃ c r1, ([] : List Char) = c :: r1 ∧ c.isDigit = false) :=
      Or.inl rfl
    have h6 : (sign = [] → ds = [] →
        ∃ c r1, ([] : List Char) = c :: r1 ∧ isspace c = false ∧ c ≠ '-' ∧ c ≠ '+') ↔
        ¬ (sign = [] ∧ ds = []) := by
      constructor
      · rintro h ⟨hs, hd⟩
        obtain ⟨c, r1, h, -⟩ := h hs hd
        exact absurd h (by simp)
      · intro h hs hd
        exact absurd ⟨hs, hd⟩ h
    rw [h6]
    simp only [scansAs, List.head?_nil, Bool.and_eq_true, Bool.or_eq_true, decide_eq_true_eq,
      List.all_eq_true, Bool.not_eq_true', Bool.and_eq_false_imp, List.isEmpty_iff,
      Bool.or_false, hor, h5, and_true, true_and, not_and, Bool.and_true,
      List.isEmpty_eq_true, and_assoc]
    simp
  | cons c r1 =>
    have h5 : (c :: r1 = [] ∨ ∃ c1 r2, c :: r1 = c1 :: r2 ∧ c1.isDigit = false) ↔
        c.isDigit = false := by
      constructor
      · rintro (h | ⟨c1, r2, h, hc⟩)
        · exact absurd h (by simp)
        · simp only [List.cons.injEq] at h
          rw [h.1]; exact hc
      · intro h; exact Or.inr ⟨c, r1, rfl, h⟩
    have h6 : (sign = [] → ds = [] →
        ∃ c1 r2, c :: r1 = c1 :: r2 ∧ isspace c1 = false ∧ c1 ≠ '-' ∧ c1 ≠ '+') ↔
        (sign = [] → ds = [] → isspace c = false ∧ c ≠ '-' ∧ c ≠ '+') := by
      constructor
      · intro h hs hd
        obtain ⟨c1, r2, h, hh⟩ := h hs hd
        simp only [List.cons.injEq] at h
        rw [h.1]; exact hh
      · intro h hs hd
        exact ⟨c, r1, rfl, h hs hd⟩
    rw [h5, h6]
    simp only [scansAs, List.head?_cons, Bool.and_eq_true, Bool.or_eq_true, decide_eq_true_eq,
      List.all_eq_true, Bool.not_eq_true', List.isEmpty_iff, bne_iff_ne, ne_eq, hor, and_assoc,
      List.isEmpty_eq_true]
    refine and_congr_right (fun _ => and_congr_right (fun _ => and_congr_right (fun _ =>
      and_congr_right (fun _ => and_congr_right (fun _ => ?_)))))
    by_cases hs : sign = [] <;> by_cases hd : ds = [] <;> simp [hs, hd]

theorem signedValue_minus (ds : List Char) :
    signedValue ['-'] ds = -(digitsValue ds : Int) := by
  simp [signedValue]

theorem signedValue_plus (ds : List Char) : signedValue ['+'] ds = (digitsValue ds : Int) := by
  have h : (['+'] : List Char) ≠ ['-'] := by decide
  simp [signedValue, h]

theorem signedValue_none (ds : List Char) : signedValue [] ds = (digitsValue ds : Int) := by
  simp [signedValue]

theorem scansAs_head (cs lead sign ds rest : List Char)
    (h : scansAs cs lead sign ds rest = true) :
    ∃ c t, sign ++ ds ++ rest = c :: t ∧ isspace c = false := by
  obtain ⟨-, -, hs, hd, -, h6⟩ := (scansAs_iff cs lead sign ds rest).1 h
  rcases hs with rfl | rfl | rfl
  · cases ds with
    | nil =>
      obtain ⟨c, r1, rfl, hc, -⟩ := h6 rfl rfl
      exact ⟨c, r1, rfl, hc⟩
    | cons x ds1 =>
      exact ⟨x, ds1 ++ rest, rfl, isspace_not_digit x (hd x (List.mem_cons_self _ _))⟩
  · exact ⟨'-', ds ++ rest, rfl, by decide⟩
  · exact ⟨'+', ds ++ rest, rfl, by decide⟩

theorem readInt_scans (w : Nat) (cxx11 : Bool) (s : IStream) (old : Int)
    (lead sign ds rest : List Char) (hg : s.good = true)
    (h : scansAs s.buf lead sign ds rest = true) :
    readInt w cxx11 s old =
      if ds = [] then
        ({ buf := rest, eofbit := rest.isEmpty, failbit := true }, if cxx11 then 0 else old)
      else if signedValue sign ds < intMin w then
        ({ buf := rest, eofbit := rest.isEmpty, failbit := true },
          if cxx11 then intMin w else old)
      else if intMax w < signedValue sign ds then
        ({ buf := rest, eofbit := rest.isEmpty, failbit := true },
          if cxx11 then intMax w else old)
      else ({ buf := rest, eofbit := rest.isEmpty, failbit := false }, signedValue sign ds) := by
  obtain ⟨c, t, hct, hc⟩ := scansAs_head _ _ _ _ _ h
  obtain ⟨hb, hl, hs, hd, hr, h6⟩ := (scansAs_iff _ _ _ _ _).1 h
  have hsen := sentry_skip s lead c t hg (by rw [hb, ← hct]; simp) hl hc
  have hrun := takeWhile_run (p := Char.isDigit) ds rest hd hr
  have hemp : ds.isEmpty = decide (ds = []) := by
    cases ds <;> simp
  rcases hs with rfl | rfl | rfl
  · simp only [List.nil_append] at hct
    have hm : c ≠ '-' := by
      cases ds with
      | nil =>
        obtain ⟨c1, r1, h1, -, hm, -⟩ := h6 rfl rfl
        simp only [List.nil_append] at hct
        rw [h1] at hct
        simp only [List.cons.injEq] at hct
        rw [← hct.1]; exact hm
      | cons x ds1 =>
        simp only [List.cons_append, List.cons.injEq] at hct
        have := hd x (List.mem_cons_self _ _)
        rw [← hct.1]
        rintro rfl; simp at this
    have hp : c ≠ '+' := by
      cases ds with
      | nil =>
        obtain ⟨c1, r1, h1, -, -, hp⟩ := h6 rfl rfl
        simp only [List.nil_append] at hct
        rw [h1] at hct
        simp only [List.cons.injEq] at hct
        rw [← hct.1]; exact hp
      | cons x ds1 =>
        simp only [List.cons_append, List.cons.injEq] at hct
        have := hd x (List.mem_cons_self _ _)
        rw [← hct.1]
        rintro rfl; simp at this
    have hm1 : (some c == some '-') = false := by simp [hm]
    have hp1 : (some c == some '+') = false := by simp [hp]
    rw [hct] at hrun
    simp only [readInt, hsen, List.head?_cons, hm1, hp1, Bool.or_self, Bool.false_eq_true,
      if_false, hrun.1, hrun.2, hemp, decide_eq_true_eq, signedValue_none]
  · simp only [List.singleton_append, List.cons_append, List.nil_append, List.cons.injEq]
      at hct
    obtain ⟨rfl, rfl⟩ := hct
    have hm1 : (some '-' == some '-') = true := by decide
    simp only [readInt, hsen, List.head?_cons, hm1, Bool.true_or, if_true, List.tail_cons,
      hrun.1, hrun.2, hemp, decide_eq_true_eq, signedValue_minus]
  · simp only [List.singleton_append, List.cons_append, List.nil_append, List.cons.injEq]
      at hct
    obtain ⟨rfl, rfl⟩ := hct
    have hm1 : (some '+' == some '-') = false := by decide
    have hp1 : (some '+' == some '+') = true := by decide
    simp only [readInt, hsen, List.head?_cons, hm1, hp1, Bool.false_or, Bool.false_eq_true,
      if_true, if_false, List.tail_cons, hrun.1, hrun.2, hemp, decide_eq_true_eq,
      signedValue_plus]

theorem readInt_exhausted_stream (w : Nat) (cxx11 : Bool) (s : IStream) (old : Int)
    (h : s.good = false ∨ ∀ c ∈ s.buf, isspace c = true) :
    (readInt w cxx11 s old).1.good = false := by
  by_cases hg : s.good = true
  · have hall : ∀ c ∈ s.buf, isspace c = true := by
      rcases h with h | h
      · rw [hg] at h; exact absurd h (by decide)
      · exact h
    have hd : s.buf.dropWhile isspace = [] := by
      rw [List.dropWhile_eq_nil_iff]; exact hall
    have hs : s.sentry = ({ buf := [], eofbit := true, failbit := true }, false) := by
      simp only [IStream.sentry, hg, if_true, hd]
    simp only [readInt, hs]
    rfl
  · have hs : s.sentry = ({ s with failbit := true }, false) := by
      simp only [IStream.sentry, hg, Bool.false_eq_true, if_false]
    simp only [readInt, hs]
    simp [IStream.good]

theorem scansAs_ne_empty (s : String) (lead sign ds rest : List Char)
    (h : scansAs s.data lead sign ds rest = true) : s ≠ "" := by
  obtain ⟨c, t, hct, -⟩ := scansAs_head _ _ _ _ _ h
  obtain ⟨hb, -⟩ := (scansAs_iff _ _ _ _ _).1 h
  apply String_ne_empty_of_data
  rw [hb]
  intro h0
  simp only [List.append_assoc] at h0 hct
  rw [hct] at h0
  simp at h0

theorem GetTimeval_blank (d : Decls) (tv : Timeval) (s : String) (hne : s ≠ "")
    (h : s.data.all isspace = true) : GetTimeval d s tv = tv := by
  have hall : ∀ c ∈ (IStream.ofString s).buf, isspace c = true := by
    simpa [IStream.ofString, List.all_eq_true] using h
  have e1 := readInt_exhausted 64 d.cxx11 (IStream.ofString s) tv.tv_sec (Or.inr hall)
  have g1 := readInt_exhausted_stream 64 d.cxx11 (IStream.ofString s) tv.tv_sec (Or.inr hall)
  have e2 := readInt_exhausted 64 d.cxx11
    (readInt 64 d.cxx11 (IStream.ofString s) tv.tv_sec).1 tv.tv_usec (Or.inl g1)
  simp only [GetTimeval, ne_eq, hne, not_false_eq_true, if_true, e1, e2]

theorem GetTimeval_first_fails (d : Decls) (tv : Timeval) (s : String)
    (lead sign ds rest : List Char) (h : scansAs s.data lead sign ds rest = true)
    (hf : ds = [] ∨ ¬ inRange 64 (signedValue sign ds)) :
    GetTimeval d s tv =
      { tv_sec :=
          if ds = [] then (if d.cxx11 then 0 else tv.tv_sec)
          else if d.cxx11 then
            (if signedValue sign ds < intMin 64 then intMin 64 else intMax 64)
          else tv.tv_sec
        tv_usec := tv.tv_usec } := by
  have hne := scansAs_ne_empty s lead sign ds rest h
  have e1 := readInt_scans 64 d.cxx11 (IStream.ofString s) tv.tv_sec lead sign ds rest rfl h
  have key : (readInt 64 d.cxx11 (IStream.ofString s) tv.tv_sec).1.good = false ∧
      (readInt 64 d.cxx11 (IStream.ofString s) tv.tv_sec).2 =
        (if ds = [] then (if d.cxx11 then 0 else tv.tv_sec)
          else if d.cxx11 then
            (if signedValue sign ds < intMin 64 then intMin 64 else intMax 64)
          else tv.tv_sec) := by
    rw [e1]
    by_cases hd : ds = []
    · simp [hd, IStream.good]
    · have hr : ¬ inRange 64 (signedValue sign ds) := by
        rcases hf with h | h
        · exact absurd h hd
        · exact h
      simp only [hd, if_false]
      by_cases hlo : signedValue sign ds < intMin 64
      · simp [hlo, IStream.good]
      · have hhi : intMax 64 < signedValue sign ds := by
          by_contra hx
          exact hr ⟨not_lt.1 hlo, not_lt.1 hx⟩
        simp [hlo, hhi, IStream.good]
  have e2 := readInt_exhausted 64 d.cxx11
    (readInt 64 d.cxx11 (IStream.ofString s) tv.tv_sec).1 tv.tv_usec (Or.inl key.1)
  simp only [GetTimeval, ne_eq, hne, not_false_eq_true, if_true, key.2, e2]

theorem readInt_scans_value (w : Nat) (cxx11 : Bool) (s : IStream) (old : Int)
    (lead sign ds rest : List Char) (hg : s.good = true)
    (h : scansAs s.buf lead sign ds rest = true) (hd : ds ≠ [])
    (hv : inRange w (signedValue sign ds)) :
    readInt w cxx11 s old =
      ({ buf := rest, eofbit := rest.isEmpty, failbit := false }, signedValue sign ds) := by
  rw [readInt_scans w cxx11 s old lead sign ds rest hg h]
  simp only [hd, if_false, not_lt.2 hv.1, not_lt.2 hv.2]

theorem GetTimeval_one_number (d : Decls) (tv : Timeval) (s : String)
    (lead sign ds rest : List Char) (h : scansAs s.data lead sign ds rest = true)
    (hd : ds ≠ []) (hv : inRange 64 (signedValue sign ds))
    (hr : rest.all isspace = true) :
    GetTimeval d s tv = { tv_sec := signedValue sign ds, tv_usec := tv.tv_usec } := by
  have hne := scansAs_ne_empty s lead sign ds rest h
  have e1 := readInt_scans_value 64 d.cxx11 (IStream.ofString s) tv.tv_sec lead sign ds rest
    rfl h hd hv
  have e2 := readInt_exhausted 64 d.cxx11
    { buf := rest, eofbit := rest.isEmpty, failbit := false } tv.tv_usec
    (Or.inr (by simpa [List.all_eq_true] using hr))
  simp only [GetTimeval, ne_eq, hne, not_false_eq_true, if_true, e1, e2]

theorem GetTimeval_second (d : Decls) (tv : Timeval) (s : String)
    (lead sign ds rest lead2 sign2 ds2 rest2 : List Char)
    (h : scansAs s.data lead sign ds rest = true)
    (hd : ds ≠ []) (hv : inRange 64 (signedValue sign ds))
    (h2 : scansAs rest lead2 sign2 ds2 rest2 = true) :
    GetTimeval d s tv =
      { tv_sec := signedValue sign ds
        tv_usec :=
          if ds2 = [] then (if d.cxx11 then 0 else tv.tv_usec)
          else if signedValue sign2 ds2 < intMin 64 then
            (if d.cxx11 then intMin 64 else tv.tv_usec)
          else if intMax 64 < signedValue sign2 ds2 then
            (if d.cxx11 then intMax 64 else tv.tv_usec)
          else signedValue sign2 ds2 } := by
  have hne := scansAs_ne_empty s lead sign ds rest h
  have e1 := readInt_scans_value 64 d.cxx11 (IStream.ofString s) tv.tv_sec lead sign ds rest
    rfl h hd hv
  have hrest : rest.isEmpty = false := by
    obtain ⟨c, t, hct, -⟩ := scansAs_head _ _ _ _ _ h2
    obtain ⟨hb, -⟩ := (scansAs_iff _ _ _ _ _).1 h2
    cases hr : rest with
    | nil =>
      rw [hr] at hb
      have := hb.symm
      simp only [List.append_assoc] at this hct
      rw [hct] at this
      simp at this
    | cons _ _ => rfl
  have e2 := readInt_scans 64 d.cxx11
    { buf := rest, eofbit := rest.isEmpty, failbit := false } tv.tv_usec lead2 sign2 ds2 rest2
    (by simp [IStream.good, hrest]) h2
  simp only [GetTimeval, ne_eq, hne, not_false_eq_true, if_true, e1, e2]
  congr 1
  by_cases hd2 : ds2 = []
  · simp [hd2]
  · simp only [hd2, if_false]
    by_cases hlo : signedValue sign2 ds2 < intMin 64
    · simp [hlo]
    · by_cases hhi : intMax 64 < signedValue sign2 ds2
      · simp [hlo, hhi]
      · simp [hlo, hhi]

theorem scansAs_complete (cs : List Char) :
    cs.all isspace = true ∨ ∃ lead sign ds rest, scansAs cs lead sign ds rest = true := by
  have hsplit : cs = cs.takeWhile isspace ++ cs.dropWhile isspace :=
    (List.takeWhile_append_dropWhile _ _).symm
  have hlead : ∀ x ∈ cs.takeWhile isspace, isspace x = true :=
    fun x hx => List.mem_takeWhile_imp hx
  have hdig : ∀ (l : List Char), ∀ x ∈ l.takeWhile Char.isDigit, x.isDigit = true :=
    fun l x hx => List.mem_takeWhile_imp hx
  have hrest : ∀ (l : List Char), l.dropWhile Char.isDigit = [] ∨
      ∃ c r1, l.dropWhile Char.isDigit = c :: r1 ∧ c.isDigit = false := by
    intro l
    cases hl : l.dropWhile Char.isDigit with
    | nil => exact Or.inl rfl
    | cons c r1 =>
      refine Or.inr ⟨c, r1, rfl, ?_⟩
      have := List.head_dropWhile_not Char.isDigit l (by rw [hl]; simp)
      simpa [hl] using this
  cases hb : cs.dropWhile isspace with
  | nil =>
    left
    rw [List.dropWhile_eq_nil_iff] at hb
    simpa [List.all_eq_true] using hb
  | cons c t =>
    right
    have hc : isspace c = false := by
      have := List.head_dropWhile_not isspace cs (by rw [hb]; simp)
      simpa [hb] using this
    by_cases hm : c = '-'
    · refine ⟨cs.takeWhile isspace, ['-'], t.takeWhile Char.isDigit,
        t.dropWhile Char.isDigit, ?_⟩
      rw [scansAs_iff]
      refine ⟨?_, hlead, Or.inr (Or.inl rfl), hdig t, hrest t, ?_⟩
      · conv_lhs => rw [hsplit, hb, hm]
        simp [List.takeWhile_append_dropWhile]
      · intro h; exact absurd h (by simp)
    · by_cases hp : c = '+'
      · refine ⟨cs.takeWhile isspace, ['+'], t.takeWhile Char.isDigit,
          t.dropWhile Char.isDigit, ?_⟩
        rw [scansAs_iff]
        refine ⟨?_, hlead, Or.inr (Or.inr rfl), hdig t, hrest t, ?_⟩
        · conv_lhs => rw [hsplit, hb, hp]
          simp [List.takeWhile_append_dropWhile]
        · intro h; exact absurd h (by simp)
      · refine ⟨cs.takeWhile isspace, [], (c :: t).takeWhile Char.isDigit,
          (c :: t).dropWhile Char.isDigit, ?_⟩
        rw [scansAs_iff]
        refine ⟨?_, hlead, Or.inl rfl, hdig _, hrest _, ?_⟩
        · conv_lhs => rw [hsplit, hb]
          simp [List.takeWhile_append_dropWhile]
        · intro _ hds
          have hcd : c.isDigit = false := by
            by_contra hx
            simp only [Bool.not_eq_false] at hx
            rw [List.takeWhile_cons_of_pos hx] at hds
            exact absurd hds (by simp)
          refine ⟨c, t, ?_, hc, hm, hp⟩
          rw [List.dropWhile_cons_of_neg (by simp [hcd])]

/-- Counterexample for C12: a Lookup operation whose `mtime` holds (7, 9) before
decoding. The value `12` of `M-Time` decodes to (12, 9), whichever value a
failed extraction stores; where a failed extraction stores zero (C++11), the
value `abc` decodes to (0, 9), the value `12 x` to (12, 0) and the value
`12 34abc` to (12, 34). None of these is (0, 0). -/
theorem malformed_time_not_zero :
    (LookupOp.ParseResponseHeader
      { cxx11 := false,
        loadProperties := fun _ => { propmap := [("M-Time", "12")] },
        ToString := fun l => l.hostname ++ " " ++ toString l.port,
        defaultLoc := { hostname := "", port := -1 },
        defaultLayout := { fileOffset := -1, chunkId := -1, chunkVersion := 0,
                           chunkServers := [] },
        uninitInt := 0 }
      { seq := 1, status := 0, contentLength := 0, contentBuf := none, parentFid := 2,
        filename := "a",
        fattr := { fileId := 3, isDirectory := false, chunkCount := 0, numReplicas := 1,
                   mtime := { tv_sec := 7, tv_usec := 9 },
                   ctime := { tv_sec := 0, tv_usec := 0 },
                   crtime := { tv_sec := 0, tv_usec := 0 } } }
      "").fattr.mtime = { tv_sec := 12, tv_usec := 9 } ∧
    (LookupOp.ParseResponseHeader
      { cxx11 := true,
        loadProperties := fun _ => { propmap := [("M-Time", "12")] },
        ToString := fun l => l.hostname ++ " " ++ toString l.port,
        defaultLoc := { hostname := "", port := -1 },
        defaultLayout := { fileOffset := -1, chunkId := -1, chunkVersion := 0,
                           chunkServers := [] },
        uninitInt := 0 }
      { seq := 1, status := 0, contentLength := 0, contentBuf := none, parentFid := 2,
        filename := "a",
        fattr := { fileId := 3, isDirectory := false, chunkCount := 0, numReplicas := 1,
                   mtime := { tv_sec := 7, tv_usec := 9 },
                   ctime := { tv_sec := 0, tv_usec := 0 },
                   crtime := { tv_sec := 0, tv_usec := 0 } } }
      "").fattr.mtime = { tv_sec := 12, tv_usec := 9 } ∧
    (LookupOp.ParseResponseHeader
      { cxx11 := true,
        loadProperties := fun _ => { propmap := [("M-Time", "abc")] },
        ToString := fun l => l.hostname ++ " " ++ toString l.port,
        defaultLoc := { hostname := "", port := -1 },
        defaultLayout := { fileOffset := -1, chunkId := -1, chunkVersion := 0,
                           chunkServers := [] },
        uninitInt := 0 }
      { seq := 1, status := 0, contentLength := 0, contentBuf := none, parentFid := 2,
        filename := "a",
        fattr := { fileId := 3, isDirectory := false, chunkCount := 0, numReplicas := 1,
                   mtime := { tv_sec := 7, tv_usec := 9 },
                   ctime := { tv_sec := 0, tv_usec := 0 },
                   crtime := { tv_sec := 0, tv_usec := 0 } } }
      "").fattr.mtime = { tv_sec := 0, tv_usec := 9 } ∧
    (LookupOp.ParseResponseHeader
      { cxx11 := true,
        loadProperties := fun _ => { propmap := [("M-Time", "12 x")] },
        ToString := fun l => l.hostname ++ " " ++ toString l.port,
        defaultLoc := { hostname := "", port := -1 },
        defaultLayout := { fileOffset := -1, chunkId := -1, chunkVersion := 0,
                           chunkServers := [] },
        uninitInt := 0 }
      { seq := 1, status := 0, contentLength := 0, contentBuf := none, parentFid := 2,
        filename := "a",
        fattr := { fileId := 3, isDirectory := false, chunkCount := 0, numReplicas := 1,
                   mtime := { tv_sec := 7, tv_usec := 9 },
                   ctime := { tv_sec := 0, tv_usec := 0 },
                   crtime := { tv_sec := 0, tv_usec := 0 } } }
      "").fattr.mtime = { tv_sec := 12, tv_usec := 0 } ∧
    (LookupOp.ParseResponseHeader
      { cxx11 := true,
        loadProperties := fun _ => { propmap := [("M-Time", "12 34abc")] },
        ToString := fun l => l.hostname ++ " " ++ toString l.port,
        defaultLoc := { hostname := "", port := -1 },
        defaultLayout := { fileOffset := -1, chunkId := -1, chunkVersion := 0,
                           chunkServers := [] },
        uninitInt := 0 }
      { seq := 1, status := 0, contentLength := 0, contentBuf := none, parentFid := 2,
        filename := "a",
        fattr := { fileId := 3, isDirectory := false, chunkCount := 0, numReplicas := 1,
                   mtime := { tv_sec := 7, tv_usec := 9 },
                   ctime := { tv_sec := 0, tv_usec := 0 },
                   crtime := { tv_sec := 0, tv_usec := 0 } } }
      "").fattr.mtime = { tv_sec := 12, tv_usec := 34 } := by
  decide

/-- C12, as the code has it: each time stamp of a Lookup or LookupPath response
is `GetTimeval` of the value of its field and of the time stamp the operation
held before, a total function. An empty value gives (0, 0); a non-empty value
is read by two extractions into the members as they are. A failed extraction
leaves its target (the rule of C++98/03) or stores 0, respectively the nearest
bound for a number outside 64 bits (the rule of C++11). With a value read as
white space, an optional sign, a run of digits and a remainder: a value of
white space only leaves both members as they were; a value with no digit at
that place leaves `tv_usec` and gives `tv_sec` its previous value or 0; a
first number outside 64 bits leaves `tv_usec` and gives `tv_sec` its previous
value or the nearest bound; a first number `n` followed by white space only
gives (`n`, previous `tv_usec`); `n` followed by text without a digit at the
place of the second number gives `n` with the previous `tv_usec` or 0; `n`
followed by a number outside 64 bits gives `n` with the previous `tv_usec` or
the nearest bound; `n` followed by a second number `m`, whatever comes after
it, gives (`n`, `m`). Every non-empty value has one of these shapes. -/
theorem malformed_time_decoded (d : Decls) :
    (∀ (op : LookupOp) (resp : String),
      (LookupOp.ParseResponseHeader d op resp).fattr.mtime =
        GetTimeval d ((d.loadProperties resp).getValue "M-Time" "") op.fattr.mtime) ∧
    (∀ (op : LookupOp) (resp : String),
      (LookupOp.ParseResponseHeader d op resp).fattr.ctime =
        GetTimeval d ((d.loadProperties resp).getValue "C-Time" "") op.fattr.ctime) ∧
    (∀ (op : LookupOp) (resp : String),
      (LookupOp.ParseResponseHeader d op resp).fattr.crtime =
        GetTimeval d ((d.loadProperties resp).getValue "CR-Time" "") op.fattr.crtime) ∧
    (∀ (op : LookupPathOp) (resp : String),
      (LookupPathOp.ParseResponseHeader d op resp).fattr.mtime =
        GetTimeval d ((d.loadProperties resp).getValue "M-Time" "") op.fattr.mtime) ∧
    (∀ (op : LookupPathOp) (resp : String),
      (LookupPathOp.ParseResponseHeader d op resp).fattr.ctime =
        GetTimeval d ((d.loadProperties resp).getValue "C-Time" "") op.fattr.ctime) ∧
    (∀ (op : LookupPathOp) (resp : String),
      (LookupPathOp.ParseResponseHeader d op resp).fattr.crtime =
        GetTimeval d ((d.loadProperties resp).getValue "CR-Time" "") op.fattr.crtime) ∧
    (∀ tv : Timeval, GetTimeval d "" tv = { tv_sec := 0, tv_usec := 0 }) ∧
    (∀ (tv : Timeval) (s : String), s ≠ "" → s.data.all isspace = true →
      GetTimeval d s tv = tv) ∧
    (∀ (tv : Timeval) (s : String) (lead sign rest : List Char),
      scansAs s.data lead sign [] rest = true →
      GetTimeval d s tv =
        { tv_sec := if d.cxx11 then 0 else tv.tv_sec, tv_usec := tv.tv_usec }) ∧
    (∀ (tv : Timeval) (s : String) (lead sign ds rest : List Char),
      scansAs s.data lead sign ds rest = true → ds ≠ [] →
      ¬ inRange 64 (signedValue sign ds) →
      GetTimeval d s tv =
        { tv_sec :=
            if d.cxx11 then
              (if signedValue sign ds < intMin 64 then intMin 64 else intMax 64)
            else tv.tv_sec
          tv_usec := tv.tv_usec }) ∧
    (∀ (tv : Timeval) (s : String) (lead sign ds rest : List Char),
      scansAs s.data lead sign ds rest = true → ds ≠ [] → inRange 64 (signedValue sign ds) →
      rest.all isspace = true →
      GetTimeval d s tv = { tv_sec := signedValue sign ds, tv_usec := tv.tv_usec }) ∧
    (∀ (tv : Timeval) (s : String) (lead sign ds rest lead2 sign2 rest2 : List Char),
      scansAs s.data lead sign ds rest = true → ds ≠ [] → inRange 64 (signedValue sign ds) →
      scansAs rest lead2 sign2 [] rest2 = true →
      GetTimeval d s tv =
        { tv_sec := signedValue sign ds, tv_usec := if d.cxx11 then 0 else tv.tv_usec }) ∧
    (∀ (tv : Timeval) (s : String) (lead sign ds rest lead2 sign2 ds2 rest2 : List Char),
      scansAs s.data lead sign ds rest = true → ds ≠ [] → inRange 64 (signedValue sign ds) →
      scansAs rest lead2 sign2 ds2 rest2 = true → ds2 ≠ [] →
      ¬ inRange 64 (signedValue sign2 ds2) →
      GetTimeval d s tv =
        { tv_sec := signedValue sign ds
          tv_usec :=
            if d.cxx11 then
              (if signedValue sign2 ds2 < intMin 64 then intMin 64 else intMax 64)
            else tv.tv_usec }) ∧
    (∀ (tv : Timeval) (s : String) (lead sign ds rest lead2 sign2 ds2 rest2 : List Char),
      scansAs s.data lead sign ds rest = true → ds ≠ [] → inRange 64 (signedValue sign ds) →
      scansAs rest lead2 sign2 ds2 rest2 = true → ds2 ≠ [] →
      inRange 64 (signedValue sign2 ds2) →
      GetTimeval d s tv =
        { tv_sec := signedValue sign ds, tv_usec := signedValue sign2 ds2 }) ∧
    (∀ s : String, s ≠ "" →
      s.data.all isspace = true ∨
      ∃ lead sign ds rest, scansAs s.data lead sign ds rest = true ∧
        (rest.all isspace = true ∨
          ∃ lead2 sign2 ds2 rest2, scansAs rest lead2 sign2 ds2 rest2 = true)) := by
  refine ⟨fun _ _ => rfl, fun _ _ => rfl, fun _ _ => rfl, fun _ _ => rfl, fun _ _ => rfl,
    fun _ _ => rfl, fun tv => GetTimeval_empty d tv,
    fun tv s hne h => GetTimeval_blank d tv s hne h, ?_, ?_,
    fun tv s lead sign ds rest h hd hv hr =>
      GetTimeval_one_number d tv s lead sign ds rest h hd hv hr, ?_, ?_, ?_, ?_⟩
  · intro tv s lead sign rest h
    have := GetTimeval_first_fails d tv s lead sign [] rest h (Or.inl rfl)
    simpa using this
  · intro tv s lead sign ds rest h hd hv
    have := GetTimeval_first_fails d tv s lead sign ds rest h (Or.inr hv)
    simpa [hd] using this
  · intro tv s lead sign ds rest lead2 sign2 rest2 h hd hv h2
    have := GetTimeval_second d tv s lead sign ds rest lead2 sign2 [] rest2 h hd hv h2
    simpa using this
  · intro tv s lead sign ds rest lead2 sign2 ds2 rest2 h hd hv h2 hd2 hv2
    rw [GetTimeval_second d tv s lead sign ds rest lead2 sign2 ds2 rest2 h hd hv h2]
    congr 1
    simp only [hd2, if_false]
    by_cases hlo : signedValue sign2 ds2 < intMin 64
    · simp [hlo]
    · have hhi : intMax 64 < signedValue sign2 ds2 := by
        by_contra hx
        exact hv2 ⟨not_lt.1 hlo, not_lt.1 hx⟩
      simp only [hlo, hhi, if_false, if_true]
  · intro tv s lead sign ds rest lead2 sign2 ds2 rest2 h hd hv h2 hd2 hv2
    rw [GetTimeval_second d tv s lead sign ds rest lead2 sign2 ds2 rest2 h hd hv h2]
    simp only [hd2, if_false, not_lt.2 hv2.1, not_lt.2 hv2.2]
  · intro s _
    rcases scansAs_complete s.data with h | ⟨lead, sign, ds, rest, h⟩
    · exact Or.inl h
    · refine Or.inr ⟨lead, sign, ds, rest, h, ?_⟩
      exact scansAs_complete rest

/-- Witness for C12: the values `abc`, `12`, `12 x` and `12 34abc` against the
time stamp (7, 9), a failed extraction storing zero. -/
theorem malformed_time_decoded_witness :
    GetTimeval
      { cxx11 := true, loadProperties := fun _ => { propmap := [] },
        ToString := fun l => l.hostname ++ " " ++ toString l.port,
        defaultLoc := { hostname := "", port := -1 },
        defaultLayout := { fileOffset := -1, chunkId := -1, chunkVersion := 0,
                           chunkServers := [] },
        uninitInt := 0 }
      "abc" { tv_sec := 7, tv_usec := 9 } = { tv_sec := 0, tv_usec := 9 } ∧
    GetTimeval
      { cxx11 := true, loadProperties := fun _ => { propmap := [] },
        ToString := fun l => l.hostname ++ " " ++ toString l.port,
        defaultLoc := { hostname := "", port := -1 },
        defaultLayout := { fileOffset := -1, chunkId := -1, chunkVersion := 0,
                           chunkServers := [] },
        uninitInt := 0 }
      "12" { tv_sec := 7, tv_usec := 9 } = { tv_sec := 12, tv_usec := 9 } ∧
    GetTimeval
      { cxx11 := true, loadProperties := fun _ => { propmap := [] },
        ToString := fun l => l.hostname ++ " " ++ toString l.port,
        defaultLoc := { hostname := "", port := -1 },
        defaultLayout := { fileOffset := -1, chunkId := -1, chunkVersion := 0,
                           chunkServers := [] },
        uninitInt := 0 }
      "12 x" { tv_sec := 7, tv_usec := 9 } = { tv_sec := 12, tv_usec := 0 } ∧
    GetTimeval
      { cxx11 := true, loadProperties := fun _ => { propmap := [] },
        ToString := fun l => l.hostname ++ " " ++ toString l.port,
        defaultLoc := { hostname := "", port := -1 },
        defaultLayout := { fileOffset := -1, chunkId := -1, chunkVersion := 0,
                           chunkServers := [] },
        uninitInt := 0 }
      "12 34abc" { tv_sec := 7, tv_usec := 9 } = { tv_sec := 12, tv_usec := 34 } :=
  ⟨(malformed_time_decoded _).2.2.2.2.2.2.2.2.1 _ "abc" [] [] ['a', 'b', 'c'] (by decide),
   (malformed_time_decoded _).2.2.2.2.2.2.2.2.2.2.1 _ "12" [] [] ['1', '2'] []
     (by decide) (by decide) (by decide) (by decide),
   (malformed_time_decoded _).2.2.2.2.2.2.2.2.2.2.2.1 _ "12 x" [] [] ['1', '2'] [' ', 'x']
     [' '] [] ['x'] (by decide) (by decide) (by decide) (by decide),
   (malformed_time_decoded _).2.2.2.2.2.2.2.2.2.2.2.2.2.1 _ "12 34abc" [] [] ['1', '2']
     [' ', '3', '4', 'a', 'b', 'c'] [' '] [] ['3', '4'] ['a', 'b', 'c']
     (by decide) (by decide) (by decide) (by decide) (by decide) (by decide)⟩

/-- C15: for every Lookup and LookupPath response the decoded directory flag is
true exactly when the `Type` value (the empty text when absent) is the string
`dir`; each of `M-Time`, `C-Time`, `CR-Time` whose value is a time text for
`secs` and `usecs` decodes to (`secs`, `usecs`), and an empty value decodes to
(0, 0). -/
theorem lookup_type_and_times (d : Decls) (resp : String) :
    (∀ op : LookupOp, ((LookupOp.ParseResponseHeader d op resp).fattr.isDirectory = true ↔
      (d.loadProperties resp).getValue "Type" "" = "dir")) ∧
    (∀ op : LookupPathOp,
      ((LookupPathOp.ParseResponseHeader d op resp).fattr.isDirectory = true ↔
        (d.loadProperties resp).getValue "Type" "" = "dir")) ∧
    (∀ (op : LookupOp) (secs usecs : Int),
      isTimeText ((d.loadProperties resp).getValue "M-Time" "") secs usecs →
      (LookupOp.ParseResponseHeader d op resp).fattr.mtime =
        { tv_sec := secs, tv_usec := usecs }) ∧
    (∀ (op : LookupOp) (secs usecs : Int),
      isTimeText ((d.loadProperties resp).getValue "C-Time" "") secs usecs →
      (LookupOp.ParseResponseHeader d op resp).fattr.ctime =
        { tv_sec := secs, tv_usec := usecs }) ∧
    (∀ (op : LookupOp) (secs usecs : Int),
      isTimeText ((d.loadProperties resp).getValue "CR-Time" "") secs usecs →
      (LookupOp.ParseResponseHeader d op resp).fattr.crtime =
        { tv_sec := secs, tv_usec := usecs }) ∧
    (∀ (op : LookupPathOp) (secs usecs : Int),
      isTimeText ((d.loadProperties resp).getValue "M-Time" "") secs usecs →
      (LookupPathOp.ParseResponseHeader d op resp).fattr.mtime =
        { tv_sec := secs, tv_usec := usecs }) ∧
    (∀ (op : LookupPathOp) (secs usecs : Int),
      isTimeText ((d.loadProperties resp).getValue "C-Time" "") secs usecs →
      (LookupPathOp.ParseResponseHeader d op resp).fattr.ctime =
        { tv_sec := secs, tv_usec := usecs }) ∧
    (∀ (op : LookupPathOp) (secs usecs : Int),
      isTimeText ((d.loadProperties resp).getValue "CR-Time" "") secs usecs →
      (LookupPathOp.ParseResponseHeader d op resp).fattr.crtime =
        { tv_sec := secs, tv_usec := usecs }) ∧
    (∀ op : LookupOp, (d.loadProperties resp).getValue "M-Time" "" = "" →
      (LookupOp.ParseResponseHeader d op resp).fattr.mtime = { tv_sec := 0, tv_usec := 0 }) ∧
    (∀ op : LookupOp, (d.loadProperties resp).getValue "C-Time" "" = "" →
      (LookupOp.ParseResponseHeader d op resp).fattr.ctime = { tv_sec := 0, tv_usec := 0 }) ∧
    (∀ op : LookupOp, (d.loadProperties resp).getValue "CR-Time" "" = "" →
      (LookupOp.ParseResponseHeader d op resp).fattr.crtime = { tv_sec := 0, tv_usec := 0 }) ∧
    (∀ op : LookupPathOp, (d.loadProperties resp).getValue "M-Time" "" = "" →
      (LookupPathOp.ParseResponseHeader d op resp).fattr.mtime = { tv_sec := 0, tv_usec := 0 }) ∧
    (∀ op : LookupPathOp, (d.loadProperties resp).getValue "C-Time" "" = "" →
      (LookupPathOp.ParseResponseHeader d op resp).fattr.ctime = { tv_sec := 0, tv_usec := 0 }) ∧
    (∀ op : LookupPathOp, (d.loadProperties resp).getValue "CR-Time" "" = "" →
      (LookupPathOp.ParseResponseHeader d op resp).fattr.crtime = { tv_sec := 0, tv_usec := 0 }) := by
  refine ⟨?_, ?_, ?_, ?_, ?_, ?_, ?_, ?_, ?_, ?_, ?_, ?_, ?_, ?_⟩
  · intro op
    simp [LookupOp.ParseResponseHeader, decodeFileAttr, KfsOp.ParseResponseHeaderCommon]
  · intro op
    simp [LookupPathOp.ParseResponseHeader, decodeFileAttr, KfsOp.ParseResponseHeaderCommon]
  all_goals first
    | (intro op secs usecs h
       exact GetTimeval_two d _ _ secs usecs h)
    | (intro op h
       simp [LookupOp.ParseResponseHeader, LookupPathOp.ParseResponseHeader, decodeFileAttr,
         KfsOp.ParseResponseHeaderCommon, h, GetTimeval_empty])

/-- Witness for C15: `M-Time: 1700000000 250` decodes to (1700000000, 250). -/
theorem lookup_type_and_times_witness :
    (LookupOp.ParseResponseHeader
      { cxx11 := false,
        loadProperties := fun _ =>
          { propmap := [("Type", "dir"), ("M-Time", "1700000000 250")] },
        ToString := fun l => l.hostname ++ " " ++ toString l.port,
        defaultLoc := { hostname := "", port := -1 },
        defaultLayout := { fileOffset := -1, chunkId := -1, chunkVersion := 0,
                           chunkServers := [] },
        uninitInt := 0 }
      { seq := 1, status := 0, contentLength := 0, contentBuf := none, parentFid := 2,
        filename := "a",
        fattr := { fileId := 3, isDirectory := false, chunkCount := 0, numReplicas := 1,
                   mtime := { tv_sec := 7, tv_usec := 9 },
                   ctime := { tv_sec := 0, tv_usec := 0 },
                   crtime := { tv_sec := 0, tv_usec := 0 } } }
      "").fattr.mtime = { tv_sec := 1700000000, tv_usec := 250 } :=
  (lookup_type_and_times _ "").2.2.1 _ 1700000000 250
    ⟨by decide, by decide, "", " ", "", by decide, by decide, by decide, by decide, by decide⟩

/-! ## Encoding followed by decoding -/

/-- Counterexample for C16: two Create operations that differ only in the file
id (5 and 6) produce the same request text, so no property parser makes
decoding that text reproduce both; and on the keys of that text the decoder
gives file id -1 and status -1 for an operation that held 5 and 0. -/
theorem roundtrip_loses_response_fields :
    (¬ ∃ d : Decls,
      CreateOp.ParseResponseHeader d
          { seq := 1, status := 0, contentLength := 0, contentBuf := none, parentFid := 2,
            filename := "a.txt", numReplicas := 3, fileId := 5 }
          (CreateOp.Request
            { seq := 1, status := 0, contentLength := 0, contentBuf := none, parentFid := 2,
              filename := "a.txt", numReplicas := 3, fileId := 5 }) =
        { seq := 1, status := 0, contentLength := 0, contentBuf := none, parentFid := 2,
          filename := "a.txt", numReplicas := 3, fileId := 5 } ∧
      CreateOp.ParseResponseHeader d
          { seq := 1, status := 0, contentLength := 0, contentBuf := none, parentFid := 2,
            filename := "a.txt", numReplicas := 3, fileId := 6 }
          (CreateOp.Request
            { seq := 1, status := 0, contentLength := 0, contentBuf := none, parentFid := 2,
              filename := "a.txt", numReplicas := 3, fileId := 6 }) =
        { seq := 1, status := 0, contentLength := 0, contentBuf := none, parentFid := 2,
          filename := "a.txt", numReplicas := 3, fileId := 6 }) ∧
    (CreateOp.ParseResponseHeader
      { cxx11 := false,
        loadProperties := fun _ =>
          { propmap := [("Cseq", "1"), ("Version", "KFS/1.0"), ("Parent File-handle", "2"),
                        ("Filename", "a.txt"), ("Num-replicas", "3")] },
        ToString := fun l => l.hostname ++ " " ++ toString l.port,
        defaultLoc := { hostname := "", port := -1 },
        defaultLayout := { fileOffset := -1, chunkId := -1, chunkVersion := 0,
                           chunkServers := [] },
        uninitInt := 0 }
      { seq := 1, status := 0, contentLength := 0, contentBuf := none, parentFid := 2,
        filename := "a.txt", numReplicas := 3, fileId := 5 }
      (CreateOp.Request
        { seq := 1, status := 0, contentLength := 0, contentBuf := none, parentFid := 2,
          filename := "a.txt", numReplicas := 3, fileId := 5 })).fileId = -1 ∧
    (CreateOp.ParseResponseHeader
      { cxx11 := false,
        loadProperties := fun _ =>
          { propmap := [("Cseq", "1"), ("Version", "KFS/1.0"), ("Parent File-handle", "2"),
                        ("Filename", "a.txt"), ("Num-replicas", "3")] },
        ToString := fun l => l.hostname ++ " " ++ toString l.port,
        defaultLoc := { hostname := "", port := -1 },
        defaultLayout := { fileOffset := -1, chunkId := -1, chunkVersion := 0,
                           chunkServers := [] },
        uninitInt := 0 }
      { seq := 1, status := 0, contentLength := 0, contentBuf := none, parentFid := 2,
        filename := "a.txt", numReplicas := 3, fileId := 5 }
      (CreateOp.Request
        { seq := 1, status := 0, contentLength := 0, contentBuf := none, parentFid := 2,
          filename := "a.txt", numReplicas := 3, fileId := 5 })).status = -1 := by
  refine ⟨?_, by decide, by decide⟩
  rintro ⟨d, hA, hB⟩
  have h5 := congrArg CreateOp.fileId hA
  have h6 := congrArg CreateOp.fileId hB
  simp only [CreateOp.ParseResponseHeader, KfsOp.ParseResponseHeaderCommon, CreateOp.Request]
    at h5 h6
  rw [h5] at h6
  exact absurd h6 (by decide)

/-- C16, as the code has it: for every kind, every operation value and every
text, in particular the text produced by `Request`, `ParseResponseHeader`
changes none of the members that `Request` encodes, so encoding the decoded
operation again produces the same text; the response-side members (status,
content length, file id and the like) are not part of the request text and are
set from the decoded header. -/
theorem decode_keeps_encoded (d : Decls) (op : Op) (resp : String) :
    (Op.ParseResponseHeader d op resp).encoded = op.encoded ∧
    Op.Request d (Op.ParseResponseHeader d op resp) = Op.Request d op := by
  cases op <;> exact ⟨rfl, rfl⟩

end KFS
